import Mathlib

/-!
# Grid model and step-animation engine of the A* pathfinding visualizer

Shallow embedding of `src/web/static/js/app.js` (class `PathfindingVisualizer`).

* Coordinates are JavaScript numbers that only ever hold integers here; they are `Int`
  (pointer positions and `gridSize - 2` can be negative).
* `grid.nodes` is an array of rows, `nodes[y][x]`; it is a `List (List Node)`.
* Reading a property of `nodes[y][x]` when the row or the cell does not exist throws a
  `TypeError`; operations therefore return `Option`, `none` standing for the thrown error.
* `draw`, `drawCell` and `console.log` write only to the canvas and the console, which are not
  part of the state; the colour resolution of `draw` is `nodeColor`.
* The browser's pending `requestAnimationFrame` callbacks and `setTimeout` callbacks of the
  animation loop are explicit fields of the state (`frames`, `timeouts`).
-/

namespace Visualizer

/-- Integer pair `{x, y}`. -/
structure Point where
  x : Int
  y : Int
deriving DecidableEq, Repr

/-- One cell of `grid.nodes`, as built in `createGrid`. -/
structure Node where
  point : Point
  is_wall : Bool
  is_start : Bool
  is_end : Bool
  is_path : Bool
  visited : Bool
  in_open_set : Bool
deriving DecidableEq, Repr

/-- The object `this.grid`; the field `end` of the source is `end_` here. -/
structure Grid where
  width : Int
  height : Int
  start : Point
  end_ : Point
  nodes : List (List Node)
deriving DecidableEq, Repr

/-- One element of `animationSteps`; `path` is optional in the response. -/
structure Step where
  closed_set : List Point
  open_set : List Point
  current_node : Point
  is_complete : Bool
  path : Option (List Point)
deriving DecidableEq, Repr

/-- The fields of a `PathfindingVisualizer` instance that the grid model and the animation loop
read or write, the DOM texts they set, and the browser's pending callbacks.

* `animationId`: `null` is `none`; handles returned by `requestAnimationFrame` are non-zero.
* `status`: text of the `#status` element (`setStatus`).
* `loading`: whether `#loading` carries the class `show`; `findPathDisabled`: the `disabled`
  property of the `#findPath` button (`showLoading`).
* `message`: text and type of the toast of `showMessage`.
* `frames`: handles of the `requestAnimationFrame` callbacks still pending (each one is the
  function `animate`); `timeouts`: delays of the pending `setTimeout` callbacks of `animate`
  (each one does `this.animationId = requestAnimationFrame(animate)`); `nextHandle`: the handle
  the next `requestAnimationFrame` call returns. -/
structure App where
  gridSize : Nat
  grid : Grid
  isMouseDown : Bool
  isDrawing : Bool
  animationId : Option Nat
  animationSteps : List Step
  currentStep : Nat
  animationSpeed : Int
  status : String
  loading : Bool
  findPathDisabled : Bool
  message : Option (String × String)
  frames : List Nat
  timeouts : List Int
  nextHandle : Nat
deriving DecidableEq, Repr

/-! ## Node access -/

/-- The expression `this.grid.nodes[y][x]`, `none` when the row or the cell does not exist. -/
def Grid.node? (g : Grid) (x y : Int) : Option Node :=
  if x < 0 ∨ y < 0 then none
  else match g.nodes[y.toNat]? with
    | none => none
    | some row => row[x.toNat]?

/-- The grid in which the cell `nodes[y][x]` holds `nd` (used only where the cell exists). -/
def Grid.setNode (g : Grid) (x y : Int) (nd : Node) : Grid :=
  match g.nodes[y.toNat]? with
  | none => g
  | some row => { g with nodes := g.nodes.set y.toNat (row.set x.toNat nd) }

/-- An assignment to properties of `this.grid.nodes[y][x]`: throws when the node is missing. -/
def Grid.modify (g : Grid) (x y : Int) (f : Node → Node) : Option Grid :=
  match g.node? x y with
  | none => none
  | some nd => some (g.setNode x y (f nd))

/-- The grid has `n` rows of `n` cells each. -/
def Grid.Square (n : Nat) (g : Grid) : Prop :=
  g.nodes.length = n ∧ ∀ row ∈ g.nodes, row.length = n

/-- The pair `(x, y)` indexes a cell of an `n` by `n` grid. -/
def InBounds (n : Nat) (x y : Int) : Prop :=
  0 ≤ x ∧ x < n ∧ 0 ≤ y ∧ y < n

instance (n : Nat) (x y : Int) : Decidable (InBounds n x y) :=
  inferInstanceAs (Decidable (0 ≤ x ∧ x < n ∧ 0 ≤ y ∧ y < n))

/-! ## Grid construction (`createGrid`, lines 48-75) -/

/-- The node literal of `createGrid` for the cell `(x, y)`. -/
def newNode (start end_ : Point) (x y : Int) : Node :=
  { point := ⟨x, y⟩
    is_wall := false
    is_start := x == start.x && y == start.y
    is_end := x == end_.x && y == end_.y
    is_path := false
    visited := false
    in_open_set := false }

/-- The grid object built by `createGrid` for `gridSize = n`. -/
def newGrid (n : Nat) : Grid :=
  let start : Point := ⟨1, 1⟩
  let end_ : Point := ⟨(n : Int) - 2, (n : Int) - 2⟩
  { width := n
    height := n
    start := start
    end_ := end_
    nodes := (List.range n).map fun (y : Nat) =>
      (List.range n).map fun (x : Nat) => newNode start end_ (x : Int) (y : Int) }

/-- Method `createGrid`: replaces `this.grid` by a fresh grid of size `this.gridSize`. -/
def createGrid (a : App) : App :=
  { a with grid := newGrid a.gridSize }

/-! ## Editing operations (lines 153-187) -/

/-- Method `setStart(x, y)`. -/
def setStart (a : App) (x y : Int) : Option App :=
  let oldStart := a.grid.start
  match a.grid.modify oldStart.x oldStart.y (fun nd => { nd with is_start := false }) with
  | none => none
  | some g1 =>
    let g2 : Grid := { g1 with start := ⟨x, y⟩ }
    match g2.modify x y (fun nd => { nd with is_start := true }) with
    | none => none
    | some g3 =>
      match g3.modify x y (fun nd => { nd with is_wall := false }) with
      | none => none
      | some g4 => some { a with grid := g4 }

/-- Method `setEnd(x, y)`. -/
def setEnd (a : App) (x y : Int) : Option App :=
  let oldEnd := a.grid.end_
  match a.grid.modify oldEnd.x oldEnd.y (fun nd => { nd with is_end := false }) with
  | none => none
  | some g1 =>
    let g2 : Grid := { g1 with end_ := ⟨x, y⟩ }
    match g2.modify x y (fun nd => { nd with is_end := true }) with
    | none => none
    | some g3 =>
      match g3.modify x y (fun nd => { nd with is_wall := false }) with
      | none => none
      | some g4 => some { a with grid := g4 }

/-- Method `toggleWall(x, y)`. -/
def toggleWall (a : App) (x y : Int) : Option App :=
  match a.grid.node? x y with
  | none => none
  | some node =>
    if node.is_start || node.is_end then some a
    else some { a with grid := a.grid.setNode x y { node with is_wall := !node.is_wall } }

/-! ## Loops over the grid (lines 347-396) -/

/-- The loop nest `for (y = 0; y < n; y++) for (x = 0; x < n; x++) body`, threading the state
the body mutates; it stops with `none` as soon as the body throws. -/
def forCells {σ : Type} (n : Nat) (body : Int → Int → σ → Option σ) (s : σ) : Option σ :=
  (List.range n).foldlM
    (fun (s : σ) (y : Nat) =>
      (List.range n).foldlM (fun (s : σ) (x : Nat) => body (x : Int) (y : Int) s) s) s

/-- The three assignments of the body of `clearVisualization`. -/
def clearFlags (nd : Node) : Node :=
  { nd with visited := false, in_open_set := false, is_path := false }

/-- Method `clearVisualization`. -/
def clearVisualization (a : App) : Option App :=
  match forCells a.gridSize (fun x y g => g.modify x y clearFlags) a.grid with
  | none => none
  | some g => some { a with grid := g }

/-- Body of the loop of `clearWalls`. -/
def clearWallsBody (x y : Int) (g : Grid) : Option Grid :=
  match g.node? x y with
  | none => none
  | some nd =>
    if !nd.is_start && !nd.is_end then some (g.setNode x y { nd with is_wall := false })
    else some g

/-- Method `clearWalls`. -/
def clearWalls (a : App) : Option App :=
  match forCells a.gridSize clearWallsBody a.grid with
  | none => none
  | some g => some { a with grid := g }

/-- The value of the literal `0.3` of line 388. It is a double, the one nearest to 3/10, and
its exact value is `5404319552844595 / 2 ^ 54`, slightly below 3/10. -/
def wallThreshold : ℚ :=
  5404319552844595 / 18014398509481984

/-- Body of the second loop of `generateMaze`. The state is the grid and the number of calls
made to `Math.random` so far; `rnd k` is the exact value of the double returned by call number
`k`, and `<` on doubles is `<` on their values. The call is made only for a node that is
neither start nor end (`&&` short-circuits). -/
def generateMazeBody (rnd : Nat → ℚ) (x y : Int) (s : Grid × Nat) : Option (Grid × Nat) :=
  match s.1.node? x y with
  | none => none
  | some nd =>
    if !nd.is_start && !nd.is_end then
      if rnd s.2 < wallThreshold then
        some (s.1.setNode x y { nd with is_wall := true }, s.2 + 1)
      else some (s.1, s.2 + 1)
    else some s

/-- Method `generateMaze`; `rnd` gives the successive results of `Math.random()`. -/
def generateMaze (a : App) (rnd : Nat → ℚ) : Option App :=
  match clearWalls a with
  | none => none
  | some a1 =>
    match forCells a1.gridSize (generateMazeBody rnd) (a1.grid, 0) with
    | none => none
    | some s => some { a1 with grid := s.1, message := some ("Random maze generated!", "info") }

/-! ## Painting solver output (lines 263-345) -/

/-- A `forEach` over points whose body is
`if (!skip(nodes[p.y][p.x])) nodes[p.y][p.x] := f(nodes[p.y][p.x])`. -/
def markPoints (skip : Node → Bool) (f : Node → Node) (pts : List Point) (g : Grid) :
    Option Grid :=
  pts.foldlM
    (fun g p =>
      match g.node? p.x p.y with
      | none => none
      | some nd => if skip nd then some g else some (g.setNode p.x p.y (f nd)))
    g

/-- The test `is_start || is_end` that every painting loop negates. -/
def Node.isMarker (nd : Node) : Bool :=
  nd.is_start || nd.is_end

/-- The painting part of one call of `animate` for the step `step` (lines 276-302). -/
def paintStep (a : App) (step : Step) : Option App :=
  match clearVisualization a with
  | none => none
  | some a1 =>
    match markPoints Node.isMarker (fun nd => { nd with visited := true }) step.closed_set
        a1.grid with
    | none => none
    | some g2 =>
      match markPoints Node.isMarker (fun nd => { nd with in_open_set := true }) step.open_set
          g2 with
      | none => none
      | some g3 =>
        if step.is_complete && step.path.isSome then
          match markPoints Node.isMarker (fun nd => { nd with is_path := true })
              (step.path.getD []) g3 with
          | none => none
          | some g4 => some { a1 with grid := g4 }
        else some { a1 with grid := g3 }

/-- The closure `animate` of `animatePathfinding` (lines 268-321), one tick. The lookup is
`none` exactly when `currentStep >= animationSteps.length`. -/
def animate (a : App) : Option App :=
  match a.animationSteps[a.currentStep]? with
  | none => some a
  | some step =>
    match paintStep a step with
    | none => none
    | some a1 =>
      let a2 : App := { a1 with currentStep := a1.currentStep + 1 }
      if step.is_complete then some { a2 with status := "Animation complete" }
      else some { a2 with timeouts := a2.timeouts ++ [110 - a2.animationSpeed * 10] }

/-- Browser function `cancelAnimationFrame(id)`. -/
def cancelAnimationFrame (a : App) (id : Nat) : App :=
  { a with frames := a.frames.filter (fun h => h != id) }

/-- The guard `if (this.animationId) cancelAnimationFrame(this.animationId)`. -/
def cancelPending (a : App) : App :=
  match a.animationId with
  | none => a
  | some id => if id != 0 then cancelAnimationFrame a id else a

/-- Method `animatePathfinding`. -/
def animatePathfinding (a : App) : Option App :=
  animate (cancelPending a)

/-- A pending `setTimeout` callback of `animate` runs: it is removed from the pending ones and
does `this.animationId = requestAnimationFrame(animate)`. `none` when there is no pending
callback number `i`. -/
def fireTimeout (a : App) (i : Nat) : Option App :=
  match a.timeouts[i]? with
  | none => none
  | some _ =>
    some { a with
      timeouts := a.timeouts.eraseIdx i
      frames := a.frames ++ [a.nextHandle]
      animationId := some a.nextHandle
      nextHandle := a.nextHandle + 1 }

/-- A pending animation frame callback runs: it leaves the pending ones and calls `animate`.
`none` when no callback with that handle is pending, or when `animate` throws. -/
def fireFrame (a : App) (id : Nat) : Option App :=
  if id ∈ a.frames then animate { a with frames := a.frames.filter (fun h => h != id) }
  else none

/-- The part of a successful response that `displayResult` reads. -/
structure SolverResult where
  path : Option (List Point)
  explored_nodes : Option (List Point)
deriving DecidableEq, Repr

/-- Method `displayResult(result)`; calling `forEach` on a missing array throws. -/
def displayResult (a : App) (result : SolverResult) : Option App :=
  match result.path, result.explored_nodes with
  | some path, some explored =>
    match markPoints Node.isMarker (fun nd => { nd with is_path := true }) path a.grid with
    | none => none
    | some g1 =>
      match markPoints (fun nd => nd.isMarker || nd.is_path)
          (fun nd => { nd with visited := true }) explored g1 with
      | none => none
      | some g2 => some { a with grid := g2 }
  | _, _ => none

/-! ## Clearing and rebuilding (lines 358-416) -/

/-- Method `clearPath`. -/
def clearPath (a : App) : Option App :=
  let a1 : App :=
    match a.animationId with
    | none => a
    | some id => if id != 0 then { cancelAnimationFrame a id with animationId := none } else a
  match clearVisualization a1 with
  | none => none
  | some a2 => some { a2 with status := "Ready" }

/-- Method `resetGrid`. -/
def resetGrid (a : App) : Option App :=
  match clearPath a with
  | none => none
  | some a1 => some { createGrid a1 with status := "Ready" }

/-- Method `onGridSizeChange`, `n` being `parseInt(e.target.value)`. -/
def onGridSizeChange (a : App) (n : Nat) : App :=
  createGrid { a with gridSize := n }

/-- Method `onSpeedChange`, `s` being `parseInt(e.target.value)`. -/
def onSpeedChange (a : App) (s : Int) : App :=
  { a with animationSpeed := s }

/-! ## Pointer handlers (lines 110-138) -/

/-- What the handlers read of a mouse event: the cell position `getMousePos(e)`, `e.button`
and `e.ctrlKey`. -/
structure MouseEvent where
  x : Int
  y : Int
  button : Int
  ctrlKey : Bool
deriving DecidableEq, Repr

/-- The test `pos.x < 0 || pos.x >= gridSize || pos.y < 0 || pos.y >= gridSize`. -/
def outside (a : App) (x y : Int) : Bool :=
  decide (x < 0) || decide (x ≥ (a.gridSize : Int)) || decide (y < 0)
    || decide (y ≥ (a.gridSize : Int))

/-- Method `onMouseDown`. -/
def onMouseDown (a : App) (e : MouseEvent) : Option App :=
  let a1 : App := { a with isMouseDown := true }
  if outside a1 e.x e.y then some a1
  else if e.button == 2 then setStart a1 e.x e.y
  else if e.ctrlKey then setEnd a1 e.x e.y
  else
    match toggleWall a1 e.x e.y with
    | none => none
    | some a2 => some { a2 with isDrawing := true }

/-- Method `onMouseMove`. -/
def onMouseMove (a : App) (e : MouseEvent) : Option App :=
  if !a.isMouseDown || !a.isDrawing then some a
  else if outside a e.x e.y then some a
  else toggleWall a e.x e.y

/-- Method `onMouseUp`. -/
def onMouseUp (a : App) : App :=
  { a with isMouseDown := false, isDrawing := false }

/-! ## Colour resolution of `draw` (lines 418-435) -/

/-- The table `this.colors`. -/
structure Colors where
  empty : String
  wall : String
  start : String
  end_ : String
  explored : String
  path : String
  openSet : String
  current : String
deriving DecidableEq, Repr

/-- The value of `this.colors` set in the constructor. -/
def colors : Colors :=
  { empty := "#ffffff", wall := "#333333", start := "#4CAF50", end_ := "#f44336",
    explored := "#87CEEB", path := "#FFD700", openSet := "#90EE90", current := "#FF6B6B" }

/-- The colour `draw` passes to `drawCell` for a node (lines 424-431). -/
def nodeColor (c : Colors) (node : Node) : String :=
  if node.is_wall then c.wall
  else if node.is_start then c.start
  else if node.is_end then c.end_
  else if node.is_path then c.path
  else if node.in_open_set then c.openSet
  else if node.visited then c.explored
  else c.empty

/-- The state the constructor leaves (lines 2-30), for `gridSize = 30`. -/
def initial : App :=
  createGrid
    { gridSize := 30
      grid := newGrid 0
      isMouseDown := false
      isDrawing := false
      animationId := none
      animationSteps := []
      currentStep := 0
      animationSpeed := 5
      status := ""
      loading := false
      findPathDisabled := false
      message := none
      frames := []
      timeouts := []
      nextHandle := 1 }

/-! ## Relations between grids used in the statements -/

/-- The grids `g` and `g1` agree on `width`, `height`, `start` and `end`. -/
def Grid.SameHeader (g g1 : Grid) : Prop :=
  g1.width = g.width ∧ g1.height = g.height ∧ g1.start = g.start ∧ g1.end_ = g.end_

/-- The grid `g1` is `g` with the cell `(x, y)` replaced by `v` and nothing else changed. -/
def Grid.LocalUpdate (g g1 : Grid) (x y : Int) (v : Node) : Prop :=
  g.SameHeader g1 ∧ (∀ n, g.Square n → g1.Square n) ∧
    ∀ a b, g1.node? a b = if a = x ∧ b = y then some v else g.node? a b

instance (n : Nat) (g : Grid) : Decidable (g.Square n) :=
  inferInstanceAs (Decidable (g.nodes.length = n ∧ ∀ row ∈ g.nodes, row.length = n))

/-! ## Predicates of the statements -/

/-- The flags of a node paired with their colours, in the precedence order
wall, start, end, path, open-set, explored. -/
def precedence (c : Colors) (node : Node) : List (Bool × String) :=
  [(node.is_wall, c.wall), (node.is_start, c.start), (node.is_end, c.end_),
   (node.is_path, c.path), (node.in_open_set, c.openSet), (node.visited, c.explored)]

/-- The colour of the first flag that is true in the precedence order, and the empty colour
when no flag is true. -/
def precedenceColor (c : Colors) (node : Node) : String :=
  match (precedence c node).find? (fun p => p.1) with
  | some p => p.2
  | none => c.empty

/-- The grid is a freshly built grid of size `n`: `n` rows of `n` nodes, `nodes[y][x]` having
point `(x, y)`, no wall, no transient flag, and the start and end flags exactly at
`start = (1, 1)` and `end = (n - 2, n - 2)`. -/
def Grid.Fresh (n : Nat) (g : Grid) : Prop :=
  g.width = n ∧ g.height = n ∧ g.nodes.length = n ∧ (∀ row ∈ g.nodes, row.length = n) ∧
  g.start = ⟨1, 1⟩ ∧ g.end_ = ⟨(n : Int) - 2, (n : Int) - 2⟩ ∧
  ∀ x y : Nat, x < n → y < n →
    g.node? x y = some
      { point := ⟨x, y⟩
        is_wall := false
        is_start := decide ((⟨x, y⟩ : Point) = g.start)
        is_end := decide ((⟨x, y⟩ : Point) = g.end_)
        is_path := false
        visited := false
        in_open_set := false }

/-- The marker invariant: the node at `grid.start` exists and is the only node with `is_start`,
the node at `grid.end` exists and is the only node with `is_end`, and no wall carries a
marker. Nodes are identified by their position `(x, y)` in `nodes[y][x]`. -/
def Grid.MarkerInvariant (g : Grid) : Prop :=
  (∃ s, g.node? g.start.x g.start.y = some s ∧ s.is_start = true) ∧
  (∀ x y nd, g.node? x y = some nd → nd.is_start = true → x = g.start.x ∧ y = g.start.y) ∧
  (∃ e, g.node? g.end_.x g.end_.y = some e ∧ e.is_end = true) ∧
  (∀ x y nd, g.node? x y = some nd → nd.is_end = true → x = g.end_.x ∧ y = g.end_.y) ∧
  (∀ x y nd, g.node? x y = some nd → nd.is_wall = true →
    nd.is_start = false ∧ nd.is_end = false)

/-- Effect of `setStart(x, y)` from the grid `g` to the grid `g1`, as C6 states it. -/
def SetStartEffect (g g1 : Grid) (x y : Int) : Prop :=
  g1.start = ⟨x, y⟩ ∧ g1.end_ = g.end_ ∧
  (∃ m, g1.node? x y = some m ∧ m.is_start = true ∧ m.is_wall = false) ∧
  (¬ (g.start.x = x ∧ g.start.y = y) →
    ∃ m, g1.node? g.start.x g.start.y = some m ∧ m.is_start = false) ∧
  (∀ u v nd, g.node? u v = some nd → ∃ m, g1.node? u v = some m ∧
    m.point = nd.point ∧ m.is_end = nd.is_end ∧ m.is_path = nd.is_path ∧
    m.visited = nd.visited ∧ m.in_open_set = nd.in_open_set ∧
    (¬ (u = x ∧ v = y) → m.is_wall = nd.is_wall))

/-- Effect of `setEnd(x, y)` from the grid `g` to the grid `g1`, as C6 states it. -/
def SetEndEffect (g g1 : Grid) (x y : Int) : Prop :=
  g1.end_ = ⟨x, y⟩ ∧ g1.start = g.start ∧
  (∃ m, g1.node? x y = some m ∧ m.is_end = true ∧ m.is_wall = false) ∧
  (¬ (g.end_.x = x ∧ g.end_.y = y) →
    ∃ m, g1.node? g.end_.x g.end_.y = some m ∧ m.is_end = false) ∧
  (∀ u v nd, g.node? u v = some nd → ∃ m, g1.node? u v = some m ∧
    m.point = nd.point ∧ m.is_start = nd.is_start ∧ m.is_path = nd.is_path ∧
    m.visited = nd.visited ∧ m.in_open_set = nd.in_open_set ∧
    (¬ (u = x ∧ v = y) → m.is_wall = nd.is_wall))

/-- The grid `g1` is `g` with every transient flag false and everything else as in `g`. -/
def Grid.Cleared (g g1 : Grid) : Prop :=
  g1.width = g.width ∧ g1.height = g.height ∧ g1.start = g.start ∧ g1.end_ = g.end_ ∧
  (∀ x y, g.node? x y = none → g1.node? x y = none) ∧
  (∀ x y nd, g.node? x y = some nd → ∃ m, g1.node? x y = some m ∧
    m.visited = false ∧ m.in_open_set = false ∧ m.is_path = false ∧
    m.is_wall = nd.is_wall ∧ m.is_start = nd.is_start ∧ m.is_end = nd.is_end ∧
    m.point = nd.point)

/-- The node update of `setStart(x, y)` at the cell `(u, v)`, `(sx, sy)` being the old start. -/
def startUpdate (sx sy x y u v : Int) (m : Node) : Node :=
  if u = x ∧ v = y then { m with is_start := true, is_wall := false }
  else if u = sx ∧ v = sy then { m with is_start := false }
  else m

/-- The node update of `setEnd(x, y)` at the cell `(u, v)`, `(ex, ey)` being the old end. -/
def endUpdate (ex ey x y u v : Int) (m : Node) : Node :=
  if u = x ∧ v = y then { m with is_end := true, is_wall := false }
  else if u = ex ∧ v = ey then { m with is_end := false }
  else m

/-- Every point the painting loops of a tick read from `step` is a cell of an `n` by `n`
grid. -/
def StepInBounds (n : Nat) (step : Step) : Prop :=
  (∀ p ∈ step.closed_set, InBounds n p.x p.y) ∧ (∀ p ∈ step.open_set, InBounds n p.x p.y) ∧
    ∀ p ∈ step.path.getD [], InBounds n p.x p.y

/-- The node a tick on `step` leaves at the cell `(x, y)` that held `nd`: the structural
fields of `nd`, and the transient flags decided by `step` alone. -/
def paintNode (step : Step) (x y : Int) (nd : Node) : Node :=
  { nd with
    visited := decide ((⟨x, y⟩ : Point) ∈ step.closed_set) && !nd.isMarker
    in_open_set := decide ((⟨x, y⟩ : Point) ∈ step.open_set) && !nd.isMarker
    is_path := step.is_complete && step.path.isSome
      && (decide ((⟨x, y⟩ : Point) ∈ step.path.getD []) && !nd.isMarker) }

/-- The states reachable from `createGrid` at a grid size of at least 2 by the editing
operations, the clearing operations, `generateMaze`, `displayResult` and the events of the
animation loop, every coordinate and point being inside the grid. `loadSteps` is the pair of
assignments of `findPath` (lines 240-241) that installs the steps a tick reads. -/
inductive Reachable : App → Prop
  | init (a0 : App) :
      2 ≤ a0.gridSize → (∀ s ∈ a0.animationSteps, StepInBounds a0.gridSize s) →
      Reachable (createGrid a0)
  | toggleWall {a a1 : App} (x y : Int) :
      Reachable a → InBounds a.gridSize x y → toggleWall a x y = some a1 → Reachable a1
  | setStart {a a1 : App} (x y : Int) :
      Reachable a → InBounds a.gridSize x y → setStart a x y = some a1 → Reachable a1
  | setEnd {a a1 : App} (x y : Int) :
      Reachable a → InBounds a.gridSize x y → setEnd a x y = some a1 → Reachable a1
  | clearWalls {a a1 : App} : Reachable a → clearWalls a = some a1 → Reachable a1
  | generateMaze {a a1 : App} (rnd : Nat → ℚ) :
      Reachable a → generateMaze a rnd = some a1 → Reachable a1
  | clearVisualization {a a1 : App} :
      Reachable a → clearVisualization a = some a1 → Reachable a1
  | displayResult {a a1 : App} (result : SolverResult) :
      Reachable a → (∀ p ∈ result.path.getD [], InBounds a.gridSize p.x p.y) →
      (∀ p ∈ result.explored_nodes.getD [], InBounds a.gridSize p.x p.y) →
      displayResult a result = some a1 → Reachable a1
  | loadSteps {a : App} (steps : List Step) :
      Reachable a → (∀ s ∈ steps, StepInBounds a.gridSize s) →
      Reachable { a with animationSteps := steps, currentStep := 0 }
  | animatePathfinding {a a1 : App} :
      Reachable a → animatePathfinding a = some a1 → Reachable a1
  | fireTimeout {a a1 : App} (i : Nat) :
      Reachable a → fireTimeout a i = some a1 → Reachable a1
  | fireFrame {a a1 : App} (id : Nat) :
      Reachable a → fireFrame a id = some a1 → Reachable a1

/-- The grid `g1` is what a tick on `step` leaves of the grid `g`, as C3 states it: the
transient flags of each node are decided by `step` and by whether the node is a marker, and
`is_wall`, `is_start`, `is_end`, `grid.start` and `grid.end` are those of `g`. A node is
identified by its position `(x, y)` in `nodes[y][x]`. -/
def Painted (step : Step) (g g1 : Grid) : Prop :=
  g1.start = g.start ∧ g1.end_ = g.end_ ∧
  ∀ x y nd, g.node? x y = some nd → ∃ m, g1.node? x y = some m ∧
    (m.visited = true ↔
      (nd.is_start = false ∧ nd.is_end = false ∧ (⟨x, y⟩ : Point) ∈ step.closed_set)) ∧
    (m.in_open_set = true ↔
      (nd.is_start = false ∧ nd.is_end = false ∧ (⟨x, y⟩ : Point) ∈ step.open_set)) ∧
    (m.is_path = true ↔
      (step.is_complete = true ∧ ∃ path, step.path = some path ∧
        nd.is_start = false ∧ nd.is_end = false ∧ (⟨x, y⟩ : Point) ∈ path)) ∧
    m.is_wall = nd.is_wall ∧ m.is_start = nd.is_start ∧ m.is_end = nd.is_end

/-- The diagonal path `(1, 1), (2, 2), ..., (28, 28)` used as a concrete instance. -/
def diagonalPath : List Point :=
  (List.range 28).map fun (i : Nat) => ⟨(i : Int) + 1, (i : Int) + 1⟩

/-- A final step carrying the diagonal path. -/
def diagonalStep : Step :=
  { closed_set := [⟨1, 1⟩, ⟨2, 2⟩, ⟨2, 1⟩]
    open_set := [⟨3, 2⟩, ⟨2, 3⟩]
    current_node := ⟨28, 28⟩
    is_complete := true
    path := some diagonalPath }

instance (n : Nat) (step : Step) : Decidable (StepInBounds n step) :=
  inferInstanceAs (Decidable ((∀ p ∈ step.closed_set, InBounds n p.x p.y) ∧
    (∀ p ∈ step.open_set, InBounds n p.x p.y) ∧ ∀ p ∈ step.path.getD [], InBounds n p.x p.y))

/-- The node update of the body of `clearWalls`. -/
def clearWall (nd : Node) : Node :=
  if !nd.is_start && !nd.is_end then { nd with is_wall := false } else nd

/-- The invariant carried along the reachable states: the grid has `gridSize` rows of
`gridSize` cells, it satisfies the marker invariant, and the installed steps name cells of
the grid only. -/
def App.Inv (a : App) : Prop :=
  a.grid.Square a.gridSize ∧ a.grid.MarkerInvariant ∧
    ∀ s ∈ a.animationSteps, StepInBounds a.gridSize s

/-- The press `e` asks `setStart` for the cell of the end marker, or `setEnd` for the cell of
the start marker. -/
def TargetsOtherMarker (a : App) (e : MouseEvent) : Prop :=
  (e.button = 2 ∧ e.x = a.grid.end_.x ∧ e.y = a.grid.end_.y) ∨
  (e.button ≠ 2 ∧ e.ctrlKey = true ∧ e.x = a.grid.start.x ∧ e.y = a.grid.start.y)

/-- The states reachable through the entry points of the program that build or edit the grid:
`createGrid` and the grid-size change at a size other than 3, and the pointer handlers, no
press targeting the other marker's cell. -/
inductive UiReachable : App → Prop
  | init (a0 : App) : a0.gridSize ≠ 3 → UiReachable (createGrid a0)
  | resize {a : App} (n : Nat) : UiReachable a → n ≠ 3 → UiReachable (onGridSizeChange a n)
  | mouseDown {a a1 : App} (e : MouseEvent) :
      UiReachable a → ¬ TargetsOtherMarker a e → onMouseDown a e = some a1 → UiReachable a1
  | mouseMove {a a1 : App} (e : MouseEvent) :
      UiReachable a → onMouseMove a e = some a1 → UiReachable a1
  | mouseUp {a : App} : UiReachable a → UiReachable (onMouseUp a)

/-! ## The tick chain of one playback -/

/-- The next tick of a chain: the pending `setTimeout` callback runs and requests an animation
frame, then that frame runs `animate`. `none` when nothing is pending. -/
def chainTick (a : App) : Option App :=
  match fireTimeout a 0 with
  | none => none
  | some a1 => fireFrame a1 a.nextHandle

/-- The state right after tick number `j` of the chain that `animatePathfinding` starts from
`a` (tick 0 is the call of `animate` inside `animatePathfinding`); `none` when the chain has
no tick number `j`. -/
def playback : Nat → App → Option App
  | 0, a => animatePathfinding a
  | j + 1, a =>
    match playback j a with
    | none => none
    | some s => chainTick s

/-- The state `s` is the one a chain started from `a` is in right after the tick that applied
the step `step` of index `j`. -/
def Applied (a : App) (j : Nat) (step : Step) (s : App) : Prop :=
  s.gridSize = a.gridSize ∧ s.animationSteps = a.animationSteps ∧
  s.animationSpeed = a.animationSpeed ∧ s.currentStep = j + 1 ∧ s.frames = [] ∧
  s.grid.Square a.gridSize ∧ a.grid.SameHeader s.grid ∧
  (∀ x y, s.grid.node? x y = (a.grid.node? x y).map (paintNode step x y)) ∧
  (step.is_complete = false →
    s.timeouts = [110 - a.animationSpeed * 10] ∧ s.status = a.status) ∧
  (step.is_complete = true → s.timeouts = [] ∧ s.status = "Animation complete")

/-- A step that is not final and names no cell. -/
def idleStep : Step :=
  { closed_set := [], open_set := [], current_node := ⟨1, 1⟩, is_complete := false,
    path := none }

/-- Three steps, none of them final. -/
def threeIdle : List Step :=
  [idleStep, idleStep, idleStep]

/-- The initial state with the steps `threeIdle` installed, as `findPath` leaves it before it
calls `animatePathfinding` (lines 240-241). -/
def firstRun : App :=
  { initial with animationSteps := threeIdle, currentStep := 0 }

/-! ## Predicates of the statements on walls, delays and results -/

/-- The constant `delay` of `animate` (line 317) for the current `animationSpeed`. -/
def delay (a : App) : Int :=
  110 - a.animationSpeed * 10

/-- Effect of `clearWalls` from the grid `g` to the grid `g1`, as C19 states it. -/
def Grid.WallsCleared (g g1 : Grid) : Prop :=
  g1.start = g.start ∧ g1.end_ = g.end_ ∧
  ∀ x y nd, g.node? x y = some nd → ∃ m, g1.node? x y = some m ∧
    (nd.is_start = false → nd.is_end = false → m.is_wall = false) ∧
    (nd.is_start = true ∨ nd.is_end = true → m.is_wall = nd.is_wall) ∧
    m.is_start = nd.is_start ∧ m.is_end = nd.is_end ∧ m.is_path = nd.is_path ∧
    m.visited = nd.visited ∧ m.in_open_set = nd.in_open_set ∧ m.point = nd.point

/-- Every transient flag of every node of the grid is false. -/
def Grid.NoTransient (g : Grid) : Prop :=
  ∀ x y nd, g.node? x y = some nd →
    nd.visited = false ∧ nd.in_open_set = false ∧ nd.is_path = false

/-- Effect of `displayResult` with the arrays `path` and `explored` from the grid `g` to the
grid `g1`, as C20 states it; a node is identified by its position `(x, y)`. -/
def Displayed (path explored : List Point) (g g1 : Grid) : Prop :=
  g1.start = g.start ∧ g1.end_ = g.end_ ∧
  ∀ x y nd, g.node? x y = some nd → ∃ m, g1.node? x y = some m ∧
    (m.is_path = true ↔
      (nd.is_start = false ∧ nd.is_end = false ∧ (⟨x, y⟩ : Point) ∈ path)) ∧
    (m.visited = true ↔
      (nd.is_start = false ∧ nd.is_end = false ∧ (⟨x, y⟩ : Point) ∈ explored ∧
        (⟨x, y⟩ : Point) ∉ path)) ∧
    ¬ (m.is_path = true ∧ m.visited = true) ∧ m.in_open_set = false ∧
    m.is_wall = nd.is_wall ∧ m.is_start = nd.is_start ∧ m.is_end = nd.is_end

/-! ## Calls made by the pointer handlers -/

/-- A call of one of the three editing methods, as the pointer handlers make them. -/
inductive Call where
  | toggleWall (x y : Int)
  | setStart (x y : Int)
  | setEnd (x y : Int)
deriving DecidableEq, Repr

/-- The first argument of a call. -/
def Call.x : Call → Int
  | .toggleWall x _ => x
  | .setStart x _ => x
  | .setEnd x _ => x

/-- The second argument of a call. -/
def Call.y : Call → Int
  | .toggleWall _ y => y
  | .setStart _ y => y
  | .setEnd _ y => y

/-- Carrying out a call. -/
def Call.run (a : App) : Call → Option App
  | .toggleWall x y => Visualizer.toggleWall a x y
  | .setStart x y => Visualizer.setStart a x y
  | .setEnd x y => Visualizer.setEnd a x y

/-- The editing calls `onMouseDown` makes, branch by branch (lines 114-123). -/
def onMouseDownCalls (a : App) (e : MouseEvent) : List Call :=
  if outside { a with isMouseDown := true } e.x e.y then []
  else if e.button == 2 then [Call.setStart e.x e.y]
  else if e.ctrlKey then [Call.setEnd e.x e.y]
  else [Call.toggleWall e.x e.y]

/-- The editing calls `onMouseMove` makes, branch by branch (lines 127-132). -/
def onMouseMoveCalls (a : App) (e : MouseEvent) : List Call :=
  if !a.isMouseDown || !a.isDrawing then []
  else if outside a e.x e.y then []
  else [Call.toggleWall e.x e.y]

/-- Whether `onMouseDown` reaches the assignment `this.isDrawing = true` (line 122). -/
def startsDrawing (a : App) (e : MouseEvent) : Bool :=
  !outside { a with isMouseDown := true } e.x e.y && !(e.button == 2) && !e.ctrlKey

/-- A pointer event on the canvas. -/
inductive PointerEvent where
  | down (e : MouseEvent)
  | move (e : MouseEvent)
  | up
deriving DecidableEq, Repr

/-- The handler bound to a pointer event (lines 79-81). -/
def handlePointer (a : App) : PointerEvent → Option App
  | .down e => onMouseDown a e
  | .move e => onMouseMove a e
  | .up => some (onMouseUp a)

/-- The editing calls the handler of a pointer event makes. -/
def pointerCalls (a : App) : PointerEvent → List Call
  | .down e => onMouseDownCalls a e
  | .move e => onMouseMoveCalls a e
  | .up => []

/-- Handling a sequence of pointer events in order: the final state and the editing calls
made, in order. -/
def runPointer : App → List PointerEvent → Option (App × List Call)
  | a, [] => some (a, [])
  | a, ev :: evs =>
    match handlePointer a ev with
    | none => none
    | some a1 =>
      match runPointer a1 evs with
      | none => none
      | some r => some (r.1, pointerCalls a ev ++ r.2)

/-! ## The draws of `generateMaze` -/

/-- The test `!is_start && !is_end` of the loops over walls, at the cell `(x, y)`; false where
there is no cell. -/
def isFree (g : Grid) (x y : Int) : Bool :=
  match g.node? x y with
  | some nd => !nd.is_start && !nd.is_end
  | none => false

/-- The number of calls of `Math.random` the second loop of `generateMaze` makes for the cells
`(0, y), ..., (x - 1, y)`: one for each cell without marker. -/
def drawsInRow (g : Grid) (y x : Nat) : Nat :=
  ((List.range x).filter (fun (u : Nat) => isFree g (u : Int) (y : Int))).length

/-- The number of calls of `Math.random` made for the rows `0, ..., y - 1` of an `n` by `n`
grid. -/
def drawsBeforeRow (g : Grid) (n y : Nat) : Nat :=
  ((List.range y).map (fun (v : Nat) => drawsInRow g v n)).sum

/-- The number of calls of `Math.random` made before the loop reaches the cell `(x, y)`: the
index of the draw that decides this cell when it has no marker. -/
def drawIndex (g : Grid) (n x y : Nat) : Nat :=
  drawsBeforeRow g n y + drawsInRow g y x

/-- The node update of the body of the second loop of `generateMaze`, `k` being the index of
the next draw. -/
def mazeNode (rnd : Nat → ℚ) (k : Nat) (nd : Node) : Node :=
  if !nd.is_start && !nd.is_end then
    if rnd k < wallThreshold then { nd with is_wall := true } else nd
  else nd

/-- Effect of `generateMaze` with the draws `rnd` on an `n` by `n` grid `g`, giving `g1`:
a node without marker is a wall exactly when its draw is below the double `0.3`, a marker
node keeps `is_wall`, and nothing else changes. -/
def MazeOf (rnd : Nat → ℚ) (n : Nat) (g g1 : Grid) : Prop :=
  g1.start = g.start ∧ g1.end_ = g.end_ ∧
  ∀ (x y : Nat) (nd : Node), g.node? x y = some nd → ∃ m, g1.node? x y = some m ∧
    (nd.is_start = false → nd.is_end = false →
      (m.is_wall = true ↔ rnd (drawIndex g n x y) < wallThreshold)) ∧
    (nd.is_start = true ∨ nd.is_end = true → m.is_wall = nd.is_wall) ∧
    m.is_start = nd.is_start ∧ m.is_end = nd.is_end ∧ m.is_path = nd.is_path ∧
    m.visited = nd.visited ∧ m.in_open_set = nd.in_open_set ∧ m.point = nd.point

/-- A step that is not final and lists the cell `(2, 2)` as explored. -/
def markStep : Step :=
  { closed_set := [⟨2, 2⟩], open_set := [], current_node := ⟨2, 2⟩, is_complete := false,
    path := none }

/-- The initial state with three steps `markStep` installed and cursor 0. -/
def markRun : App :=
  { initial with animationSteps := [markStep, markStep, markStep], currentStep := 0 }

/-! ## The search request (`findPath`, lines 189-261) -/

/-- The payload of the request of `findPath` (lines 213-217). -/
structure Request where
  grid : Grid
  heuristic : String
  animate : Bool
deriving DecidableEq, Repr

/-- The fields of the response body that `findPath` reads to change the grid or start a
playback; `path_length` and `nodes_explored` only go to the statistics texts, which are not
part of the state. -/
structure Response where
  success : Bool
  steps : Option (List Step)
  path : Option (List Point)
  explored_nodes : Option (List Point)
deriving DecidableEq, Repr

/-- What the awaited `fetch` of `findPath` comes back with: a rejection or an unreadable body
(with the message of the error), a response that is not `ok` (with the `error` field of its
body, if any), or a response that is `ok` (with its body). -/
inductive FetchOutcome where
  | failed (message : String)
  | notOk (error : Option String)
  | ok (result : Response)
deriving DecidableEq, Repr

/-- Whether the row `nodes[y]` exists: the debug log of `findPath` reads
`nodes[start.y][start.x]` and `nodes[end.y][end.x]` (lines 200-201), which throws when the
row is missing. -/
def rowExists (g : Grid) (y : Int) : Bool :=
  decide (0 ≤ y) && (g.nodes[y.toNat]?).isSome

/-- The `catch` and `finally` blocks of `findPath` for an error with message `msg`
(lines 254-260). -/
def errorPath (a : App) (msg : String) : App :=
  { a with status := "Error occurred", message := some ("Error: " ++ msg, "error"),
           loading := false, findPathDisabled := false }

/-- The message of the error thrown for a response that is not `ok`:
`errorData.error || 'Unknown error'` (line 231). -/
def notOkMessage (error : Option String) : String :=
  match error with
  | some e => if e = "" then "Unknown error" else e
  | none => "Unknown error"

/-- The part of `findPath` before the `await` (lines 190-227): the state it leaves and the
request it sends, if any. `none` when `clearPath` or the debug log throws. -/
def findPathBegin (a : App) (heuristic : String) (animate : Bool) :
    Option (App × Option Request) :=
  match clearPath a with
  | none => none
  | some a1 =>
    let a2 : App := { a1 with loading := true, findPathDisabled := true,
                              status := "Finding path..." }
    if !(rowExists a2.grid a2.grid.start.y && rowExists a2.grid a2.grid.end_.y) then none
    else if a2.grid.start.x == a2.grid.end_.x && a2.grid.start.y == a2.grid.end_.y then
      some ({ a2 with message := some ("Please set different start and end points", "error"),
                      loading := false, findPathDisabled := false }, none)
    else some (a2, some { grid := a2.grid, heuristic := heuristic, animate := animate })

/-- The part of `findPath` after the `await` (lines 229-260), for each outcome of the
request, run from the state `a` in which the `await` ends. When `animatePathfinding` or
`displayResult` throws a `TypeError`, `findPath` catches it and goes on with a half painted
grid and a message whose text the engine chooses; the painting functions here do not keep a
half painted grid, so that run is not followed: the result `none` stands for it, and says
nothing of the state `findPath` then leaves. -/
def findPathResume (a : App) (o : FetchOutcome) : Option App :=
  match o with
  | .failed msg => some (errorPath a msg)
  | .notOk error => some (errorPath a (notOkMessage error))
  | .ok result =>
    if result.success then
      let painted : Option App :=
        match result.steps with
        | some (s :: ss) =>
          animatePathfinding { a with animationSteps := s :: ss, currentStep := 0 }
        | _ => displayResult a { path := result.path, explored_nodes := result.explored_nodes }
      match painted with
      | none => none
      | some a1 =>
        some { a1 with status := "Path found!",
                       message := some ("Path found successfully!", "success"),
                       loading := false, findPathDisabled := false }
    else
      some { a with status := "No path found",
                    message := some ("No path exists between start and end points", "error"),
                    loading := false, findPathDisabled := false }

/-- Method `findPath`, no other event being handled while the request is awaited: the final
state and the request sent, if any. -/
def findPath (a : App) (heuristic : String) (animate : Bool) (o : FetchOutcome) :
    Option (App × Option Request) :=
  match findPathBegin a heuristic animate with
  | none => none
  | some (a1, none) => some (a1, none)
  | some (a1, some rq) =>
    match findPathResume a1 o with
    | none => none
    | some a2 => some (a2, some rq)

/-- The message of the error when the request fails, `none` for a response that is `ok`. -/
def failureMessage : FetchOutcome → Option String
  | .failed msg => some msg
  | .notOk error => some (notOkMessage error)
  | .ok _ => none

/-! ## States part-way through a playback and with walls, and the cancellation of a frame -/

/-- The state of the playback `markRun` after its tick 0 and after the timeout that tick
scheduled has fired: the node `(2, 2)` is marked as visited, the cursor is 1, and frame 1,
named by `animationId`, is pending. -/
def midPlayback : App :=
  ((animatePathfinding markRun).bind (fun s => fireTimeout s 0)).getD markRun

/-- The initial state after `generateMaze` with every draw equal to 0: every node without
marker is a wall. -/
def mazed : App :=
  (generateMaze initial (fun _ => 0)).getD initial

/-- From `a` to `a1`, the animation frame named by `animationId` was cancelled and nothing
else of the schedule changed: the frames pending in `a1` are those pending in `a` other than
the one named by a non-zero `animationId`, `animationId` is `null` afterwards if it named a
frame, and the pending timeouts are the same. -/
def FrameCancelled (a a1 : App) : Prop :=
  (∀ h, h ∈ a1.frames ↔ (h ∈ a.frames ∧ ¬ (h ≠ 0 ∧ a.animationId = some h))) ∧
  (∀ id, a.animationId = some id → id ≠ 0 → a1.animationId = none) ∧
  (a.animationId = none ∨ a.animationId = some 0 → a1.animationId = a.animationId) ∧
  a1.timeouts = a.timeouts

/-! # Theorems -/

/-! ## Cells and single-cell updates -/

theorem node?_isSome_of_square {n : Nat} {g : Grid} (hsq : g.Square n) (x y : Int) :
    (g.node? x y).isSome = true ↔ InBounds n x y := by
  obtain ⟨hlen, hrow⟩ := hsq
  unfold Grid.node? InBounds
  by_cases hneg : x < 0 ∨ y < 0
  · simp only [hneg, if_true, Option.isSome_none]
    constructor
    · intro h; cases h
    · intro h; omega
  · simp only [hneg, if_false]
    have hx : 0 ≤ x := by omega
    have hy : 0 ≤ y := by omega
    cases hr : g.nodes[y.toNat]? with
    | none =>
      simp only [Option.isSome_none]
      have := List.getElem?_eq_none_iff.mp hr
      constructor
      · intro h; cases h
      · intro h; omega
    | some row =>
      have hmem : row ∈ g.nodes := List.getElem?_mem hr
      have hlt : y.toNat < g.nodes.length := (List.getElem?_eq_some_iff.mp hr).1
      have hrl := hrow row hmem
      simp only []
      cases hc : row[x.toNat]? with
      | none =>
        have := List.getElem?_eq_none_iff.mp hc
        simp only [Option.isSome_none]
        constructor
        · intro h; cases h
        · intro h; omega
      | some v =>
        have := (List.getElem?_eq_some_iff.mp hc).1
        simp only [Option.isSome_some, true_iff]
        omega

theorem node?_setNode {g : Grid} {x y : Int} {nd : Node} (h : g.node? x y = some nd)
    (v : Node) (a b : Int) :
    (g.setNode x y v).node? a b = if a = x ∧ b = y then some v else g.node? a b := by
  unfold Grid.node? at h
  by_cases hneg : x < 0 ∨ y < 0
  · simp [hneg] at h
  · simp only [hneg, if_false] at h
    have hx : 0 ≤ x := by omega
    have hy : 0 ≤ y := by omega
    cases hr : g.nodes[y.toNat]? with
    | none => simp [hr] at h
    | some row =>
      simp only [hr] at h
      have hylt : y.toNat < g.nodes.length := (List.getElem?_eq_some_iff.mp hr).1
      have hxlt : x.toNat < row.length := (List.getElem?_eq_some_iff.mp h).1
      unfold Grid.setNode Grid.node?
      simp only [hr]
      by_cases hab : a < 0 ∨ b < 0
      · have hne : ¬ (a = x ∧ b = y) := by omega
        simp [hab, hne]
      · simp only [hab, if_false]
        by_cases hby : b = y
        · subst hby
          simp only [List.getElem?_set_self hylt, and_true]
          by_cases hax : a = x
          · subst hax
            simp [List.getElem?_set_self hxlt]
          · have hne : x.toNat ≠ a.toNat := by omega
            simp [hax, List.getElem?_set_ne hne, hr]
        · have hne : y.toNat ≠ b.toNat := by omega
          simp [hby, List.getElem?_set_ne hne]

theorem square_setNode {n : Nat} {g : Grid} (hsq : g.Square n) (x y : Int) (v : Node) :
    (g.setNode x y v).Square n := by
  obtain ⟨hlen, hrow⟩ := hsq
  unfold Grid.setNode
  cases hr : g.nodes[y.toNat]? with
  | none => exact ⟨hlen, hrow⟩
  | some row =>
    simp only []
    refine ⟨by simp [hlen], ?_⟩
    intro r hr1
    rcases List.mem_or_eq_of_mem_set hr1 with h1 | h1
    · exact hrow r h1
    · subst h1
      simp [hrow row (List.getElem?_mem hr)]

theorem sameHeader_setNode (g : Grid) (x y : Int) (v : Node) :
    g.SameHeader (g.setNode x y v) := by
  unfold Grid.setNode Grid.SameHeader
  cases g.nodes[y.toNat]? <;> simp

theorem localUpdate_setNode {g : Grid} {x y : Int} {nd : Node} (h : g.node? x y = some nd)
    (v : Node) : g.LocalUpdate (g.setNode x y v) x y v :=
  ⟨sameHeader_setNode g x y v, fun _ hsq => square_setNode hsq x y v, node?_setNode h v⟩

theorem localUpdate_self {g : Grid} {x y : Int} {nd : Node} (h : g.node? x y = some nd) :
    g.LocalUpdate g x y nd := by
  refine ⟨⟨rfl, rfl, rfl, rfl⟩, fun _ hsq => hsq, ?_⟩
  intro a b
  by_cases hab : a = x ∧ b = y
  · obtain ⟨rfl, rfl⟩ := hab
    simp [h]
  · simp [hab]

/-! ## Loop rules -/

/-- Invariant rule for a counting loop: if every iteration `i < n` succeeds from a state
satisfying `I i` and establishes `I (i + 1)`, the loop succeeds and establishes `I n`. -/
theorem range_foldlM_inv {σ : Type} (f : σ → Nat → Option σ) (I : Nat → σ → Prop) (n : Nat)
    (hstep : ∀ i s, i < n → I i s → ∃ s1, f s i = some s1 ∧ I (i + 1) s1)
    (s : σ) (h0 : I 0 s) : ∃ s1, (List.range n).foldlM f s = some s1 ∧ I n s1 := by
  induction n with
  | zero => exact ⟨s, rfl, h0⟩
  | succ k ih =>
    obtain ⟨s1, hs1, hI⟩ := ih (fun i t hi hIt => hstep i t (Nat.lt_succ_of_lt hi) hIt)
    obtain ⟨s2, hs2, hI2⟩ := hstep k s1 (Nat.lt_succ_self k) hI
    refine ⟨s2, ?_, hI2⟩
    rw [List.range_succ, List.foldlM_append, hs1]
    simp [List.foldlM, hs2]

/-- Invariant rule for the loop nest over the cells. -/
theorem forCells_inv {σ : Type} (n : Nat) (body : Int → Int → σ → Option σ) (I : σ → Prop)
    (hbody : ∀ (x y : Nat) s, x < n → y < n → I s → ∃ s1, body x y s = some s1 ∧ I s1)
    (s : σ) (h0 : I s) : ∃ s1, forCells n body s = some s1 ∧ I s1 := by
  unfold forCells
  apply range_foldlM_inv _ (fun _ t => I t) n _ s h0
  intro y t hy hIt
  apply range_foldlM_inv _ (fun _ t => I t) n _ t hIt
  intro x u hx hIu
  exact hbody x y u hx hy hIu

/-- Pointwise rule for the loop nest: when the body replaces the cell it visits by `f x y` of
its content and touches nothing else, the loop over a square grid succeeds and the result is
the grid with `f` applied to every cell. -/
theorem forCells_local (n : Nat) (body : Int → Int → Grid → Option Grid)
    (f : Int → Int → Node → Node)
    (hbody : ∀ (x y : Int) (g1 : Grid) (nd : Node), g1.node? x y = some nd →
      ∃ g2, body x y g1 = some g2 ∧ g1.LocalUpdate g2 x y (f x y nd))
    (g : Grid) (hsq : g.Square n) :
    ∃ g1, forCells n body g = some g1 ∧ g.SameHeader g1 ∧ g1.Square n ∧
      ∀ a b, g1.node? a b = (g.node? a b).map (f a b) := by
  have hout := range_foldlM_inv
    (fun (s : Grid) (y : Nat) =>
      (List.range n).foldlM (fun (s : Grid) (x : Nat) => body (x : Int) (y : Int) s) s)
    (fun y g1 => g.SameHeader g1 ∧ g1.Square n ∧
      ∀ a b, g1.node? a b = (g.node? a b).map (fun nd => if b < (y : Int) then f a b nd else nd))
    n ?_ g ⟨⟨rfl, rfl, rfl, rfl⟩, hsq, ?_⟩
  · obtain ⟨g1, hg1, hh, hs, hn⟩ := hout
    refine ⟨g1, hg1, hh, hs, ?_⟩
    intro a b
    rw [hn a b]
    cases hnd : g.node? a b with
    | none => rfl
    | some nd =>
      have hb : InBounds n a b := (node?_isSome_of_square hsq a b).mp (by simp [hnd])
      have : b < (n : Int) := hb.2.2.2
      simp [this]
  · intro y g1 hy ⟨hh, hs, hn⟩
    have hin := range_foldlM_inv (fun (s : Grid) (x : Nat) => body (x : Int) (y : Int) s)
      (fun x g2 => g.SameHeader g2 ∧ g2.Square n ∧
        ∀ a b, g2.node? a b = (g.node? a b).map
          (fun nd => if b < (y : Int) ∨ (b = (y : Int) ∧ a < (x : Int)) then f a b nd else nd))
      n ?_ g1 ⟨hh, hs, ?_⟩
    · obtain ⟨g2, hg2, hh2, hs2, hn2⟩ := hin
      refine ⟨g2, hg2, hh2, hs2, ?_⟩
      intro a b
      rw [hn2 a b]
      cases hnd : g.node? a b with
      | none => rfl
      | some nd =>
        have hb : InBounds n a b := (node?_isSome_of_square hsq a b).mp (by simp [hnd])
        have ha : a < (n : Int) := hb.2.1
        have hiff : (b < (y : Int) ∨ (b = (y : Int) ∧ a < (n : Int))) ↔ b < ((y + 1 : Nat) : Int) := by
          push_cast; omega
        simp only [Option.map_some, hiff]
    · intro x g2 hx ⟨hh2, hs2, hn2⟩
      have hbnd : InBounds n (x : Int) (y : Int) := by
        unfold InBounds; omega
      have hsome1 := (node?_isSome_of_square hs2 x y).mpr hbnd
      have hsome0 := (node?_isSome_of_square hsq x y).mpr hbnd
      obtain ⟨nd0, hnd0⟩ := Option.isSome_iff_exists.mp hsome0
      have hcur : g2.node? x y = some nd0 := by
        rw [hn2, hnd0]
        have : ¬ ((y : Int) < (y : Int) ∨ ((y : Int) = (y : Int) ∧ (x : Int) < (x : Int))) := by
          omega
        simp [this]
      obtain ⟨g3, hg3, ⟨hh3, hs3, hn3⟩⟩ := hbody x y g2 nd0 hcur
      refine ⟨g3, hg3, ?_, hs3 n hs2, ?_⟩
      · obtain ⟨h1, h2, h3, h4⟩ := hh2
        obtain ⟨k1, k2, k3, k4⟩ := hh3
        exact ⟨k1.trans h1, k2.trans h2, k3.trans h3, k4.trans h4⟩
      · intro a b
        rw [hn3 a b]
        by_cases hab : a = (x : Int) ∧ b = (y : Int)
        · obtain ⟨rfl, rfl⟩ := hab
          have : ((y : Int) < (y : Int) ∨ ((y : Int) = (y : Int) ∧ (x : Int) < ((x + 1 : Nat) : Int))) := by
            push_cast; omega
          simp [hnd0, this]
        · rw [if_neg hab, hn2 a b]
          have hiff : (b < (y : Int) ∨ (b = (y : Int) ∧ a < (x : Int))) ↔
              (b < (y : Int) ∨ (b = (y : Int) ∧ a < ((x + 1 : Nat) : Int))) := by
            push_cast; omega
          simp only [hiff]
    · intro a b
      rw [hn a b]
      cases hnd : g.node? a b with
      | none => rfl
      | some nd =>
        have hb : InBounds n a b := (node?_isSome_of_square hsq a b).mp (by simp [hnd])
        have ha : 0 ≤ a := hb.1
        have hiff : (b < (y : Int) ∨ (b = (y : Int) ∧ a < ((0 : Nat) : Int))) ↔ b < (y : Int) := by
          push_cast; omega
        simp only [Option.map_some, hiff]
  · intro a b
    cases hnd : g.node? a b with
    | none => rfl
    | some nd =>
      have hb : InBounds n a b := (node?_isSome_of_square hsq a b).mp (by simp [hnd])
      have : ¬ b < 0 := by have := hb.2.2.1; omega
      simp [this]

theorem sameHeader_trans {g g1 g2 : Grid} (h1 : g.SameHeader g1) (h2 : g1.SameHeader g2) :
    g.SameHeader g2 := by
  obtain ⟨a1, a2, a3, a4⟩ := h1
  obtain ⟨b1, b2, b3, b4⟩ := h2
  exact ⟨b1.trans a1, b2.trans a2, b3.trans a3, b4.trans a4⟩

theorem point_eq_iff (p : Point) (a b : Int) : (⟨a, b⟩ : Point) = p ↔ a = p.x ∧ b = p.y := by
  cases p
  simp

/-- Pointwise rule for a painting loop: when every point names an existing cell, the loop
succeeds and applies `f` to exactly the cells that are listed and not skipped. -/
theorem markPoints_spec (skip : Node → Bool) (f : Node → Node)
    (hskip : ∀ nd, skip (f nd) = skip nd) (hidem : ∀ nd, f (f nd) = f nd)
    (pts : List Point) (g : Grid) (hpts : ∀ p ∈ pts, (g.node? p.x p.y).isSome = true) :
    ∃ g1, markPoints skip f pts g = some g1 ∧ g.SameHeader g1 ∧
      (∀ n, g.Square n → g1.Square n) ∧
      ∀ a b, g1.node? a b = (g.node? a b).map
        (fun nd => if (⟨a, b⟩ : Point) ∈ pts ∧ skip nd = false then f nd else nd) := by
  induction pts generalizing g with
  | nil =>
    refine ⟨g, rfl, ⟨rfl, rfl, rfl, rfl⟩, fun _ h => h, ?_⟩
    intro a b
    cases g.node? a b <;> simp
  | cons p ps ih =>
    obtain ⟨nd, hnd⟩ := Option.isSome_iff_exists.mp (hpts p (List.mem_cons_self p ps))
    unfold markPoints
    rw [List.foldlM_cons]
    simp only [hnd]
    by_cases hs : skip nd = true
    · simp only [hs, if_true]
      obtain ⟨g1, hg1, hh, hsq, hn⟩ := ih g (fun q hq => hpts q (List.mem_cons_of_mem p hq))
      refine ⟨g1, ?_, hh, hsq, ?_⟩
      · simpa [markPoints] using hg1
      · intro a b
        rw [hn a b]
        cases hab : g.node? a b with
        | none => rfl
        | some v =>
          simp only [Option.map_some, List.mem_cons, point_eq_iff]
          by_cases hp : a = p.x ∧ b = p.y
          · obtain ⟨rfl, rfl⟩ := hp
            rw [hnd] at hab
            cases hab
            simp [hs]
          · simp [hp]
    · have hs1 : skip nd = false := by simpa using hs
      simp only [hs1]
      have hlu := localUpdate_setNode hnd (f nd)
      obtain ⟨hh0, hsq0, hn0⟩ := hlu
      obtain ⟨g1, hg1, hh, hsq, hn⟩ := ih (g.setNode p.x p.y (f nd)) (by
        intro q hq
        rw [hn0]
        by_cases hqp : q.x = p.x ∧ q.y = p.y
        · simp [hqp]
        · simpa [hqp] using hpts q (List.mem_cons_of_mem p hq))
      refine ⟨g1, ?_, sameHeader_trans hh0 hh, fun n h => hsq n (hsq0 n h), ?_⟩
      · simpa [markPoints] using hg1
      · intro a b
        rw [hn a b, hn0 a b]
        by_cases hp : a = p.x ∧ b = p.y
        · obtain ⟨rfl, rfl⟩ := hp
          simp [hnd, hs1, hskip, hidem]
        · simp only [if_neg hp, List.mem_cons, point_eq_iff, hp, false_or, if_false]

/-! ## Freshly built grids -/

theorem square_newGrid (n : Nat) : (newGrid n).Square n := by
  unfold Grid.Square newGrid
  refine ⟨by simp, ?_⟩
  intro row hrow
  simp only [List.mem_map] at hrow
  obtain ⟨y, _, rfl⟩ := hrow
  simp

theorem node?_newGrid (n : Nat) (x y : Nat) (hx : x < n) (hy : y < n) :
    (newGrid n).node? x y
      = some (newNode ⟨1, 1⟩ ⟨(n : Int) - 2, (n : Int) - 2⟩ x y) := by
  unfold Grid.node? newGrid
  have h1 : ¬ ((x : Int) < 0 ∨ (y : Int) < 0) := by omega
  simp [h1, List.getElem?_range hy, List.getElem?_range hx]

theorem fresh_newGrid (n : Nat) : (newGrid n).Fresh n := by
  refine ⟨rfl, rfl, (square_newGrid n).1, (square_newGrid n).2, rfl, rfl, ?_⟩
  intro x y hx hy
  rw [node?_newGrid n x y hx hy]
  have hs : (newGrid n).start = ⟨1, 1⟩ := rfl
  have he : (newGrid n).end_ = ⟨(n : Int) - 2, (n : Int) - 2⟩ := rfl
  rw [hs, he]
  unfold newNode
  congr 2
  · by_cases h : (x : Int) = 1 ∧ (y : Int) = 1
    · obtain ⟨h1, h2⟩ := h
      simp [h1, h2]
    · have : ¬ ((⟨x, y⟩ : Point) = ⟨1, 1⟩) := by
        intro hc
        injection hc with h1 h2
        exact h ⟨h1, h2⟩
      simp only [this, decide_False]
      simp only [not_and_or] at h
      rcases h with h | h <;> simp [h]
  · by_cases h : (x : Int) = (n : Int) - 2 ∧ (y : Int) = (n : Int) - 2
    · obtain ⟨h1, h2⟩ := h
      simp [h1, h2]
    · have : ¬ ((⟨x, y⟩ : Point) = ⟨(n : Int) - 2, (n : Int) - 2⟩) := by
        intro hc
        injection hc with h1 h2
        exact h ⟨h1, h2⟩
      simp only [this, decide_False]
      simp only [not_and_or] at h
      rcases h with h | h <;> simp [h]

/-! ## Clearing the transient flags -/

theorem clearVisualization_spec (a : App) (hsq : a.grid.Square a.gridSize) :
    ∃ g1, clearVisualization a = some { a with grid := g1 } ∧ a.grid.SameHeader g1 ∧
      g1.Square a.gridSize ∧ ∀ x y, g1.node? x y = (a.grid.node? x y).map clearFlags := by
  obtain ⟨g1, hg1, hh, hs, hn⟩ := forCells_local a.gridSize
    (fun x y g => g.modify x y clearFlags) (fun _ _ => clearFlags)
    (by
      intro x y g nd hnd
      refine ⟨g.setNode x y (clearFlags nd), ?_, localUpdate_setNode hnd _⟩
      simp [Grid.modify, hnd])
    a.grid hsq
  refine ⟨g1, ?_, hh, hs, hn⟩
  simp [clearVisualization, hg1]

theorem clearPath_spec (a : App) (hsq : a.grid.Square a.gridSize) :
    ∃ a1, clearPath a = some a1 ∧ a1.gridSize = a.gridSize ∧ a.grid.SameHeader a1.grid ∧
      a1.grid.Square a.gridSize ∧
      ∀ x y, a1.grid.node? x y = (a.grid.node? x y).map clearFlags := by
  have key : ∀ b : App, b.grid = a.grid → b.gridSize = a.gridSize →
      ∃ a1, (match clearVisualization b with
          | none => none
          | some a2 => some { a2 with status := "Ready" }) = some a1 ∧
        a1.gridSize = a.gridSize ∧ a.grid.SameHeader a1.grid ∧ a1.grid.Square a.gridSize ∧
        ∀ x y, a1.grid.node? x y = (a.grid.node? x y).map clearFlags := by
    intro b hg hn
    have hsqb : b.grid.Square b.gridSize := by rw [hg, hn]; exact hsq
    obtain ⟨g1, hg1, hh, hs, hp⟩ := clearVisualization_spec b hsqb
    rw [hg1]
    rw [hg] at hh hp
    rw [hn] at hs
    exact ⟨_, rfl, hn, hh, hs, hp⟩
  unfold clearPath
  apply key
  · cases a.animationId with
    | none => rfl
    | some id => by_cases h0 : (id != 0) = true <;> simp [h0, cancelAnimationFrame]
  · cases a.animationId with
    | none => rfl
    | some id => by_cases h0 : (id != 0) = true <;> simp [h0, cancelAnimationFrame]

/-! ## Claims on rebuilding, colours -/

/-- C10: for every node and every combination of its six flags, the colour `draw` resolves is
the colour of the first flag that is true in the order wall, start, end, path, open-set,
explored, and the empty colour when none is true; `nodeColor` is a function, so exactly one
colour is chosen per node. -/
theorem nodeColor_precedence (c : Colors) (node : Node) :
    nodeColor c node = precedenceColor c node := by
  unfold nodeColor precedenceColor precedence
  cases node.is_wall <;> cases node.is_start <;> cases node.is_end <;> cases node.is_path <;>
    cases node.in_open_set <;> cases node.visited <;> rfl

/-- C9: rebuilding the grid at size `n` (`onGridSizeChange` with value `n`, which runs
`createGrid`; `createGrid` itself; `resetGrid`, which runs `clearPath` first and so needs the
old grid to have `gridSize` rows of `gridSize` cells) yields `width = height = n`, `n` rows of
`n` nodes with `nodes[y][x].point = (x, y)`, `start = (1, 1)`, `end = (n - 2, n - 2)`, no wall,
no transient flag, and the start and end flags exactly on the nodes at `start` and `end`,
whatever the previous grid was. -/
theorem rebuild_fresh (a : App) (n : Nat) :
    (onGridSizeChange a n).gridSize = n ∧ (onGridSizeChange a n).grid.Fresh n ∧
    (createGrid a).gridSize = a.gridSize ∧ (createGrid a).grid.Fresh a.gridSize ∧
    (a.grid.Square a.gridSize →
      ∃ a1, resetGrid a = some a1 ∧ a1.gridSize = a.gridSize ∧ a1.grid.Fresh a.gridSize) := by
  refine ⟨rfl, fresh_newGrid n, rfl, fresh_newGrid a.gridSize, ?_⟩
  intro hsq
  obtain ⟨a1, h1, hsz, _, _, _⟩ := clearPath_spec a hsq
  refine ⟨{ createGrid a1 with status := "Ready" }, ?_, ?_, ?_⟩
  · simp [resetGrid, h1]
  · simpa [createGrid] using hsz
  · show (newGrid a1.gridSize).Fresh a.gridSize
    rw [hsz]
    exact fresh_newGrid a.gridSize

/-- Witness for C9 on the grid of the constructor. -/
theorem rebuild_fresh_witness :
    ∃ a1, resetGrid initial = some a1 ∧ a1.gridSize = initial.gridSize ∧
      a1.grid.Fresh initial.gridSize :=
  (rebuild_fresh initial 30).2.2.2.2 (square_newGrid 30)

/-! ## Moving the markers -/

theorem modify_spec {g : Grid} {x y : Int} {nd : Node} (h : g.node? x y = some nd)
    (f : Node → Node) : g.modify x y f = some (g.setNode x y (f nd)) := by
  simp [Grid.modify, h]

theorem setStart_spec (a : App) (x y : Int) (s0 nd : Node)
    (hs : a.grid.node? a.grid.start.x a.grid.start.y = some s0)
    (hxy : a.grid.node? x y = some nd) :
    ∃ g4, setStart a x y = some { a with grid := g4 } ∧ g4.start = ⟨x, y⟩ ∧
      g4.end_ = a.grid.end_ ∧ g4.width = a.grid.width ∧ g4.height = a.grid.height ∧
      (∀ n, a.grid.Square n → g4.Square n) ∧
      ∀ u v, g4.node? u v
        = (a.grid.node? u v).map (startUpdate a.grid.start.x a.grid.start.y x y u v) := by
  obtain ⟨hh1, hq1, hn1⟩ := localUpdate_setNode hs { s0 with is_start := false }
  let g1 := a.grid.setNode a.grid.start.x a.grid.start.y { s0 with is_start := false }
  let g2 : Grid := { g1 with start := ⟨x, y⟩ }
  have hcell : ∃ m, g2.node? x y = some m ∧
      m = (if x = a.grid.start.x ∧ y = a.grid.start.y then { s0 with is_start := false }
        else nd) := by
    refine ⟨_, ?_, rfl⟩
    show g1.node? x y = _
    rw [hn1 x y]
    by_cases hc : x = a.grid.start.x ∧ y = a.grid.start.y
    · simp [hc]
    · simp [hc, hxy]
  obtain ⟨m, hm, hmdef⟩ := hcell
  obtain ⟨hh3, hq3, hn3⟩ := localUpdate_setNode hm { m with is_start := true }
  let g3 := g2.setNode x y { m with is_start := true }
  have hm3 : g3.node? x y = some { m with is_start := true } := by
    rw [hn3 x y]; simp
  obtain ⟨hh4, hq4, hn4⟩ := localUpdate_setNode hm3
    { ({ m with is_start := true } : Node) with is_wall := false }
  refine ⟨g3.setNode x y { ({ m with is_start := true } : Node) with is_wall := false },
    ?_, ?_, ?_, ?_, ?_, ?_, ?_⟩
  · unfold setStart
    simp only [modify_spec hs, modify_spec hm, modify_spec hm3]
  · rw [hh4.2.2.1, hh3.2.2.1]
  · rw [hh4.2.2.2, hh3.2.2.2]; exact hh1.2.2.2
  · rw [hh4.1, hh3.1]; exact hh1.1
  · rw [hh4.2.1, hh3.2.1]; exact hh1.2.1
  · intro n hsq
    exact hq4 n (hq3 n (hq1 n hsq))
  · intro u v
    rw [hn4 u v]
    by_cases huv : u = x ∧ v = y
    · obtain ⟨rfl, rfl⟩ := huv
      simp only [and_self, if_true, hxy, Option.map_some', startUpdate, hmdef]
      by_cases hc : u = a.grid.start.x ∧ v = a.grid.start.y
      · obtain ⟨h1, h2⟩ := hc
        rw [h1, h2] at hxy
        rw [hs] at hxy
        cases hxy
        simp [h1, h2]
      · simp [hc]
    · rw [if_neg huv, hn3 u v, if_neg huv]
      show g1.node? u v = _
      rw [hn1 u v]
      by_cases hc : u = a.grid.start.x ∧ v = a.grid.start.y
      · obtain ⟨rfl, rfl⟩ := hc
        simp [hs, startUpdate, huv]
      · cases a.grid.node? u v <;> simp [hc, startUpdate, huv]

theorem setEnd_spec (a : App) (x y : Int) (e0 nd : Node)
    (he : a.grid.node? a.grid.end_.x a.grid.end_.y = some e0)
    (hxy : a.grid.node? x y = some nd) :
    ∃ g4, setEnd a x y = some { a with grid := g4 } ∧ g4.end_ = ⟨x, y⟩ ∧
      g4.start = a.grid.start ∧ g4.width = a.grid.width ∧ g4.height = a.grid.height ∧
      (∀ n, a.grid.Square n → g4.Square n) ∧
      ∀ u v, g4.node? u v
        = (a.grid.node? u v).map (endUpdate a.grid.end_.x a.grid.end_.y x y u v) := by
  obtain ⟨hh1, hq1, hn1⟩ := localUpdate_setNode he { e0 with is_end := false }
  let g1 := a.grid.setNode a.grid.end_.x a.grid.end_.y { e0 with is_end := false }
  let g2 : Grid := { g1 with end_ := ⟨x, y⟩ }
  have hcell : ∃ m, g2.node? x y = some m ∧
      m = (if x = a.grid.end_.x ∧ y = a.grid.end_.y then { e0 with is_end := false }
        else nd) := by
    refine ⟨_, ?_, rfl⟩
    show g1.node? x y = _
    rw [hn1 x y]
    by_cases hc : x = a.grid.end_.x ∧ y = a.grid.end_.y
    · simp [hc]
    · simp [hc, hxy]
  obtain ⟨m, hm, hmdef⟩ := hcell
  obtain ⟨hh3, hq3, hn3⟩ := localUpdate_setNode hm { m with is_end := true }
  let g3 := g2.setNode x y { m with is_end := true }
  have hm3 : g3.node? x y = some { m with is_end := true } := by
    rw [hn3 x y]; simp
  obtain ⟨hh4, hq4, hn4⟩ := localUpdate_setNode hm3
    { ({ m with is_end := true } : Node) with is_wall := false }
  refine ⟨g3.setNode x y { ({ m with is_end := true } : Node) with is_wall := false },
    ?_, ?_, ?_, ?_, ?_, ?_, ?_⟩
  · unfold setEnd
    simp only [modify_spec he, modify_spec hm, modify_spec hm3]
  · rw [hh4.2.2.2, hh3.2.2.2]
  · rw [hh4.2.2.1, hh3.2.2.1]; exact hh1.2.2.1
  · rw [hh4.1, hh3.1]; exact hh1.1
  · rw [hh4.2.1, hh3.2.1]; exact hh1.2.1
  · intro n hsq
    exact hq4 n (hq3 n (hq1 n hsq))
  · intro u v
    rw [hn4 u v]
    by_cases huv : u = x ∧ v = y
    · obtain ⟨rfl, rfl⟩ := huv
      simp only [and_self, if_true, hxy, Option.map_some', endUpdate, hmdef]
      by_cases hc : u = a.grid.end_.x ∧ v = a.grid.end_.y
      · obtain ⟨h1, h2⟩ := hc
        rw [h1, h2] at hxy
        rw [he] at hxy
        cases hxy
        simp [h1, h2]
      · simp [hc]
    · rw [if_neg huv, hn3 u v, if_neg huv]
      show g1.node? u v = _
      rw [hn1 u v]
      by_cases hc : u = a.grid.end_.x ∧ v = a.grid.end_.y
      · obtain ⟨rfl, rfl⟩ := hc
        simp [he, endUpdate, huv]
      · cases a.grid.node? u v <;> simp [hc, endUpdate, huv]

theorem list_set_self {α : Type} (l : List α) (i : Nat) (v : α) (h : l[i]? = some v) :
    l.set i v = l := by
  apply List.ext_getElem?
  intro k
  by_cases hk : i = k
  · subst hk
    rw [List.getElem?_set_self (List.getElem?_eq_some_iff.mp h).1, h]
  · rw [List.getElem?_set_ne hk]

theorem setNode_setNode_self {g : Grid} {x y : Int} {nd : Node} (h : g.node? x y = some nd)
    (v : Node) : (g.setNode x y v).setNode x y nd = g := by
  unfold Grid.node? at h
  by_cases hneg : x < 0 ∨ y < 0
  · simp [hneg] at h
  · simp only [hneg, if_false] at h
    cases hr : g.nodes[y.toNat]? with
    | none => simp [hr] at h
    | some row =>
      simp only [hr] at h
      have hylt : y.toNat < g.nodes.length := (List.getElem?_eq_some_iff.mp hr).1
      unfold Grid.setNode
      simp only [hr, List.getElem?_set_self hylt, List.set_set]
      rw [list_set_self row x.toNat nd h, list_set_self g.nodes y.toNat row hr]

/-! ## Claims on the editing operations -/

/-- C6: on a grid satisfying the marker invariant and for a cell `(x, y)` of the grid,
`setStart(x, y)` returns, and afterwards `grid.start = (x, y)`, the node at `(x, y)` has
`is_start = true` and `is_wall = false`, the node at the previous start has `is_start = false`
unless it is `(x, y)`, and `grid.end`, the `is_end` and transient flags of every node and
`is_wall` of every node other than `(x, y)` are as before; `setEnd(x, y)` does the same with
start and end exchanged. -/
theorem setStart_setEnd_effect (a : App) (x y : Int) (nd : Node)
    (hinv : a.grid.MarkerInvariant) (hxy : a.grid.node? x y = some nd) :
    (∃ a1, setStart a x y = some a1 ∧ SetStartEffect a.grid a1.grid x y) ∧
    (∃ a1, setEnd a x y = some a1 ∧ SetEndEffect a.grid a1.grid x y) := by
  obtain ⟨⟨s0, hs0, _⟩, _, ⟨e0, he0, _⟩, _, _⟩ := hinv
  constructor
  · obtain ⟨g4, hg4, hst, hen, _, _, _, hn⟩ := setStart_spec a x y s0 nd hs0 hxy
    refine ⟨_, hg4, hst, hen, ?_, ?_, ?_⟩
    · refine ⟨_, by rw [hn x y, hxy]; rfl, ?_, ?_⟩ <;> simp [startUpdate]
    · intro hne
      have hne1 : ¬ (a.grid.start.x = x ∧ a.grid.start.y = y) := hne
      refine ⟨_, by rw [hn, hs0]; rfl, ?_⟩
      simp [startUpdate, hne1]
    · intro u v m hm
      refine ⟨_, by rw [hn u v, hm]; rfl, ?_⟩
      unfold startUpdate
      by_cases h1 : u = x ∧ v = y
      · rw [if_pos h1]
        exact ⟨rfl, rfl, rfl, rfl, rfl, fun h => absurd h1 h⟩
      · rw [if_neg h1]
        by_cases h2 : u = a.grid.start.x ∧ v = a.grid.start.y
        · rw [if_pos h2]
          exact ⟨rfl, rfl, rfl, rfl, rfl, fun _ => rfl⟩
        · rw [if_neg h2]
          exact ⟨rfl, rfl, rfl, rfl, rfl, fun _ => rfl⟩
  · obtain ⟨g4, hg4, hen, hst, _, _, _, hn⟩ := setEnd_spec a x y e0 nd he0 hxy
    refine ⟨_, hg4, hen, hst, ?_, ?_, ?_⟩
    · refine ⟨_, by rw [hn x y, hxy]; rfl, ?_, ?_⟩ <;> simp [endUpdate]
    · intro hne
      have hne1 : ¬ (a.grid.end_.x = x ∧ a.grid.end_.y = y) := hne
      refine ⟨_, by rw [hn, he0]; rfl, ?_⟩
      simp [endUpdate, hne1]
    · intro u v m hm
      refine ⟨_, by rw [hn u v, hm]; rfl, ?_⟩
      unfold endUpdate
      by_cases h1 : u = x ∧ v = y
      · rw [if_pos h1]
        exact ⟨rfl, rfl, rfl, rfl, rfl, fun h => absurd h1 h⟩
      · rw [if_neg h1]
        by_cases h2 : u = a.grid.end_.x ∧ v = a.grid.end_.y
        · rw [if_pos h2]
          exact ⟨rfl, rfl, rfl, rfl, rfl, fun _ => rfl⟩
        · rw [if_neg h2]
          exact ⟨rfl, rfl, rfl, rfl, rfl, fun _ => rfl⟩

/-- C7: for a cell `(x, y)` of the grid whose node is neither start nor end, the first
`toggleWall(x, y)` negates `is_wall` of that node and changes no other cell, and the second
call gives back the original state, equal in every field of every node. -/
theorem toggleWall_twice (a : App) (x y : Int) (nd : Node)
    (hxy : a.grid.node? x y = some nd) (hs : nd.is_start = false) (he : nd.is_end = false) :
    ∃ a1, toggleWall a x y = some a1 ∧
      a1.grid.node? x y = some { nd with is_wall := !nd.is_wall } ∧
      (∀ u v, ¬ (u = x ∧ v = y) → a1.grid.node? u v = a.grid.node? u v) ∧
      toggleWall a1 x y = some a := by
  have h1 := node?_setNode hxy { nd with is_wall := !nd.is_wall }
  refine ⟨{ a with grid := a.grid.setNode x y { nd with is_wall := !nd.is_wall } },
    ?_, ?_, ?_, ?_⟩
  · simp [toggleWall, hxy, hs, he]
  · simp [h1]
  · intro u v huv
    simp [h1, huv]
  · have h2 : (a.grid.setNode x y { nd with is_wall := !nd.is_wall }).node? x y
        = some { nd with is_wall := !nd.is_wall } := by simp [h1]
    have h3 := setNode_setNode_self hxy { nd with is_wall := !nd.is_wall }
    have hfl : (({ nd with is_wall := !nd.is_wall } : Node).is_start
        || ({ nd with is_wall := !nd.is_wall } : Node).is_end) = false := by simp [hs, he]
    have h4 : ({ ({ nd with is_wall := !nd.is_wall } : Node) with
        is_wall := !({ nd with is_wall := !nd.is_wall } : Node).is_wall } : Node) = nd := by
      cases nd; simp
    unfold toggleWall
    rw [h2]
    simp only [hfl, Bool.false_eq_true, if_false]
    rw [h4, h3]

/-! ## Preservation of the marker invariant -/

theorem node?_newGrid_int (n : Nat) (x y : Int) (h : InBounds n x y) :
    (newGrid n).node? x y
      = some (newNode ⟨1, 1⟩ ⟨(n : Int) - 2, (n : Int) - 2⟩ x y) := by
  obtain ⟨h1, h2, h3, h4⟩ := h
  have hx : ((x.toNat : Nat) : Int) = x := Int.toNat_of_nonneg h1
  have hy : ((y.toNat : Nat) : Int) = y := Int.toNat_of_nonneg h3
  have := node?_newGrid n x.toNat y.toNat (by omega) (by omega)
  rw [hx, hy] at this
  exact this

theorem markerInv_newGrid (n : Nat) (hn : 2 ≤ n) : (newGrid n).MarkerInvariant := by
  have hcell : ∀ x y nd, (newGrid n).node? x y = some nd →
      nd = newNode ⟨1, 1⟩ ⟨(n : Int) - 2, (n : Int) - 2⟩ x y := by
    intro x y nd hnd
    have hb : InBounds n x y :=
      (node?_isSome_of_square (square_newGrid n) x y).mp (by simp [hnd])
    rw [node?_newGrid_int n x y hb] at hnd
    exact (Option.some.inj hnd).symm
  have hs : InBounds n 1 1 := by unfold InBounds; omega
  have he : InBounds n ((n : Int) - 2) ((n : Int) - 2) := by unfold InBounds; omega
  refine ⟨⟨_, node?_newGrid_int n 1 1 hs, by simp [newNode]⟩, ?_,
    ⟨_, node?_newGrid_int n _ _ he, by simp [newNode, newGrid]⟩, ?_, ?_⟩
  · intro x y nd hnd hst
    rw [hcell x y nd hnd] at hst
    simpa [newNode] using hst
  · intro x y nd hnd hen
    rw [hcell x y nd hnd] at hen
    simpa [newNode] using hen
  · intro x y nd hnd hw
    rw [hcell x y nd hnd] at hw
    simp [newNode] at hw

/-- A cell-by-cell change that keeps the header fields and the start and end flags of every
node, and sets `is_wall` only on nodes without marker, keeps the marker invariant. -/
theorem markerInv_pointwise {g g1 : Grid} (h : Int → Int → Node → Node)
    (hh : g.SameHeader g1) (hn : ∀ a b, g1.node? a b = (g.node? a b).map (h a b))
    (hpres : ∀ a b nd, g.node? a b = some nd →
      (h a b nd).is_start = nd.is_start ∧ (h a b nd).is_end = nd.is_end ∧
      ((h a b nd).is_wall = true →
        nd.is_wall = true ∨ (nd.is_start = false ∧ nd.is_end = false)))
    (hinv : g.MarkerInvariant) : g1.MarkerInvariant := by
  obtain ⟨⟨s, hs, hss⟩, hsu, ⟨e, he, hee⟩, heu, hw⟩ := hinv
  obtain ⟨_, _, hst, hen⟩ := hh
  have hback : ∀ a b m, g1.node? a b = some m →
      ∃ nd, g.node? a b = some nd ∧ m = h a b nd := by
    intro a b m hm
    rw [hn a b] at hm
    cases hnd : g.node? a b with
    | none => simp [hnd] at hm
    | some nd =>
      rw [hnd] at hm
      exact ⟨nd, rfl, (Option.some.inj hm).symm⟩
  refine ⟨⟨h g.start.x g.start.y s, ?_, ?_⟩, ?_, ⟨h g.end_.x g.end_.y e, ?_, ?_⟩, ?_, ?_⟩
  · rw [hst, hn, hs]; rfl
  · rw [(hpres _ _ s hs).1]; exact hss
  · intro a b m hm hms
    obtain ⟨nd, hnd, rfl⟩ := hback a b m hm
    rw [(hpres a b nd hnd).1] at hms
    rw [hst]
    exact hsu a b nd hnd hms
  · rw [hen, hn, he]; rfl
  · rw [(hpres _ _ e he).2.1]; exact hee
  · intro a b m hm hme
    obtain ⟨nd, hnd, rfl⟩ := hback a b m hm
    rw [(hpres a b nd hnd).2.1] at hme
    rw [hen]
    exact heu a b nd hnd hme
  · intro a b m hm hmw
    obtain ⟨nd, hnd, rfl⟩ := hback a b m hm
    obtain ⟨p1, p2, p3⟩ := hpres a b nd hnd
    rw [p1, p2]
    rcases p3 hmw with hwall | hfree
    · exact hw a b nd hnd hwall
    · exact hfree

theorem markerInv_localUpdate {g g1 : Grid} {x y : Int} {nd v : Node}
    (hnd : g.node? x y = some nd) (hlu : g.LocalUpdate g1 x y v)
    (h1 : v.is_start = nd.is_start) (h2 : v.is_end = nd.is_end)
    (h3 : v.is_wall = true → nd.is_wall = true ∨ (nd.is_start = false ∧ nd.is_end = false))
    (hinv : g.MarkerInvariant) : g1.MarkerInvariant := by
  obtain ⟨hh, _, hn⟩ := hlu
  refine markerInv_pointwise (fun a b m => if a = x ∧ b = y then v else m) hh ?_ ?_ hinv
  · intro a b
    rw [hn a b]
    by_cases hab : a = x ∧ b = y
    · obtain ⟨rfl, rfl⟩ := hab
      simp [hnd]
    · cases g.node? a b <;> simp [hab]
  · intro a b m hm
    by_cases hab : a = x ∧ b = y
    · obtain ⟨rfl, rfl⟩ := hab
      rw [hnd] at hm
      cases hm
      simp only [and_self, if_true]
      exact ⟨h1, h2, h3⟩
    · beta_reduce
      rw [if_neg hab]
      exact ⟨rfl, rfl, fun hw => Or.inl hw⟩

theorem markerInv_setStart {a : App} {x y : Int} {g4 : Grid} (hinv : a.grid.MarkerInvariant)
    (nd : Node) (hxy : a.grid.node? x y = some nd) (hst : g4.start = ⟨x, y⟩)
    (hen : g4.end_ = a.grid.end_)
    (hn : ∀ u v, g4.node? u v
      = (a.grid.node? u v).map (startUpdate a.grid.start.x a.grid.start.y x y u v)) :
    g4.MarkerInvariant := by
  obtain ⟨⟨s, hs, hss⟩, hsu, ⟨e, he, hee⟩, heu, hw⟩ := hinv
  have hback : ∀ u v m, g4.node? u v = some m → ∃ m0, a.grid.node? u v = some m0 ∧
      m = startUpdate a.grid.start.x a.grid.start.y x y u v m0 := by
    intro u v m hm
    rw [hn u v] at hm
    cases hnd : a.grid.node? u v with
    | none => simp [hnd] at hm
    | some m0 =>
      rw [hnd] at hm
      exact ⟨m0, rfl, (Option.some.inj hm).symm⟩
  have hend : ∀ u v m0, (startUpdate a.grid.start.x a.grid.start.y x y u v m0).is_end
      = m0.is_end := by
    intro u v m0
    unfold startUpdate
    split
    · rfl
    · split <;> rfl
  refine ⟨⟨startUpdate a.grid.start.x a.grid.start.y x y x y nd, ?_, ?_⟩, ?_,
    ⟨startUpdate a.grid.start.x a.grid.start.y x y a.grid.end_.x a.grid.end_.y e, ?_, ?_⟩,
    ?_, ?_⟩
  · rw [hst, hn, hxy]; rfl
  · simp [startUpdate]
  · intro u v m hm hms
    obtain ⟨m0, hm0, rfl⟩ := hback u v m hm
    rw [hst]
    show u = x ∧ v = y
    by_contra hne
    unfold startUpdate at hms
    rw [if_neg hne] at hms
    by_cases hold : u = a.grid.start.x ∧ v = a.grid.start.y
    · rw [if_pos hold] at hms
      simp at hms
    · rw [if_neg hold] at hms
      exact hold (hsu u v m0 hm0 hms)
  · rw [hen, hn, he]; rfl
  · rw [hend]; exact hee
  · intro u v m hm hme
    obtain ⟨m0, hm0, rfl⟩ := hback u v m hm
    rw [hend] at hme
    rw [hen]
    exact heu u v m0 hm0 hme
  · intro u v m hm hmw
    obtain ⟨m0, hm0, rfl⟩ := hback u v m hm
    rw [hend]
    unfold startUpdate at hmw ⊢
    by_cases hne : u = x ∧ v = y
    · rw [if_pos hne] at hmw
      simp at hmw
    · rw [if_neg hne] at hmw ⊢
      by_cases hold : u = a.grid.start.x ∧ v = a.grid.start.y
      · rw [if_pos hold] at hmw ⊢
        exact ⟨rfl, (hw u v m0 hm0 hmw).2⟩
      · rw [if_neg hold] at hmw ⊢
        exact hw u v m0 hm0 hmw

theorem markerInv_setEnd {a : App} {x y : Int} {g4 : Grid} (hinv : a.grid.MarkerInvariant)
    (nd : Node) (hxy : a.grid.node? x y = some nd) (hen : g4.end_ = ⟨x, y⟩)
    (hst : g4.start = a.grid.start)
    (hn : ∀ u v, g4.node? u v
      = (a.grid.node? u v).map (endUpdate a.grid.end_.x a.grid.end_.y x y u v)) :
    g4.MarkerInvariant := by
  obtain ⟨⟨s, hs, hss⟩, hsu, ⟨e, he, hee⟩, heu, hw⟩ := hinv
  have hback : ∀ u v m, g4.node? u v = some m → ∃ m0, a.grid.node? u v = some m0 ∧
      m = endUpdate a.grid.end_.x a.grid.end_.y x y u v m0 := by
    intro u v m hm
    rw [hn u v] at hm
    cases hnd : a.grid.node? u v with
    | none => simp [hnd] at hm
    | some m0 =>
      rw [hnd] at hm
      exact ⟨m0, rfl, (Option.some.inj hm).symm⟩
  have hstart : ∀ u v m0, (endUpdate a.grid.end_.x a.grid.end_.y x y u v m0).is_start
      = m0.is_start := by
    intro u v m0
    unfold endUpdate
    split
    · rfl
    · split <;> rfl
  refine ⟨⟨endUpdate a.grid.end_.x a.grid.end_.y x y a.grid.start.x a.grid.start.y s, ?_, ?_⟩,
    ?_, ⟨endUpdate a.grid.end_.x a.grid.end_.y x y x y nd, ?_, ?_⟩, ?_, ?_⟩
  · rw [hst, hn, hs]; rfl
  · rw [hstart]; exact hss
  · intro u v m hm hms
    obtain ⟨m0, hm0, rfl⟩ := hback u v m hm
    rw [hstart] at hms
    rw [hst]
    exact hsu u v m0 hm0 hms
  · rw [hen, hn, hxy]; rfl
  · simp [endUpdate]
  · intro u v m hm hme
    obtain ⟨m0, hm0, rfl⟩ := hback u v m hm
    rw [hen]
    show u = x ∧ v = y
    by_contra hne
    unfold endUpdate at hme
    rw [if_neg hne] at hme
    by_cases hold : u = a.grid.end_.x ∧ v = a.grid.end_.y
    · rw [if_pos hold] at hme
      simp at hme
    · rw [if_neg hold] at hme
      exact hold (heu u v m0 hm0 hme)
  · intro u v m hm hmw
    obtain ⟨m0, hm0, rfl⟩ := hback u v m hm
    rw [hstart]
    unfold endUpdate at hmw ⊢
    by_cases hne : u = x ∧ v = y
    · rw [if_pos hne] at hmw
      simp at hmw
    · rw [if_neg hne] at hmw ⊢
      by_cases hold : u = a.grid.end_.x ∧ v = a.grid.end_.y
      · rw [if_pos hold] at hmw ⊢
        exact ⟨(hw u v m0 hm0 hmw).1, rfl⟩
      · rw [if_neg hold] at hmw ⊢
        exact hw u v m0 hm0 hmw

/-! ## One tick of the animation -/

theorem paintStep_spec (a : App) (step : Step) (hsq : a.grid.Square a.gridSize)
    (hin : StepInBounds a.gridSize step) :
    ∃ g1, paintStep a step = some { a with grid := g1 } ∧ a.grid.SameHeader g1 ∧
      g1.Square a.gridSize ∧
      ∀ x y, g1.node? x y = (a.grid.node? x y).map (paintNode step x y) := by
  obtain ⟨g0, hg0, hh0, hs0, hn0⟩ := clearVisualization_spec a hsq
  obtain ⟨g2, hg2, hh2, hs2, hn2⟩ := markPoints_spec Node.isMarker
    (fun nd => { nd with visited := true }) (fun _ => rfl) (fun _ => rfl) step.closed_set g0
    (fun p hp => (node?_isSome_of_square hs0 p.x p.y).mpr (hin.1 p hp))
  have hsq2 := hs2 _ hs0
  obtain ⟨g3, hg3, hh3, hs3, hn3⟩ := markPoints_spec Node.isMarker
    (fun nd => { nd with in_open_set := true }) (fun _ => rfl) (fun _ => rfl) step.open_set g2
    (fun p hp => (node?_isSome_of_square hsq2 p.x p.y).mpr (hin.2.1 p hp))
  have hsq3 := hs3 _ hsq2
  by_cases hc : (step.is_complete && step.path.isSome) = true
  · obtain ⟨g4, hg4, hh4, hs4, hn4⟩ := markPoints_spec Node.isMarker
      (fun nd => { nd with is_path := true }) (fun _ => rfl) (fun _ => rfl)
      (step.path.getD []) g3
      (fun p hp => (node?_isSome_of_square hsq3 p.x p.y).mpr (hin.2.2 p hp))
    refine ⟨g4, ?_, sameHeader_trans (sameHeader_trans (sameHeader_trans hh0 hh2) hh3) hh4,
      hs4 _ hsq3, ?_⟩
    · unfold paintStep
      rw [hg0]
      simp only [hg2, hg3, hc, if_true, hg4]
    · intro x y
      rw [hn4, hn3, hn2, hn0]
      cases a.grid.node? x y with
      | none => rfl
      | some nd =>
        simp only [Option.map_some']
        congr 1
        unfold paintNode clearFlags Node.isMarker
        simp only [hc]
        by_cases h1 : (⟨x, y⟩ : Point) ∈ step.closed_set <;>
          by_cases h2 : (⟨x, y⟩ : Point) ∈ step.open_set <;>
          by_cases h3 : (⟨x, y⟩ : Point) ∈ step.path.getD [] <;>
          cases hst : nd.is_start <;> cases hen : nd.is_end <;> simp [h1, h2, h3, hst, hen]
  · refine ⟨g3, ?_, sameHeader_trans (sameHeader_trans hh0 hh2) hh3, hsq3, ?_⟩
    · unfold paintStep
      rw [hg0]
      simp only [hg2, hg3, hc]
      rfl
    · intro x y
      rw [hn3, hn2, hn0]
      have hc1 : (step.is_complete && step.path.isSome) = false := by simpa using hc
      cases a.grid.node? x y with
      | none => rfl
      | some nd =>
        simp only [Option.map_some']
        congr 1
        unfold paintNode clearFlags Node.isMarker
        simp only [hc1]
        by_cases h1 : (⟨x, y⟩ : Point) ∈ step.closed_set <;>
          by_cases h2 : (⟨x, y⟩ : Point) ∈ step.open_set <;>
          cases hst : nd.is_start <;> cases hen : nd.is_end <;> simp [h1, h2, hst, hen]

theorem paintNode_structural (step : Step) (x y : Int) (nd : Node) :
    (paintNode step x y nd).is_start = nd.is_start ∧
    (paintNode step x y nd).is_end = nd.is_end ∧
    (paintNode step x y nd).is_wall = nd.is_wall ∧
    (paintNode step x y nd).point = nd.point :=
  ⟨rfl, rfl, rfl, rfl⟩

theorem animate_spec (a : App) (step : Step) (hsq : a.grid.Square a.gridSize)
    (hstep : a.animationSteps[a.currentStep]? = some step)
    (hin : StepInBounds a.gridSize step) :
    ∃ g1, a.grid.SameHeader g1 ∧ g1.Square a.gridSize ∧
      (∀ x y, g1.node? x y = (a.grid.node? x y).map (paintNode step x y)) ∧
      animate a = some
        (if step.is_complete then
          { a with grid := g1, currentStep := a.currentStep + 1, status := "Animation complete" }
        else
          { a with grid := g1, currentStep := a.currentStep + 1,
                   timeouts := a.timeouts ++ [110 - a.animationSpeed * 10] }) := by
  obtain ⟨g1, hg1, hh, hs, hn⟩ := paintStep_spec a step hsq hin
  refine ⟨g1, hh, hs, hn, ?_⟩
  unfold animate
  rw [hstep]
  simp only [hg1]
  cases step.is_complete <;> rfl

theorem painted_of_paintNode {step : Step} {g g1 : Grid} (hh : g.SameHeader g1)
    (hn : ∀ x y, g1.node? x y = (g.node? x y).map (paintNode step x y)) :
    Painted step g g1 := by
  refine ⟨hh.2.2.1, hh.2.2.2, ?_⟩
  intro x y nd hnd
  refine ⟨paintNode step x y nd, by rw [hn, hnd]; rfl, ?_, ?_, ?_, rfl, rfl, rfl⟩
  · unfold paintNode Node.isMarker
    cases nd.is_start <;> cases nd.is_end <;> simp
  · unfold paintNode Node.isMarker
    cases nd.is_start <;> cases nd.is_end <;> simp
  · unfold paintNode Node.isMarker
    cases hp : step.path with
    | none => simp
    | some path =>
      cases nd.is_start <;> cases nd.is_end <;> cases step.is_complete <;> simp

/-! ## Claim on the tick -/

/-- C3: on a grid of `gridSize` rows of `gridSize` cells, whatever its transient flags, a
tick on a step whose points are all inside the grid returns, advances the cursor, and leaves
`visited` exactly on the non-marker nodes listed in `closed_set`, `in_open_set` exactly on the
non-marker nodes listed in `open_set`, `is_path` exactly on the non-marker nodes listed in
`path` when `is_complete` holds and `path` is present (on no node otherwise), and `is_wall`,
`is_start`, `is_end`, `grid.start`, `grid.end` unchanged. In particular on a 30 by 30 grid
with start `(1, 1)` and end `(28, 28)` satisfying the marker invariant, a final step with a
path gives `is_path` to every path point other than the two markers, and the nodes at
`(1, 1)` and `(28, 28)` keep `is_start` and `is_end`. -/
theorem animate_tick_paints :
    (∀ (a : App) (step : Step), a.grid.Square a.gridSize →
      a.animationSteps[a.currentStep]? = some step → StepInBounds a.gridSize step →
      ∃ a1, animate a = some a1 ∧ a1.currentStep = a.currentStep + 1 ∧
        Painted step a.grid a1.grid) ∧
    (∀ (a : App) (step : Step) (path : List Point), a.gridSize = 30 →
      a.grid.Square 30 → a.grid.MarkerInvariant →
      a.grid.start = ⟨1, 1⟩ → a.grid.end_ = ⟨28, 28⟩ →
      a.animationSteps[a.currentStep]? = some step → StepInBounds 30 step →
      step.is_complete = true → step.path = some path →
      ∃ a1, animate a = some a1 ∧
        (∀ p ∈ path, p ≠ ⟨1, 1⟩ → p ≠ ⟨28, 28⟩ →
          ∃ m, a1.grid.node? p.x p.y = some m ∧ m.is_path = true) ∧
        (∃ s, a1.grid.node? 1 1 = some s ∧ s.is_start = true ∧ s.is_path = false) ∧
        (∃ e, a1.grid.node? 28 28 = some e ∧ e.is_end = true ∧ e.is_path = false)) := by
  have general : ∀ (a : App) (step : Step), a.grid.Square a.gridSize →
      a.animationSteps[a.currentStep]? = some step → StepInBounds a.gridSize step →
      ∃ a1, animate a = some a1 ∧ a1.currentStep = a.currentStep + 1 ∧
        Painted step a.grid a1.grid := by
    intro a step hsq hstep hin
    obtain ⟨g1, hh, _, hn, han⟩ := animate_spec a step hsq hstep hin
    refine ⟨_, han, ?_, ?_⟩
    · cases step.is_complete <;> rfl
    · have hp := painted_of_paintNode hh hn
      cases step.is_complete <;> exact hp
  refine ⟨general, ?_⟩
  intro a step path hsz hsq hinv hst hen hstep hin hcomp hpath
  rw [← hsz] at hsq hin
  obtain ⟨a1, ha1, _, _, _, hpt⟩ := general a step hsq hstep hin
  obtain ⟨⟨s, hs, hss⟩, hsu, ⟨e, he, hee⟩, heu, _⟩ := hinv
  rw [hst] at hs hsu
  rw [hen] at he heu
  refine ⟨a1, ha1, ?_, ?_, ?_⟩
  · intro p hp hp1 hp2
    have hb : InBounds a.gridSize p.x p.y := by
      apply hin.2.2 p
      rw [hpath]
      exact hp
    obtain ⟨nd, hnd⟩ := Option.isSome_iff_exists.mp
      ((node?_isSome_of_square hsq p.x p.y).mpr hb)
    obtain ⟨m, hm, _, _, hmp, _⟩ := hpt p.x p.y nd hnd
    refine ⟨m, hm, hmp.mpr ⟨hcomp, path, hpath, ?_, ?_, ?_⟩⟩
    · cases hns : nd.is_start with
      | false => rfl
      | true =>
        exfalso
        apply hp1
        obtain ⟨h1, h2⟩ := hsu p.x p.y nd hnd hns
        exact (point_eq_iff ⟨1, 1⟩ p.x p.y).mpr ⟨h1, h2⟩
    · cases hne : nd.is_end with
      | false => rfl
      | true =>
        exfalso
        apply hp2
        obtain ⟨h1, h2⟩ := heu p.x p.y nd hnd hne
        exact (point_eq_iff ⟨28, 28⟩ p.x p.y).mpr ⟨h1, h2⟩
    · cases p
      exact hp
  · obtain ⟨m, hm, _, _, hmp, _, hms, _⟩ := hpt 1 1 s hs
    refine ⟨m, hm, hms.trans hss, ?_⟩
    cases hmv : m.is_path with
    | false => rfl
    | true =>
      obtain ⟨_, _, _, h1, _⟩ := hmp.mp hmv
      rw [hss] at h1
      cases h1
  · obtain ⟨m, hm, _, _, hmp, _, _, hme⟩ := hpt 28 28 e he
    refine ⟨m, hm, hme.trans hee, ?_⟩
    cases hmv : m.is_path with
    | false => rfl
    | true =>
      obtain ⟨_, _, _, _, h1, _⟩ := hmp.mp hmv
      rw [hee] at h1
      cases h1

/-- Witness for C3: the 30 by 30 grid of the constructor and a final step with the diagonal
path from `(1, 1)` to `(28, 28)`. -/
theorem animate_tick_paints_witness :
    ∃ a1, animate { initial with animationSteps := [diagonalStep], currentStep := 0 } = some a1 ∧
      (∀ p ∈ diagonalPath, p ≠ ⟨1, 1⟩ → p ≠ ⟨28, 28⟩ →
        ∃ m, a1.grid.node? p.x p.y = some m ∧ m.is_path = true) ∧
      (∃ s, a1.grid.node? 1 1 = some s ∧ s.is_start = true ∧ s.is_path = false) ∧
      (∃ e, a1.grid.node? 28 28 = some e ∧ e.is_end = true ∧ e.is_path = false) :=
  animate_tick_paints.2 { initial with animationSteps := [diagonalStep], currentStep := 0 }
    diagonalStep diagonalPath rfl (square_newGrid 30) (markerInv_newGrid 30 (by decide))
    rfl rfl rfl (by decide) rfl rfl

/-! ## Walls -/

theorem clearWalls_spec (a : App) (hsq : a.grid.Square a.gridSize) :
    ∃ g1, clearWalls a = some { a with grid := g1 } ∧ a.grid.SameHeader g1 ∧
      g1.Square a.gridSize ∧ ∀ x y, g1.node? x y = (a.grid.node? x y).map clearWall := by
  obtain ⟨g1, hg1, hh, hs, hn⟩ := forCells_local a.gridSize clearWallsBody
    (fun _ _ => clearWall)
    (by
      intro x y g nd hnd
      unfold clearWallsBody clearWall
      rw [hnd]
      by_cases hc : (!nd.is_start && !nd.is_end) = true
      · simp only [hc, if_true]
        exact ⟨_, rfl, localUpdate_setNode hnd _⟩
      · simp only [hc]
        exact ⟨_, rfl, localUpdate_self hnd⟩)
    a.grid hsq
  refine ⟨g1, ?_, hh, hs, hn⟩
  simp [clearWalls, hg1]

theorem clearWall_structural (nd : Node) :
    (clearWall nd).is_start = nd.is_start ∧ (clearWall nd).is_end = nd.is_end ∧
    ((clearWall nd).is_wall = true →
      nd.is_wall = true ∨ (nd.is_start = false ∧ nd.is_end = false)) := by
  unfold clearWall
  split
  · exact ⟨rfl, rfl, fun h => by simp at h⟩
  · exact ⟨rfl, rfl, fun h => Or.inl h⟩

theorem generateMaze_inv (a : App) (rnd : Nat → ℚ) (hsq : a.grid.Square a.gridSize)
    (hinv : a.grid.MarkerInvariant) :
    ∃ a1, generateMaze a rnd = some a1 ∧ a1.gridSize = a.gridSize ∧
      a1.animationSteps = a.animationSteps ∧
      a1.grid.Square a.gridSize ∧ a1.grid.MarkerInvariant := by
  obtain ⟨g1, hg1, hh1, hs1, hn1⟩ := clearWalls_spec a hsq
  have hinv1 : g1.MarkerInvariant :=
    markerInv_pointwise (fun _ _ => clearWall) hh1 hn1
      (fun _ _ nd _ => clearWall_structural nd) hinv
  obtain ⟨s, hs, hsq2, hinv2⟩ := forCells_inv a.gridSize (generateMazeBody rnd)
    (fun s => s.1.Square a.gridSize ∧ s.1.MarkerInvariant)
    (by
      intro x y s hx hy ⟨hsqs, hinvs⟩
      have hb : InBounds a.gridSize (x : Int) (y : Int) := by unfold InBounds; omega
      obtain ⟨nd, hnd⟩ := Option.isSome_iff_exists.mp
        ((node?_isSome_of_square hsqs x y).mpr hb)
      unfold generateMazeBody
      rw [hnd]
      by_cases hc : (!nd.is_start && !nd.is_end) = true
      · simp only [hc, if_true]
        by_cases hr : rnd s.2 < wallThreshold
        · simp only [hr, if_true]
          refine ⟨_, rfl, square_setNode hsqs _ _ _, ?_⟩
          refine markerInv_localUpdate hnd (localUpdate_setNode hnd _) rfl rfl ?_ hinvs
          intro _
          right
          simpa using hc
        · simp only [hr, if_false]
          exact ⟨_, rfl, hsqs, hinvs⟩
      · simp only [hc]
        exact ⟨_, rfl, hsqs, hinvs⟩)
    (g1, 0) ⟨hs1, hinv1⟩
  refine ⟨{ ({ a with grid := g1 } : App) with
      grid := s.1, message := some ("Random maze generated!", "info") }, ?_, rfl, rfl, hsq2,
    hinv2⟩
  unfold generateMaze
  rw [hg1]
  simp only [hs]

theorem displayResult_inv (a : App) (result : SolverResult) (a1 : App)
    (hsq : a.grid.Square a.gridSize) (hinv : a.grid.MarkerInvariant)
    (hp : ∀ p ∈ result.path.getD [], InBounds a.gridSize p.x p.y)
    (he : ∀ p ∈ result.explored_nodes.getD [], InBounds a.gridSize p.x p.y)
    (h : displayResult a result = some a1) :
    a1.gridSize = a.gridSize ∧ a1.grid.Square a.gridSize ∧ a1.grid.MarkerInvariant := by
  unfold displayResult at h
  cases hpath : result.path with
  | none => simp [hpath] at h
  | some path =>
    cases hexp : result.explored_nodes with
    | none => simp [hpath, hexp] at h
    | some explored =>
      rw [hpath] at hp
      rw [hexp] at he
      obtain ⟨g1, hg1, hh1, hs1, hn1⟩ := markPoints_spec Node.isMarker
        (fun nd => { nd with is_path := true }) (fun _ => rfl) (fun _ => rfl) path a.grid
        (fun p hpm => (node?_isSome_of_square hsq p.x p.y).mpr (hp p hpm))
      have hsq1 := hs1 _ hsq
      obtain ⟨g2, hg2, hh2, hs2, hn2⟩ := markPoints_spec (fun nd => nd.isMarker || nd.is_path)
        (fun nd => { nd with visited := true }) (fun _ => rfl) (fun _ => rfl) explored g1
        (fun p hpm => (node?_isSome_of_square hsq1 p.x p.y).mpr (he p hpm))
      simp only [hpath, hexp, hg1, hg2, Option.some.injEq] at h
      subst h
      refine ⟨rfl, hs2 _ hsq1, ?_⟩
      have hinv1 : g1.MarkerInvariant := by
        refine markerInv_pointwise _ hh1 hn1 ?_ hinv
        intro x y nd _
        beta_reduce
        split
        · exact ⟨rfl, rfl, fun hw => Or.inl hw⟩
        · exact ⟨rfl, rfl, fun hw => Or.inl hw⟩
      refine markerInv_pointwise _ hh2 hn2 ?_ hinv1
      intro x y nd _
      beta_reduce
      split
      · exact ⟨rfl, rfl, fun hw => Or.inl hw⟩
      · exact ⟨rfl, rfl, fun hw => Or.inl hw⟩

/-! ## The invariant along reachable states -/

theorem toggleWall_inv {a a1 : App} {x y : Int} (hI : a.Inv)
    (h : toggleWall a x y = some a1) : a1.Inv := by
  obtain ⟨hsq, hinv, hst⟩ := hI
  unfold toggleWall at h
  cases hnd : a.grid.node? x y with
  | none => simp [hnd] at h
  | some nd =>
    rw [hnd] at h
    by_cases hm : (nd.is_start || nd.is_end) = true
    · simp only [hm, if_true, Option.some.injEq] at h
      subst h
      exact ⟨hsq, hinv, hst⟩
    · have hm1 : (nd.is_start || nd.is_end) = false := by simpa using hm
      simp only [hm1, Bool.false_eq_true, if_false, Option.some.injEq] at h
      subst h
      refine ⟨square_setNode hsq _ _ _, ?_, hst⟩
      refine markerInv_localUpdate hnd (localUpdate_setNode hnd _) rfl rfl ?_ hinv
      intro _
      right
      simpa using hm

theorem setStart_inv {a a1 : App} {x y : Int} (hI : a.Inv) (hb : InBounds a.gridSize x y)
    (h : setStart a x y = some a1) : a1.Inv := by
  obtain ⟨hsq, hinv, hst⟩ := hI
  obtain ⟨nd, hnd⟩ := Option.isSome_iff_exists.mp ((node?_isSome_of_square hsq x y).mpr hb)
  obtain ⟨s0, hs0, _⟩ := hinv.1
  obtain ⟨g4, hg4, h1, h2, _, _, hq, hn⟩ := setStart_spec a x y s0 nd hs0 hnd
  rw [hg4] at h
  cases h
  exact ⟨hq _ hsq, markerInv_setStart hinv nd hnd h1 h2 hn, hst⟩

theorem setEnd_inv {a a1 : App} {x y : Int} (hI : a.Inv) (hb : InBounds a.gridSize x y)
    (h : setEnd a x y = some a1) : a1.Inv := by
  obtain ⟨hsq, hinv, hst⟩ := hI
  obtain ⟨nd, hnd⟩ := Option.isSome_iff_exists.mp ((node?_isSome_of_square hsq x y).mpr hb)
  obtain ⟨e0, he0, _⟩ := hinv.2.2.1
  obtain ⟨g4, hg4, h1, h2, _, _, hq, hn⟩ := setEnd_spec a x y e0 nd he0 hnd
  rw [hg4] at h
  cases h
  exact ⟨hq _ hsq, markerInv_setEnd hinv nd hnd h1 h2 hn, hst⟩

theorem clearFlags_structural (nd : Node) :
    (clearFlags nd).is_start = nd.is_start ∧ (clearFlags nd).is_end = nd.is_end ∧
    ((clearFlags nd).is_wall = true →
      nd.is_wall = true ∨ (nd.is_start = false ∧ nd.is_end = false)) :=
  ⟨rfl, rfl, fun h => Or.inl h⟩

theorem animate_inv {a a1 : App} (hI : a.Inv) (h : animate a = some a1) : a1.Inv := by
  obtain ⟨hsq, hinv, hst⟩ := hI
  cases hstep : a.animationSteps[a.currentStep]? with
  | none =>
    unfold animate at h
    rw [hstep] at h
    cases h
    exact ⟨hsq, hinv, hst⟩
  | some step =>
    have hin := hst step (List.getElem?_mem hstep)
    obtain ⟨g1, hh, hs1, hn, han⟩ := animate_spec a step hsq hstep hin
    rw [han] at h
    have hinv1 : g1.MarkerInvariant :=
      markerInv_pointwise (paintNode step) hh hn
        (fun _ _ nd _ => ⟨rfl, rfl, fun hw => Or.inl hw⟩) hinv
    cases hc : step.is_complete <;> rw [hc] at h <;> cases h <;> exact ⟨hs1, hinv1, hst⟩

theorem cancelPending_inv {a : App} (hI : a.Inv) : (cancelPending a).Inv := by
  unfold cancelPending
  cases a.animationId with
  | none => exact hI
  | some id =>
    by_cases h0 : (id != 0) = true
    · simp only [h0, if_true]
      exact hI
    · simp only [h0]
      exact hI

theorem reachable_inv {a : App} (h : Reachable a) : a.Inv := by
  induction h with
  | init a0 hn hsteps =>
    exact ⟨square_newGrid a0.gridSize, markerInv_newGrid a0.gridSize hn, hsteps⟩
  | toggleWall x y _ _ hop ih => exact toggleWall_inv ih hop
  | setStart x y _ hb hop ih => exact setStart_inv ih hb hop
  | setEnd x y _ hb hop ih => exact setEnd_inv ih hb hop
  | clearWalls _ hop ih =>
    obtain ⟨hsq, hinv, hst⟩ := ih
    obtain ⟨g1, hg1, hh, hs, hn⟩ := clearWalls_spec _ hsq
    rw [hg1] at hop
    cases hop
    exact ⟨hs, markerInv_pointwise (fun _ _ => clearWall) hh hn
      (fun _ _ nd _ => clearWall_structural nd) hinv, hst⟩
  | generateMaze rnd _ hop ih =>
    obtain ⟨hsq, hinv, hst⟩ := ih
    obtain ⟨a2, ha2, hsz, hsteps, hs, hi⟩ := generateMaze_inv _ rnd hsq hinv
    rw [ha2] at hop
    cases hop
    refine ⟨by rw [hsz]; exact hs, hi, ?_⟩
    rw [hsz, hsteps]
    exact hst
  | clearVisualization _ hop ih =>
    obtain ⟨hsq, hinv, hst⟩ := ih
    obtain ⟨g1, hg1, hh, hs, hn⟩ := clearVisualization_spec _ hsq
    rw [hg1] at hop
    cases hop
    exact ⟨hs, markerInv_pointwise (fun _ _ => clearFlags) hh hn
      (fun _ _ nd _ => clearFlags_structural nd) hinv, hst⟩
  | displayResult result _ hp he hop ih =>
    obtain ⟨hsq, hinv, hst⟩ := ih
    obtain ⟨hsz, hs, hi⟩ := displayResult_inv _ result _ hsq hinv hp he hop
    refine ⟨by rw [hsz]; exact hs, hi, ?_⟩
    have hsteps : ∀ {b b1 : App}, displayResult b result = some b1 →
        b1.animationSteps = b.animationSteps := by
      intro b b1 hb
      unfold displayResult at hb
      split at hb
      · split at hb
        · cases hb
        · split at hb
          · cases hb
          · cases hb
            rfl
      · cases hb
    rw [hsz, hsteps hop]
    exact hst
  | loadSteps steps _ hsteps ih => exact ⟨ih.1, ih.2.1, hsteps⟩
  | animatePathfinding _ hop ih => exact animate_inv (cancelPending_inv ih) hop
  | fireTimeout i _ hop ih =>
    unfold fireTimeout at hop
    split at hop
    · cases hop
    · cases hop
      exact ih
  | fireFrame id _ hop ih =>
    unfold fireFrame at hop
    split at hop
    · refine animate_inv ?_ hop
      exact ih
    · cases hop

/-! ## Claim on the marker invariant -/

/-- C1: in every state reachable from `createGrid` at a grid size of at least 2 by
`toggleWall`, `setStart`, `setEnd` (coordinates inside the grid), `clearWalls`,
`generateMaze` (for every sequence of random draws), `clearVisualization`, `displayResult`
and the events of the animation loop (points inside the grid), the node at `grid.start`
exists and is the only node with `is_start`, the node at `grid.end` exists and is the only
node with `is_end`, and no node has `is_wall` together with `is_start` or `is_end`. -/
theorem reachable_markerInvariant (a : App) (h : Reachable a) : a.grid.MarkerInvariant :=
  (reachable_inv h).2.1

/-- Witness for C1: the state the constructor leaves. -/
theorem reachable_markerInvariant_witness : Reachable initial ∧ initial.grid.MarkerInvariant :=
  ⟨Reachable.init _ (by decide) (fun _ hs => by cases hs),
    reachable_markerInvariant initial (Reachable.init _ (by decide) (fun _ hs => by cases hs))⟩

/-- Witness for C6: moving either marker to the cell `(5, 7)` of the initial grid. -/
theorem setStart_setEnd_effect_witness :
    (∃ a1, setStart initial 5 7 = some a1 ∧ SetStartEffect initial.grid a1.grid 5 7) ∧
    (∃ a1, setEnd initial 5 7 = some a1 ∧ SetEndEffect initial.grid a1.grid 5 7) :=
  setStart_setEnd_effect initial 5 7 _ (markerInv_newGrid 30 (by decide))
    (node?_newGrid_int 30 5 7 (by decide))

/-- Witness for C7: toggling the cell `(3, 4)` of the initial grid twice. -/
theorem toggleWall_twice_witness :
    ∃ a1, toggleWall initial 3 4 = some a1 ∧
      a1.grid.node? 3 4 = some
        { newNode ⟨1, 1⟩ ⟨28, 28⟩ 3 4 with is_wall := !(newNode ⟨1, 1⟩ ⟨28, 28⟩ 3 4).is_wall } ∧
      (∀ u v, ¬ (u = 3 ∧ v = 4) → a1.grid.node? u v = initial.grid.node? u v) ∧
      toggleWall a1 3 4 = some initial :=
  toggleWall_twice initial 3 4 (newNode ⟨1, 1⟩ ⟨28, 28⟩ 3 4)
    (node?_newGrid_int 30 3 4 (by decide)) rfl rfl

/-! ## Start and end on one cell -/

theorem modify_header {g g1 : Grid} {x y : Int} {f : Node → Node}
    (h : g.modify x y f = some g1) : g.SameHeader g1 := by
  unfold Grid.modify at h
  split at h
  · cases h
  · cases h
    exact sameHeader_setNode _ _ _ _

theorem setStart_header {a a1 : App} {x y : Int} (h : setStart a x y = some a1) :
    a1.grid.start = ⟨x, y⟩ ∧ a1.grid.end_ = a.grid.end_ := by
  unfold setStart at h
  simp only [] at h
  split at h
  · cases h
  · rename_i g1 h1
    split at h
    · cases h
    · rename_i g3 h3
      split at h
      · cases h
      · rename_i g4 h4
        cases h
        have e1 := modify_header h1
        have e3 := modify_header h3
        have e4 := modify_header h4
        exact ⟨e4.2.2.1.trans e3.2.2.1, (e4.2.2.2.trans e3.2.2.2).trans e1.2.2.2⟩

theorem setEnd_header {a a1 : App} {x y : Int} (h : setEnd a x y = some a1) :
    a1.grid.end_ = ⟨x, y⟩ ∧ a1.grid.start = a.grid.start := by
  unfold setEnd at h
  simp only [] at h
  split at h
  · cases h
  · rename_i g1 h1
    split at h
    · cases h
    · rename_i g3 h3
      split at h
      · cases h
      · rename_i g4 h4
        cases h
        have e1 := modify_header h1
        have e3 := modify_header h3
        have e4 := modify_header h4
        exact ⟨e4.2.2.2.trans e3.2.2.2, (e4.2.2.1.trans e3.2.2.1).trans e1.2.2.1⟩

theorem toggleWall_header {a a1 : App} {x y : Int} (h : toggleWall a x y = some a1) :
    a1.grid.start = a.grid.start ∧ a1.grid.end_ = a.grid.end_ := by
  unfold toggleWall at h
  split at h
  · cases h
  · split at h
    · cases h
      exact ⟨rfl, rfl⟩
    · cases h
      have e := sameHeader_setNode a.grid x y
      exact ⟨(e _).2.2.1, (e _).2.2.2⟩

theorem newGrid_start_ne_end (n : Nat) (hn : n ≠ 3) : (newGrid n).start ≠ (newGrid n).end_ := by
  intro h
  have hx : (1 : Int) = (n : Int) - 2 := congrArg Point.x h
  omega

theorem uiReachable_start_ne_end {a : App} (h : UiReachable a) :
    a.grid.start ≠ a.grid.end_ := by
  induction h with
  | init a0 hn => exact newGrid_start_ne_end a0.gridSize hn
  | resize n _ hn _ => exact newGrid_start_ne_end n hn
  | @mouseDown a a1 e _ hnt hop ih =>
    unfold onMouseDown at hop
    simp only [] at hop
    split at hop
    · cases hop
      exact ih
    · split at hop
      · rename_i hb
        obtain ⟨h1, h2⟩ := setStart_header hop
        rw [h1, h2]
        intro hc
        apply hnt
        left
        have hb2 : e.button = 2 := by simpa using hb
        exact ⟨hb2, by rw [← hc], by rw [← hc]⟩
      · rename_i hb
        split at hop
        · rename_i hctrl
          obtain ⟨h1, h2⟩ := setEnd_header hop
          rw [h1, h2]
          intro hc
          apply hnt
          right
          have hb2 : e.button ≠ 2 := by simpa using hb
          exact ⟨hb2, hctrl, by rw [hc], by rw [hc]⟩
        · split at hop
          · cases hop
          · rename_i a2 ht
            cases hop
            obtain ⟨h1, h2⟩ := toggleWall_header ht
            show a2.grid.start ≠ a2.grid.end_
            rw [h1, h2]
            exact ih
  | @mouseMove a a1 e _ hop ih =>
    unfold onMouseMove at hop
    split at hop
    · cases hop
      exact ih
    · split at hop
      · cases hop
        exact ih
      · obtain ⟨h1, h2⟩ := toggleWall_header hop
        rw [h1, h2]
        exact ih
  | mouseUp _ ih => exact ih

/-! ## Claim on start and end -/

/-- C2, as stated, fails: on the initial 30 by 30 grid a right-button press on the cell
`(28, 28)` of the end marker is not rejected; `onMouseDown` returns a state whose grid differs
from the initial one and has `grid.start = grid.end`. -/
theorem start_eq_end_reachable :
    ∃ a1, onMouseDown initial ⟨28, 28, 2, false⟩ = some a1 ∧
      a1.grid.start = a1.grid.end_ ∧ a1.grid ≠ initial.grid := by
  obtain ⟨g4, hg4, hst, hen, _, _, _, _⟩ := setStart_spec { initial with isMouseDown := true }
    28 28 _ _ (node?_newGrid_int 30 1 1 (by decide)) (node?_newGrid_int 30 28 28 (by decide))
  refine ⟨_, hg4, ?_, ?_⟩
  · show g4.start = g4.end_
    rw [hst, hen]
    rfl
  · show g4 ≠ initial.grid
    intro hc
    rw [hc] at hst
    have : (1 : Int) = 28 := congrArg Point.x hst
    omega

/-- C2, amended: in every state reachable through `createGrid` and the grid-size change at a
size other than 3 and through the pointer handlers, `grid.start` differs from `grid.end`
provided no press asks `setStart` for the end marker's cell or `setEnd` for the start
marker's cell; such an edit is not rejected: where both marker nodes exist, `setStart` at
the end marker's cell and `setEnd` at the start marker's cell return a state with
`grid.start = grid.end`. -/
theorem start_ne_end_unless_targeted :
    (∀ a : App, UiReachable a → a.grid.start ≠ a.grid.end_) ∧
    (∀ (a : App) (s0 e0 : Node), a.grid.node? a.grid.start.x a.grid.start.y = some s0 →
      a.grid.node? a.grid.end_.x a.grid.end_.y = some e0 →
      (∃ a1, setStart a a.grid.end_.x a.grid.end_.y = some a1 ∧
        a1.grid.start = a1.grid.end_) ∧
      (∃ a1, setEnd a a.grid.start.x a.grid.start.y = some a1 ∧
        a1.grid.start = a1.grid.end_)) := by
  refine ⟨fun a h => uiReachable_start_ne_end h, ?_⟩
  intro a s0 e0 hs he
  constructor
  · obtain ⟨g4, hg4, hst, hen, _⟩ := setStart_spec a _ _ s0 e0 hs he
    refine ⟨_, hg4, ?_⟩
    show g4.start = g4.end_
    rw [hst, hen]
  · obtain ⟨g4, hg4, hen, hst, _⟩ := setEnd_spec a _ _ e0 s0 he hs
    refine ⟨_, hg4, ?_⟩
    show g4.start = g4.end_
    rw [hst, hen]

/-- Witness for the amended C2: the state the constructor leaves. -/
theorem start_ne_end_unless_targeted_witness :
    UiReachable initial ∧ initial.grid.start ≠ initial.grid.end_ :=
  ⟨UiReachable.init _ (by decide),
    start_ne_end_unless_targeted.1 initial (UiReachable.init _ (by decide))⟩

/-! ## The tick chain -/

theorem paintNode_paintNode (s1 s2 : Step) (x y : Int) (nd : Node) :
    paintNode s2 x y (paintNode s1 x y nd) = paintNode s2 x y nd := rfl

/-- One tick from a state `b` with nothing pending whose grid is the grid of `a` up to the
transient flags. -/
theorem tick_applied (a b : App) (j : Nat) (step : Step) (h : Int → Int → Node → Node)
    (hh : ∀ x y nd, paintNode step x y (h x y nd) = paintNode step x y nd)
    (hg : ∀ x y, b.grid.node? x y = (a.grid.node? x y).map (h x y))
    (hhead : a.grid.SameHeader b.grid) (hsq : b.grid.Square b.gridSize)
    (hsz : b.gridSize = a.gridSize) (hsteps : b.animationSteps = a.animationSteps)
    (hspeed : b.animationSpeed = a.animationSpeed) (hstat : b.status = a.status)
    (hcur : b.currentStep = j) (hfr : b.frames = []) (hti : b.timeouts = [])
    (hstep : a.animationSteps[j]? = some step)
    (hin : ∀ s ∈ a.animationSteps, StepInBounds a.gridSize s) :
    ∃ s, animate b = some s ∧ Applied a j step s := by
  have hstepb : b.animationSteps[b.currentStep]? = some step := by rw [hsteps, hcur]; exact hstep
  have hinb : StepInBounds b.gridSize step := by
    rw [hsz]; exact hin step (List.getElem?_mem hstep)
  obtain ⟨g1, hh1, hs1, hn1, han⟩ := animate_spec b step hsq hstepb hinb
  have hpt : ∀ x y, g1.node? x y = (a.grid.node? x y).map (paintNode step x y) := by
    intro x y
    rw [hn1, hg]
    cases a.grid.node? x y with
    | none => rfl
    | some nd => simp [hh]
  rw [hsz] at hs1
  refine ⟨_, han, ?_⟩
  cases hc : step.is_complete with
  | false =>
    simp only [Bool.false_eq_true, if_false]
    refine ⟨hsz, hsteps, hspeed, by simp [hcur], hfr, hs1, sameHeader_trans hhead hh1, hpt,
      ?_, ?_⟩
    · intro _
      exact ⟨by simp [hti, hspeed], hstat⟩
    · intro hcontra
      rw [hc] at hcontra
      cases hcontra
  | true =>
    simp only [if_true]
    refine ⟨hsz, hsteps, hspeed, by simp [hcur], hfr, hs1, sameHeader_trans hhead hh1, hpt,
      ?_, ?_⟩
    · intro hcontra
      rw [hc] at hcontra
      cases hcontra
    · intro _
      exact ⟨hti, rfl⟩

theorem cancelPending_fields (a : App) :
    (cancelPending a).grid = a.grid ∧ (cancelPending a).gridSize = a.gridSize ∧
    (cancelPending a).animationSteps = a.animationSteps ∧
    (cancelPending a).animationSpeed = a.animationSpeed ∧
    (cancelPending a).status = a.status ∧ (cancelPending a).currentStep = a.currentStep ∧
    (cancelPending a).timeouts = a.timeouts ∧
    (a.frames = [] → (cancelPending a).frames = []) := by
  unfold cancelPending
  cases a.animationId with
  | none => exact ⟨rfl, rfl, rfl, rfl, rfl, rfl, rfl, fun h => h⟩
  | some id =>
    by_cases h0 : (id != 0) = true
    · simp only [h0, if_true]
      refine ⟨rfl, rfl, rfl, rfl, rfl, rfl, rfl, ?_⟩
      intro h
      simp [cancelAnimationFrame, h]
    · simp only [h0]
      exact ⟨rfl, rfl, rfl, rfl, rfl, rfl, rfl, fun h => h⟩

theorem chainTick_eq (s : App) (d : Int) (ht : s.timeouts = [d]) (hf : s.frames = []) :
    chainTick s = animate
      { s with timeouts := [], frames := [], animationId := some s.nextHandle,
               nextHandle := s.nextHandle + 1 } := by
  unfold chainTick fireTimeout
  simp only [ht, List.getElem?_cons_zero, hf, List.nil_append, List.eraseIdx_cons_zero]
  unfold fireFrame
  simp

theorem chainTick_none (s : App) (ht : s.timeouts = []) : chainTick s = none := by
  unfold chainTick fireTimeout
  simp [ht]

theorem playback_applied (a : App) (hsq : a.grid.Square a.gridSize)
    (hcur : a.currentStep = 0) (ht : a.timeouts = []) (hf : a.frames = [])
    (hin : ∀ s ∈ a.animationSteps, StepInBounds a.gridSize s) :
    ∀ (j : Nat) (step : Step), a.animationSteps[j]? = some step →
      (∀ i < j, ∀ st, a.animationSteps[i]? = some st → st.is_complete = false) →
      ∃ s, playback j a = some s ∧ Applied a j step s := by
  intro j
  induction j with
  | zero =>
    intro step hstep _
    obtain ⟨c1, c2, c3, c4, c5, c6, c7, c8⟩ := cancelPending_fields a
    have := tick_applied a (cancelPending a) 0 step (fun _ _ nd => nd) (fun _ _ _ => rfl)
      (by intro x y; rw [c1]; cases a.grid.node? x y <;> rfl)
      (by rw [c1]; exact ⟨rfl, rfl, rfl, rfl⟩) (by rw [c1, c2]; exact hsq) c2 c3 c4 c5
      (by rw [c6]; exact hcur) (c8 hf) (by rw [c7]; exact ht) hstep hin
    exact this
  | succ j ih =>
    intro step hstep hprev
    have hjlt : j < a.animationSteps.length := by
      have := (List.getElem?_eq_some_iff.mp hstep).1
      omega
    obtain ⟨stj, hstj⟩ : ∃ st, a.animationSteps[j]? = some st :=
      ⟨_, List.getElem?_eq_getElem hjlt⟩
    have hncj : stj.is_complete = false := hprev j (Nat.lt_succ_self j) stj hstj
    obtain ⟨s, hs, hap⟩ := ih stj hstj
      (fun i hi st hst => hprev i (Nat.lt_succ_of_lt hi) st hst)
    obtain ⟨a1, a2, a3, a4, a5, a6, a7, a8, a9, _⟩ := hap
    obtain ⟨hti, hstat⟩ := a9 hncj
    have hct := chainTick_eq s _ hti a5
    obtain ⟨s1, hs1, hap1⟩ := tick_applied a
      { s with timeouts := [], frames := [], animationId := some s.nextHandle,
               nextHandle := s.nextHandle + 1 }
      (j + 1) step (paintNode stj) (fun x y nd => paintNode_paintNode stj step x y nd)
      a8 a7 (by rw [a1]; exact a6) a1 a2 a3 hstat a4 rfl rfl hstep hin
    refine ⟨s1, ?_, hap1⟩
    show (match playback j a with
      | none => none
      | some s => chainTick s) = some s1
    rw [hs]
    simp only []
    rw [hct]
    exact hs1

theorem animate_done (b : App) (h : b.animationSteps[b.currentStep]? = none) :
    animate b = some b := by
  unfold animate
  rw [h]

theorem playback_succ (j : Nat) (a s : App) (h : playback j a = some s) :
    playback (j + 1) a = chainTick s := by
  show (match playback j a with
    | none => none
    | some s => chainTick s) = chainTick s
  rw [h]

/-! ## Claim on the playback of one chain -/

/-- C4: let a playback start by `animatePathfinding` with cursor 0 and nothing else pending,
on a grid of `gridSize` rows of `gridSize` cells, with steps whose points are cells of the grid
(the bound the data model puts on a point). If `k` is the index of the first step with
`is_complete`, then for every `j ≤ k` tick number `j` exists, applies step `j` and leaves the
cursor at `j + 1`; before `k` exactly one timeout is pending and the status text is untouched;
right after step `k` the status is `Animation complete`, nothing is pending and there is no
further tick, whether or not steps remain. If no step has `is_complete`, every step is
applied by the tick of its index, the tick after the last one changes nothing but finds the
cursor at the end, leaves nothing pending and the status untouched, and no tick follows. -/
theorem playback_single_chain (a : App) (hsq : a.grid.Square a.gridSize)
    (hcur : a.currentStep = 0) (ht : a.timeouts = []) (hf : a.frames = [])
    (hin : ∀ s ∈ a.animationSteps, StepInBounds a.gridSize s) :
    (∀ (k : Nat) (stepk : Step), a.animationSteps[k]? = some stepk →
      stepk.is_complete = true →
      (∀ i < k, ∀ st, a.animationSteps[i]? = some st → st.is_complete = false) →
      (∀ j ≤ k, ∃ step s, a.animationSteps[j]? = some step ∧ playback j a = some s ∧
        s.currentStep = j + 1 ∧ Painted step a.grid s.grid ∧
        (j < k → s.timeouts = [110 - a.animationSpeed * 10] ∧ s.frames = [] ∧
          s.status = a.status) ∧
        (j = k → s.timeouts = [] ∧ s.frames = [] ∧ s.status = "Animation complete")) ∧
      playback (k + 1) a = none) ∧
    ((∀ st ∈ a.animationSteps, st.is_complete = false) →
      (∀ j < a.animationSteps.length, ∃ step s, a.animationSteps[j]? = some step ∧
        playback j a = some s ∧ s.currentStep = j + 1 ∧ Painted step a.grid s.grid ∧
        s.timeouts = [110 - a.animationSpeed * 10] ∧ s.frames = [] ∧ s.status = a.status) ∧
      (∃ s, playback a.animationSteps.length a = some s ∧
        s.currentStep = a.animationSteps.length ∧ s.timeouts = [] ∧ s.frames = [] ∧
        s.status = a.status) ∧
      playback (a.animationSteps.length + 1) a = none) := by
  have hpa := playback_applied a hsq hcur ht hf hin
  constructor
  · intro k stepk hk hc hfirst
    constructor
    · intro j hj
      have hklt : k < a.animationSteps.length := (List.getElem?_eq_some_iff.mp hk).1
      have hjlt : j < a.animationSteps.length := by omega
      obtain ⟨s, hs, hap⟩ := hpa j _ (List.getElem?_eq_getElem hjlt)
        (fun i hi st hst => hfirst i (by omega) st hst)
      obtain ⟨_, _, _, a4, a5, _, a7, a8, a9, a10⟩ := hap
      refine ⟨_, s, List.getElem?_eq_getElem hjlt, hs, a4, painted_of_paintNode a7 a8, ?_, ?_⟩
      · intro hjk
        have hnc := hfirst j hjk _ (List.getElem?_eq_getElem hjlt)
        obtain ⟨h1, h2⟩ := a9 hnc
        exact ⟨h1, a5, h2⟩
      · intro hjk
        subst hjk
        have heq : a.animationSteps[j] = stepk := by
          have := List.getElem?_eq_getElem hjlt
          rw [hk] at this
          exact (Option.some.inj this).symm
        rw [heq] at a10
        obtain ⟨h1, h2⟩ := a10 hc
        exact ⟨h1, a5, h2⟩
    · obtain ⟨s, hs, hap⟩ := hpa k stepk hk hfirst
      rw [playback_succ k a s hs]
      exact chainTick_none s (hap.2.2.2.2.2.2.2.2.2 hc).1
  · intro hnc
    have hsteps : ∀ j < a.animationSteps.length, ∃ step s,
        a.animationSteps[j]? = some step ∧ playback j a = some s ∧
        Applied a j step s ∧ step.is_complete = false := by
      intro j hjlt
      have hget := List.getElem?_eq_getElem hjlt
      obtain ⟨s, hs, hap⟩ := hpa j _ hget
        (fun i hi st hst => hnc st (List.getElem?_mem hst))
      exact ⟨_, s, hget, hs, hap, hnc _ (List.getElem?_mem hget)⟩
    have hlast : ∃ s, playback a.animationSteps.length a = some s ∧
        s.currentStep = a.animationSteps.length ∧ s.timeouts = [] ∧ s.frames = [] ∧
        s.status = a.status := by
      cases hlen : a.animationSteps.length with
      | zero =>
        obtain ⟨c1, c2, c3, c4, c5, c6, c7, c8⟩ := cancelPending_fields a
        refine ⟨cancelPending a, ?_, ?_, ?_, c8 hf, c5⟩
        · show animate (cancelPending a) = some (cancelPending a)
          apply animate_done
          rw [c3, c6]
          exact List.getElem?_eq_none (by omega)
        · rw [c6]; exact hcur
        · rw [c7]; exact ht
      | succ n =>
        obtain ⟨stn, s, _, hs, hap, hncs⟩ := hsteps n (by omega)
        obtain ⟨_, a2, _, a4, a5, _, _, _, a9, _⟩ := hap
        obtain ⟨hti, hstat⟩ := a9 hncs
        refine ⟨{ s with timeouts := [], frames := [], animationId := some s.nextHandle,
                         nextHandle := s.nextHandle + 1 }, ?_, a4, rfl, rfl, hstat⟩
        rw [playback_succ n a s hs, chainTick_eq s _ hti a5]
        apply animate_done
        show s.animationSteps[s.currentStep]? = none
        rw [a2, a4]
        exact List.getElem?_eq_none (by omega)
    refine ⟨?_, hlast, ?_⟩
    · intro j hjlt
      obtain ⟨stj, s, hget, hs, hap, hncs⟩ := hsteps j hjlt
      obtain ⟨_, _, _, a4, a5, _, a7, a8, a9, _⟩ := hap
      obtain ⟨h1, h2⟩ := a9 hncs
      exact ⟨stj, s, hget, hs, a4, painted_of_paintNode a7 a8, h1, a5, h2⟩
    · obtain ⟨s, hs, _, hti, _, _⟩ := hlast
      rw [playback_succ _ a s hs]
      exact chainTick_none s hti

/-- Witness for C4: on the initial grid, three steps of which the second is final; ticks 0
and 1 run, the status becomes `Animation complete` and there is no tick 2. -/
theorem playback_single_chain_witness :
    (∃ s, playback 1
        { initial with animationSteps := [idleStep, diagonalStep, idleStep] } = some s ∧
      s.currentStep = 2 ∧ s.timeouts = [] ∧ s.frames = [] ∧
      s.status = "Animation complete") ∧
    playback 2 { initial with animationSteps := [idleStep, diagonalStep, idleStep] } = none := by
  have h := (playback_single_chain
    { initial with animationSteps := [idleStep, diagonalStep, idleStep] }
    (square_newGrid 30) rfl rfl rfl (by decide)).1 1 diagonalStep rfl rfl
    (by
      intro i hi st hst
      have hi0 : i = 0 := by omega
      subst hi0
      cases hst
      rfl)
  refine ⟨?_, h.2⟩
  obtain ⟨step, s, _, hs, hc, _, _, hk⟩ := h.1 1 (Nat.le_refl 1)
  obtain ⟨h1, h2, h3⟩ := hk rfl
  exact ⟨s, hs, hc, h1, h2, h3⟩

/-! ## Claim on restarting a playback -/

/-- C5, failing run: a first playback starts on the initial grid and its tick 0 leaves a
`setTimeout` callback pending (delay 60). A new search then runs `clearPath`, installs its
steps with cursor 0 and calls `animatePathfinding`: neither cancels the pending timeout
(`animationId` is still `null`, and only animation frames are ever cancelled), so two
timeouts are pending. The timeout of the first chain then fires and requests frame 1, and
that frame runs `animate`, moving the cursor of the new playback from 1 to 2 and scheduling a
second chain. -/
theorem stale_timeout_fires :
    ∃ s1 c s2 s3 s4 : App,
      animatePathfinding firstRun = some s1 ∧ s1.timeouts = [60] ∧ s1.frames = [] ∧
      clearPath s1 = some c ∧ c.timeouts = [60] ∧
      animatePathfinding { c with animationSteps := threeIdle, currentStep := 0 } = some s2 ∧
      s2.currentStep = 1 ∧ s2.timeouts = [60, 60] ∧
      fireTimeout s2 0 = some s3 ∧ s3.timeouts = [60] ∧ s3.frames = [1] ∧
      fireFrame s3 1 = some s4 ∧ s4.currentStep = 2 ∧ s4.timeouts = [60, 60] := by
  have hidle : StepInBounds 30 idleStep := by decide
  obtain ⟨g1, _, hs1, _, han1⟩ := animate_spec firstRun idleStep (square_newGrid 30) rfl hidle
  have e1 : animatePathfinding firstRun = some
      { firstRun with grid := g1, currentStep := 1, timeouts := [60] } := han1
  obtain ⟨g2, hg2, _, hs2, _⟩ := clearVisualization_spec
    { firstRun with grid := g1, currentStep := 1, timeouts := [60] } hs1
  have e2 : clearPath { firstRun with grid := g1, currentStep := 1, timeouts := [60] } = some
      { firstRun with grid := g2, currentStep := 1, timeouts := [60], status := "Ready" } := by
    show (match clearVisualization
        { firstRun with grid := g1, currentStep := 1, timeouts := [60] } with
      | none => none
      | some a2 => some { a2 with status := "Ready" }) = _
    rw [hg2]
  obtain ⟨g3, _, hs3, _, han3⟩ := animate_spec
    { firstRun with grid := g2, currentStep := 0, timeouts := [60], status := "Ready" }
    idleStep hs2 rfl hidle
  have e3 : animatePathfinding
      { ({ firstRun with grid := g2, currentStep := 1, timeouts := [60], status := "Ready" }
          : App) with animationSteps := threeIdle, currentStep := 0 } = some
      { firstRun with grid := g3, currentStep := 1, timeouts := [60, 60], status := "Ready" } :=
    han3
  obtain ⟨g4, _, _, _, han4⟩ := animate_spec
    { firstRun with grid := g3, currentStep := 1, timeouts := [60], status := "Ready",
                    frames := [], animationId := some 1, nextHandle := 2 }
    idleStep hs3 rfl hidle
  have e5 : fireFrame
      { firstRun with grid := g3, currentStep := 1, timeouts := [60], status := "Ready",
                      frames := [1], animationId := some 1, nextHandle := 2 } 1 = some
      { firstRun with grid := g4, currentStep := 2, timeouts := [60, 60], status := "Ready",
                      frames := [], animationId := some 1, nextHandle := 2 } := han4
  exact ⟨_, _, _, _, _, e1, rfl, rfl, e2, rfl, e3, rfl, rfl, rfl, rfl, rfl, e5, rfl, rfl⟩

/-! ## Claims on walls, delays and results -/

/-- C16: for a cell `(x, y)` of the grid, if its node has `is_start` or `is_end` then
`toggleWall(x, y)` returns the state unchanged; otherwise it negates `is_wall` of that node
and leaves every other field of that node, every other node, `grid.start`, `grid.end` and
the rest of the state unchanged. -/
theorem toggleWall_frame (a : App) (x y : Int) (nd : Node)
    (hxy : a.grid.node? x y = some nd) :
    (nd.is_start = true ∨ nd.is_end = true → toggleWall a x y = some a) ∧
    (nd.is_start = false → nd.is_end = false →
      ∃ g1, toggleWall a x y = some { a with grid := g1 } ∧
        g1.node? x y = some { nd with is_wall := !nd.is_wall } ∧
        (∀ u v, ¬ (u = x ∧ v = y) → g1.node? u v = a.grid.node? u v) ∧
        g1.start = a.grid.start ∧ g1.end_ = a.grid.end_ ∧
        g1.width = a.grid.width ∧ g1.height = a.grid.height) := by
  constructor
  · intro hm
    unfold toggleWall
    rw [hxy]
    have : (nd.is_start || nd.is_end) = true := by
      rcases hm with h | h <;> simp [h]
    simp only [this, if_true]
  · intro hs he
    have h1 := node?_setNode hxy { nd with is_wall := !nd.is_wall }
    have hh := sameHeader_setNode a.grid x y { nd with is_wall := !nd.is_wall }
    refine ⟨a.grid.setNode x y { nd with is_wall := !nd.is_wall }, ?_, ?_, ?_,
      hh.2.2.1, hh.2.2.2, hh.1, hh.2.1⟩
    · simp [toggleWall, hxy, hs, he]
    · simp [h1]
    · intro u v huv
      simp [h1, huv]

/-- Witness for C16: the cell `(3, 4)` of the initial grid. -/
theorem toggleWall_frame_witness :
    ∃ g1, toggleWall initial 3 4 = some { initial with grid := g1 } ∧
      g1.node? 3 4 = some
        { newNode ⟨1, 1⟩ ⟨28, 28⟩ 3 4 with is_wall := !(newNode ⟨1, 1⟩ ⟨28, 28⟩ 3 4).is_wall } ∧
      (∀ u v, ¬ (u = 3 ∧ v = 4) → g1.node? u v = initial.grid.node? u v) ∧
      g1.start = initial.grid.start ∧ g1.end_ = initial.grid.end_ ∧
      g1.width = initial.grid.width ∧ g1.height = initial.grid.height :=
  (toggleWall_frame initial 3 4 (newNode ⟨1, 1⟩ ⟨28, 28⟩ 3 4)
    (node?_newGrid_int 30 3 4 (by decide))).2 rfl rfl

/-- C17: for an integer speed level `s` with `1 ≤ s ≤ 10` set by `onSpeedChange`, the
timeout a non-final tick schedules has the delay `delay = 110 - 10 * s`; it lies between 10
and 100, and a higher level gives a strictly shorter delay. -/
theorem delay_of_speed (a : App) (s : Int) (step : Step) (hs1 : 1 ≤ s) (hs2 : s ≤ 10)
    (hsq : a.grid.Square a.gridSize) (hstep : a.animationSteps[a.currentStep]? = some step)
    (hnc : step.is_complete = false) (hin : StepInBounds a.gridSize step) :
    (∃ a1, animate (onSpeedChange a s) = some a1 ∧
      a1.timeouts = a.timeouts ++ [delay (onSpeedChange a s)]) ∧
    delay (onSpeedChange a s) = 110 - 10 * s ∧
    10 ≤ delay (onSpeedChange a s) ∧ delay (onSpeedChange a s) ≤ 100 ∧
    ∀ s1 : Int, s < s1 → s1 ≤ 10 → delay (onSpeedChange a s1) < delay (onSpeedChange a s) := by
  have hd : ∀ t : Int, delay (onSpeedChange a t) = 110 - 10 * t := by
    intro t
    show 110 - t * 10 = 110 - 10 * t
    omega
  refine ⟨?_, hd s, ?_, ?_, ?_⟩
  · obtain ⟨g1, _, _, _, han⟩ := animate_spec (onSpeedChange a s) step hsq hstep hin
    rw [hnc] at han
    exact ⟨_, han, rfl⟩
  · rw [hd]; omega
  · rw [hd]; omega
  · intro s1 h1 h2
    rw [hd, hd]; omega

/-- Witness for C17: speed level 7 on the first tick of `firstRun`. -/
theorem delay_of_speed_witness :
    (∃ a1, animate (onSpeedChange firstRun 7) = some a1 ∧
      a1.timeouts = firstRun.timeouts ++ [delay (onSpeedChange firstRun 7)]) ∧
    delay (onSpeedChange firstRun 7) = 110 - 10 * 7 :=
  let h := delay_of_speed firstRun 7 idleStep (by decide) (by decide) (square_newGrid 30) rfl
    rfl (by decide)
  ⟨h.1, h.2.1⟩

/-- C19: on a grid of `gridSize` rows of `gridSize` cells, `clearWalls` returns, and
afterwards every node without marker has `is_wall = false`, while `is_wall` of the marker
nodes, the `is_start`, `is_end` and transient flags and the point of every node,
`grid.start` and `grid.end` are as before; on a grid satisfying the marker invariant no node
is a wall afterwards. -/
theorem clearWalls_effect (a : App) (hsq : a.grid.Square a.gridSize) :
    ∃ a1, clearWalls a = some a1 ∧ a.grid.WallsCleared a1.grid ∧
      (a.grid.MarkerInvariant → ∀ x y m, a1.grid.node? x y = some m → m.is_wall = false) := by
  obtain ⟨g1, hg1, hh, _, hn⟩ := clearWalls_spec a hsq
  refine ⟨_, hg1, ⟨hh.2.2.1, hh.2.2.2, ?_⟩, ?_⟩
  · intro x y nd hnd
    refine ⟨clearWall nd, by rw [hn, hnd]; rfl, ?_, ?_, ?_⟩
    · intro hs he
      simp [clearWall, hs, he]
    · intro hm
      have : (!nd.is_start && !nd.is_end) = false := by
        rcases hm with h | h <;> simp [h]
      simp [clearWall, this]
    · unfold clearWall
      split <;> exact ⟨rfl, rfl, rfl, rfl, rfl, rfl⟩
  · intro hinv x y m hm
    have hm1 : g1.node? x y = some m := hm
    rw [hn x y] at hm1
    cases hnd : a.grid.node? x y with
    | none => simp [hnd] at hm1
    | some nd =>
      rw [hnd] at hm1
      have hmeq : m = clearWall nd := (Option.some.inj hm1).symm
      rw [hmeq]
      unfold clearWall
      by_cases hc : (!nd.is_start && !nd.is_end) = true
      · simp [hc]
      · simp only [hc]
        cases hw : nd.is_wall with
        | false => simp [hw]
        | true =>
          obtain ⟨h1, h2⟩ := hinv.2.2.2.2 x y nd hnd hw
          simp [h1, h2] at hc

/-- C20: on a grid of `gridSize` rows of `gridSize` cells whose transient flags are all
false, and for a result whose `path` and `explored_nodes` arrays name cells of the grid,
`displayResult` returns, and afterwards `is_path` holds exactly on the non-marker nodes
listed in `path`, `visited` exactly on the non-marker nodes listed in `explored_nodes` and
not in `path`, no node has both, `in_open_set` is false on every node, and `is_wall`,
`is_start`, `is_end`, `grid.start` and `grid.end` are as before. -/
theorem displayResult_effect (a : App) (path explored : List Point)
    (hsq : a.grid.Square a.gridSize) (hnt : a.grid.NoTransient)
    (hp : ∀ p ∈ path, InBounds a.gridSize p.x p.y)
    (he : ∀ p ∈ explored, InBounds a.gridSize p.x p.y) :
    ∃ a1, displayResult a ⟨some path, some explored⟩ = some a1 ∧
      Displayed path explored a.grid a1.grid := by
  obtain ⟨g1, hg1, hh1, hs1, hn1⟩ := markPoints_spec Node.isMarker
    (fun nd => { nd with is_path := true }) (fun _ => rfl) (fun _ => rfl) path a.grid
    (fun p hpm => (node?_isSome_of_square hsq p.x p.y).mpr (hp p hpm))
  have hsq1 := hs1 _ hsq
  obtain ⟨g2, hg2, hh2, _, hn2⟩ := markPoints_spec (fun nd => nd.isMarker || nd.is_path)
    (fun nd => { nd with visited := true }) (fun _ => rfl) (fun _ => rfl) explored g1
    (fun p hpm => (node?_isSome_of_square hsq1 p.x p.y).mpr (he p hpm))
  refine ⟨{ a with grid := g2 }, ?_, ?_⟩
  · unfold displayResult
    simp only [hg1, hg2]
  · have hh := sameHeader_trans hh1 hh2
    refine ⟨hh.2.2.1, hh.2.2.2, ?_⟩
    intro x y nd hnd
    obtain ⟨hv, ho, hpth⟩ := hnt x y nd hnd
    refine ⟨_, by rw [hn2, hn1, hnd]; rfl, ?_⟩
    unfold Node.isMarker
    by_cases h1 : (⟨x, y⟩ : Point) ∈ path <;> by_cases h2 : (⟨x, y⟩ : Point) ∈ explored <;>
      cases hst : nd.is_start <;> cases hen : nd.is_end <;>
      simp [h1, h2, hst, hen, hv, ho, hpth]

/-- Witness for C20: the diagonal path and two explored cells on the initial grid. -/
theorem displayResult_effect_witness :
    ∃ a1, displayResult initial ⟨some diagonalPath, some [⟨2, 2⟩, ⟨2, 1⟩]⟩ = some a1 ∧
      Displayed diagonalPath [⟨2, 2⟩, ⟨2, 1⟩] initial.grid a1.grid :=
  displayResult_effect initial diagonalPath [⟨2, 2⟩, ⟨2, 1⟩] (square_newGrid 30)
    (by
      intro x y nd hnd
      have hb : InBounds 30 x y :=
        (node?_isSome_of_square (square_newGrid 30) x y).mp (by
          show (initial.grid.node? x y).isSome = true
          rw [hnd]; rfl)
      have hnd1 : (newGrid 30).node? x y = some nd := hnd
      rw [node?_newGrid_int 30 x y hb] at hnd1
      cases hnd1
      exact ⟨rfl, rfl, rfl⟩)
    (by decide) (by decide)

/-! ## Pointer handlers -/

theorem outside_iff (a : App) (x y : Int) :
    outside a x y = false ↔ InBounds a.gridSize x y := by
  unfold outside InBounds
  simp only [Bool.or_eq_false_iff, decide_eq_false_iff_not]
  constructor
  · intro h; omega
  · intro h; omega

theorem toggleWall_total (a : App) (x y : Int) (hsq : a.grid.Square a.gridSize)
    (hb : InBounds a.gridSize x y) :
    ∃ g1, toggleWall a x y = some { a with grid := g1 } ∧ g1.Square a.gridSize := by
  obtain ⟨nd, hnd⟩ := Option.isSome_iff_exists.mp ((node?_isSome_of_square hsq x y).mpr hb)
  unfold toggleWall
  rw [hnd]
  by_cases hm : (nd.is_start || nd.is_end) = true
  · simp only [hm, if_true]
    exact ⟨a.grid, rfl, hsq⟩
  · simp only [hm]
    exact ⟨_, rfl, square_setNode hsq _ _ _⟩

theorem onMouseDown_calls (a : App) (e : MouseEvent) :
    onMouseDown a e =
      ((onMouseDownCalls a e).foldlM Call.run { a with isMouseDown := true }).map
        (fun a2 => if startsDrawing a e then { a2 with isDrawing := true } else a2) := by
  unfold onMouseDown onMouseDownCalls startsDrawing
  simp only []
  by_cases ho : outside { a with isMouseDown := true } e.x e.y = true
  · simp [ho, List.foldlM]
  · have ho1 : outside { a with isMouseDown := true } e.x e.y = false := by simpa using ho
    by_cases hb : (e.button == 2) = true
    · simp only [ho1, hb, Bool.false_eq_true, if_false, if_true, Bool.not_false, Bool.not_true,
        Bool.and_false, Bool.false_and, List.foldlM, Call.run]
      cases setStart { a with isMouseDown := true } e.x e.y <;> rfl
    · have hb1 : (e.button == 2) = false := by simpa using hb
      by_cases hc : e.ctrlKey = true
      · simp only [ho1, hb1, hc, Bool.false_eq_true, if_false, if_true, Bool.not_false,
          Bool.not_true, Bool.and_false, List.foldlM, Call.run]
        cases setEnd { a with isMouseDown := true } e.x e.y <;> rfl
      · have hc1 : e.ctrlKey = false := by simpa using hc
        simp only [ho1, hb1, hc1, Bool.false_eq_true, if_false, Bool.not_false, Bool.and_self,
          if_true, List.foldlM, Call.run]
        cases toggleWall { a with isMouseDown := true } e.x e.y <;> rfl

theorem onMouseMove_calls (a : App) (e : MouseEvent) :
    onMouseMove a e = (onMouseMoveCalls a e).foldlM Call.run a := by
  unfold onMouseMove onMouseMoveCalls
  by_cases hd : (!a.isMouseDown || !a.isDrawing) = true
  · simp [hd, List.foldlM]
  · have hd1 : (!a.isMouseDown || !a.isDrawing) = false := by simpa using hd
    by_cases ho : outside a e.x e.y = true
    · simp [hd1, ho, List.foldlM]
    · have ho1 : outside a e.x e.y = false := by simpa using ho
      simp only [hd1, ho1, Bool.false_eq_true, if_false, List.foldlM, Call.run]
      cases toggleWall a e.x e.y <;> rfl

theorem outside_true_iff (a : App) (x y : Int) :
    outside a x y = true ↔
      (x < 0 ∨ x ≥ (a.gridSize : Int) ∨ y < 0 ∨ y ≥ (a.gridSize : Int)) := by
  unfold outside
  simp only [Bool.or_eq_true, decide_eq_true_eq]
  constructor
  · rintro (((h | h) | h) | h)
    · exact Or.inl h
    · exact Or.inr (Or.inl h)
    · exact Or.inr (Or.inr (Or.inl h))
    · exact Or.inr (Or.inr (Or.inr h))
  · rintro (h | h | h | h)
    · exact Or.inl (Or.inl (Or.inl h))
    · exact Or.inl (Or.inl (Or.inr h))
    · exact Or.inl (Or.inr h)
    · exact Or.inr h

theorem mem_onMouseDownCalls {a : App} {e : MouseEvent} {c : Call}
    (h : c ∈ onMouseDownCalls a e) : c.x = e.x ∧ c.y = e.y ∧ outside a e.x e.y = false := by
  unfold onMouseDownCalls at h
  cases ho : outside a e.x e.y with
  | true =>
    have ho1 : outside { a with isMouseDown := true } e.x e.y = true := ho
    simp [ho1] at h
  | false =>
    have ho1 : outside { a with isMouseDown := true } e.x e.y = false := ho
    cases hb : (e.button == 2) <;> cases hc : e.ctrlKey <;>
      simp only [ho1, hb, hc, Bool.false_eq_true, if_false, if_true, List.mem_singleton] at h <;>
      subst h <;> exact ⟨rfl, rfl, rfl⟩

theorem mem_onMouseMoveCalls {a : App} {e : MouseEvent} {c : Call}
    (h : c ∈ onMouseMoveCalls a e) : c.x = e.x ∧ c.y = e.y ∧ outside a e.x e.y = false := by
  unfold onMouseMoveCalls at h
  cases ho : outside a e.x e.y with
  | true =>
    cases hd : (!a.isMouseDown || !a.isDrawing) <;> simp [ho, hd] at h
  | false =>
    cases hd : (!a.isMouseDown || !a.isDrawing) with
    | true => simp [hd] at h
    | false =>
      simp only [ho, hd, Bool.false_eq_true, if_false, List.mem_singleton] at h
      subst h
      exact ⟨rfl, rfl, rfl⟩

/-! ## Claim on pointer positions outside the grid -/

/-- C18: for a press or a move whose cell position is outside the grid (`x < 0`,
`x ≥ gridSize`, `y < 0` or `y ≥ gridSize`), `onMouseDown` only sets `isMouseDown`, `onMouseMove`
returns the state unchanged, and neither makes a call of `toggleWall`, `setStart` or `setEnd`.
Every call the two handlers make has coordinates inside the grid, so that on a grid of
`gridSize` rows of `gridSize` cells the node it looks up exists; the handlers do nothing else
to the state than carrying out these calls (and setting `isMouseDown`, `isDrawing`). -/
theorem outside_ignored (a : App) (e : MouseEvent) :
    ((e.x < 0 ∨ e.x ≥ (a.gridSize : Int) ∨ e.y < 0 ∨ e.y ≥ (a.gridSize : Int)) →
      onMouseDown a e = some { a with isMouseDown := true } ∧ onMouseDownCalls a e = [] ∧
      onMouseMove a e = some a ∧ onMouseMoveCalls a e = []) ∧
    (∀ c ∈ onMouseDownCalls a e ++ onMouseMoveCalls a e,
      InBounds a.gridSize c.x c.y ∧
      (a.grid.Square a.gridSize → (a.grid.node? c.x c.y).isSome = true)) ∧
    onMouseDown a e =
      ((onMouseDownCalls a e).foldlM Call.run { a with isMouseDown := true }).map
        (fun a2 => if startsDrawing a e then { a2 with isDrawing := true } else a2) ∧
    onMouseMove a e = (onMouseMoveCalls a e).foldlM Call.run a := by
  refine ⟨?_, ?_, onMouseDown_calls a e, onMouseMove_calls a e⟩
  · intro hout
    have ho : outside a e.x e.y = true := (outside_true_iff a e.x e.y).mpr hout
    have ho1 : outside { a with isMouseDown := true } e.x e.y = true := ho
    refine ⟨?_, ?_, ?_, ?_⟩
    · unfold onMouseDown
      simp only [ho1, if_true]
    · unfold onMouseDownCalls
      simp only [ho1, if_true]
    · unfold onMouseMove
      cases hd : (!a.isMouseDown || !a.isDrawing) <;> simp [hd, ho]
    · unfold onMouseMoveCalls
      cases hd : (!a.isMouseDown || !a.isDrawing) <;> simp [hd, ho]
  · intro c hc
    have hpos : c.x = e.x ∧ c.y = e.y ∧ outside a e.x e.y = false := by
      rcases List.mem_append.mp hc with h | h
      · exact mem_onMouseDownCalls h
      · exact mem_onMouseMoveCalls h
    obtain ⟨hx, hy, ho⟩ := hpos
    have hb : InBounds a.gridSize c.x c.y := by
      rw [hx, hy]
      exact (outside_iff a e.x e.y).mp ho
    exact ⟨hb, fun hsq => (node?_isSome_of_square hsq c.x c.y).mpr hb⟩

/-- Witness for C18: a press left of the initial grid. -/
theorem outside_ignored_witness :
    onMouseDown initial ⟨-1, 5, 0, false⟩ = some { initial with isMouseDown := true } ∧
    onMouseDownCalls initial ⟨-1, 5, 0, false⟩ = [] ∧
    onMouseMove initial ⟨-1, 5, 0, false⟩ = some initial ∧
    onMouseMoveCalls initial ⟨-1, 5, 0, false⟩ = [] :=
  (outside_ignored initial ⟨-1, 5, 0, false⟩).1 (Or.inl (by decide))

/-! ## Press, drag and release -/

theorem runPointer_append (a : App) (xs ys : List PointerEvent) :
    runPointer a (xs ++ ys) =
      match runPointer a xs with
      | none => none
      | some r =>
        match runPointer r.1 ys with
        | none => none
        | some r1 => some (r1.1, r.2 ++ r1.2) := by
  induction xs generalizing a with
  | nil =>
    show runPointer a ys = _
    simp only [runPointer]
    cases runPointer a ys <;> simp
  | cons ev evs ih =>
    show runPointer a (ev :: (evs ++ ys)) = _
    simp only [runPointer]
    cases handlePointer a ev with
    | none => rfl
    | some a1 =>
      simp only []
      rw [ih a1]
      cases runPointer a1 evs with
      | none => rfl
      | some r =>
        simp only []
        cases runPointer r.1 ys with
        | none => rfl
        | some r1 => simp [List.append_assoc]

theorem runPointer_idle_moves (s : App) (hidle : (!s.isMouseDown || !s.isDrawing) = true)
    (ms : List MouseEvent) :
    runPointer s (ms.map PointerEvent.move) = some (s, []) := by
  induction ms with
  | nil => rfl
  | cons m ms ih =>
    show runPointer s (PointerEvent.move m :: ms.map PointerEvent.move) = _
    have h1 : handlePointer s (PointerEvent.move m) = some s := by
      show onMouseMove s m = some s
      unfold onMouseMove
      simp [hidle]
    have h2 : pointerCalls s (PointerEvent.move m) = [] := by
      show onMouseMoveCalls s m = []
      unfold onMouseMoveCalls
      simp [hidle]
    simp only [runPointer, h1, ih, h2, List.append_nil]

theorem runPointer_drag (s : App) (hsq : s.grid.Square s.gridSize)
    (hdown : s.isMouseDown = true) (hdraw : s.isDrawing = true) (ms : List MouseEvent) :
    ∃ g1, g1.Square s.gridSize ∧
      runPointer s (ms.map PointerEvent.move) = some ({ s with grid := g1 },
        (ms.filter (fun m => !outside s m.x m.y)).map (fun m => Call.toggleWall m.x m.y)) := by
  induction ms generalizing s with
  | nil => exact ⟨s.grid, hsq, rfl⟩
  | cons m ms ih =>
    have hd : (!s.isMouseDown || !s.isDrawing) = false := by simp [hdown, hdraw]
    cases ho : outside s m.x m.y with
    | true =>
      obtain ⟨g1, hg1, hrun⟩ := ih s hsq hdown hdraw
      refine ⟨g1, hg1, ?_⟩
      show runPointer s (PointerEvent.move m :: ms.map PointerEvent.move) = _
      have h1 : handlePointer s (PointerEvent.move m) = some s := by
        show onMouseMove s m = some s
        unfold onMouseMove
        simp [hd, ho]
      have h2 : pointerCalls s (PointerEvent.move m) = [] := by
        show onMouseMoveCalls s m = []
        unfold onMouseMoveCalls
        simp [hd, ho]
      simp only [runPointer, h1, hrun, h2, List.nil_append]
      simp [List.filter, ho]
    | false =>
      have hb := (outside_iff s m.x m.y).mp ho
      obtain ⟨g0, hg0, hsq0⟩ := toggleWall_total s m.x m.y hsq hb
      obtain ⟨g1, hg1, hrun⟩ := ih { s with grid := g0 } hsq0 hdown hdraw
      refine ⟨g1, hg1, ?_⟩
      show runPointer s (PointerEvent.move m :: ms.map PointerEvent.move) = _
      have h1 : handlePointer s (PointerEvent.move m) = some { s with grid := g0 } := by
        show onMouseMove s m = _
        unfold onMouseMove
        simp only [hd, ho, Bool.false_eq_true, if_false]
        exact hg0
      have h2 : pointerCalls s (PointerEvent.move m) = [Call.toggleWall m.x m.y] := by
        show onMouseMoveCalls s m = _
        unfold onMouseMoveCalls
        simp [hd, ho]
      have hout : (fun m : MouseEvent => !outside { s with grid := g0 } m.x m.y)
          = (fun m : MouseEvent => !outside s m.x m.y) := rfl
      rw [hout] at hrun
      simp only [runPointer, h1, hrun, h2]
      simp [List.filter, ho]

theorem press_drag_release (a : App) (e0 : MouseEvent) (moves later : List MouseEvent)
    (hsq : a.grid.Square a.gridSize) (hin0 : InBounds a.gridSize e0.x e0.y)
    (hb : e0.button ≠ 2) (hc : e0.ctrlKey = false) :
    ∃ a1, runPointer a
        (PointerEvent.down e0 ::
          (moves.map PointerEvent.move ++ PointerEvent.up :: later.map PointerEvent.move))
      = some (a1, Call.toggleWall e0.x e0.y ::
          (moves.filter (fun m => !outside a m.x m.y)).map
            (fun m => Call.toggleWall m.x m.y)) := by
  have ho : outside { a with isMouseDown := true } e0.x e0.y = false :=
    (outside_iff a e0.x e0.y).mpr hin0
  have hb1 : (e0.button == 2) = false := by simpa using hb
  obtain ⟨g0, hg0, hsq0⟩ := toggleWall_total { a with isMouseDown := true } e0.x e0.y hsq hin0
  have h1 : handlePointer a (PointerEvent.down e0)
      = some { a with isMouseDown := true, isDrawing := true, grid := g0 } := by
    show onMouseDown a e0 = _
    unfold onMouseDown
    simp only [ho, hb1, hc, Bool.false_eq_true, if_false, hg0]
  have h2 : pointerCalls a (PointerEvent.down e0) = [Call.toggleWall e0.x e0.y] := by
    show onMouseDownCalls a e0 = _
    unfold onMouseDownCalls
    simp only [ho, hb1, hc, Bool.false_eq_true, if_false]
  obtain ⟨g1, hg1, hdrag⟩ := runPointer_drag
    { a with isMouseDown := true, isDrawing := true, grid := g0 } hsq0 rfl rfl moves
  have hidle := runPointer_idle_moves
    (onMouseUp { a with isMouseDown := true, isDrawing := true, grid := g1 }) rfl later
  have hup : runPointer { a with isMouseDown := true, isDrawing := true, grid := g1 }
      (PointerEvent.up :: later.map PointerEvent.move)
      = some (onMouseUp { a with isMouseDown := true, isDrawing := true, grid := g1 }, []) := by
    simp only [runPointer, handlePointer, hidle, pointerCalls, List.append_nil]
  refine ⟨onMouseUp { a with isMouseDown := true, isDrawing := true, grid := g1 }, ?_⟩
  simp only [runPointer, h1, h2]
  rw [runPointer_append, hdrag]
  simp only []
  rw [hup]
  simp only [List.append_nil, List.singleton_append]
  rfl

/-! ## Claim on drawing by dragging -/

/-- C13, as stated, fails: on the initial grid a press on the cell `(5, 5)` followed by two
move events that stay inside that cell and a release makes three calls `toggleWall(5, 5)`,
although the pointer entered one cell only. -/
theorem same_cell_moves_toggle_again :
    ∃ a1, runPointer initial
        [PointerEvent.down ⟨5, 5, 0, false⟩, PointerEvent.move ⟨5, 5, 0, false⟩,
          PointerEvent.move ⟨5, 5, 0, false⟩, PointerEvent.up]
      = some (a1, [Call.toggleWall 5 5, Call.toggleWall 5 5, Call.toggleWall 5 5]) :=
  press_drag_release initial ⟨5, 5, 0, false⟩ [⟨5, 5, 0, false⟩, ⟨5, 5, 0, false⟩] []
    (square_newGrid 30) (by decide) (by decide) rfl

/-- C13, amended: on a grid of `gridSize` rows of `gridSize` cells, for a press inside the
grid with a button other than the secondary one and without Ctrl, followed by any move
events, a release and any further move events, the handlers all return and the calls they
make are exactly `toggleWall` on the pressed cell and then `toggleWall` for every move event
before the release whose position is inside the grid, in order, one call per event whether
or not the cell changed; the move events after the release make no call. -/
theorem drag_toggles_every_move (a : App) (e0 : MouseEvent) (moves later : List MouseEvent)
    (hsq : a.grid.Square a.gridSize) (hin0 : InBounds a.gridSize e0.x e0.y)
    (hb : e0.button ≠ 2) (hc : e0.ctrlKey = false) :
    ∃ a1, runPointer a
        (PointerEvent.down e0 ::
          (moves.map PointerEvent.move ++ PointerEvent.up :: later.map PointerEvent.move))
      = some (a1, Call.toggleWall e0.x e0.y ::
          (moves.filter (fun m => !outside a m.x m.y)).map
            (fun m => Call.toggleWall m.x m.y)) :=
  press_drag_release a e0 moves later hsq hin0 hb hc

/-- Witness for the amended C13: a press on `(5, 5)`, a move to `(6, 5)`, a move outside the
grid, a release and a move to `(7, 5)`. -/
theorem drag_toggles_every_move_witness :
    ∃ a1, runPointer initial
        [PointerEvent.down ⟨5, 5, 0, false⟩, PointerEvent.move ⟨6, 5, 0, false⟩,
          PointerEvent.move ⟨-1, 5, 0, false⟩, PointerEvent.up,
          PointerEvent.move ⟨7, 5, 0, false⟩]
      = some (a1, [Call.toggleWall 5 5, Call.toggleWall 6 5]) :=
  drag_toggles_every_move initial ⟨5, 5, 0, false⟩ [⟨6, 5, 0, false⟩, ⟨-1, 5, 0, false⟩]
    [⟨7, 5, 0, false⟩] (square_newGrid 30) (by decide) (by decide) rfl

/-! ## The maze loop -/

theorem drawsInRow_succ (g : Grid) (y x : Nat) :
    drawsInRow g y (x + 1) = drawsInRow g y x + (if isFree g (x : Int) (y : Int) then 1 else 0) := by
  unfold drawsInRow
  rw [List.range_succ, List.filter_append, List.length_append]
  cases hf : isFree g (x : Int) (y : Int) <;> simp [List.filter, hf]

theorem drawsBeforeRow_succ (g : Grid) (n y : Nat) :
    drawsBeforeRow g n (y + 1) = drawsBeforeRow g n y + drawsInRow g y n := by
  unfold drawsBeforeRow
  rw [List.range_succ, List.map_append, List.sum_append]
  simp

theorem generateMazeBody_spec (rnd : Nat → ℚ) (x y : Int) (g : Grid) (k : Nat) (nd : Node)
    (hnd : g.node? x y = some nd) :
    ∃ g1, generateMazeBody rnd x y (g, k)
        = some (g1, k + (if !nd.is_start && !nd.is_end then 1 else 0)) ∧
      g.LocalUpdate g1 x y (mazeNode rnd k nd) := by
  unfold generateMazeBody mazeNode
  simp only [hnd]
  by_cases hc : (!nd.is_start && !nd.is_end) = true
  · by_cases hr : rnd k < wallThreshold
    · simp only [hc, hr, if_true]
      exact ⟨_, rfl, localUpdate_setNode hnd _⟩
    · simp only [hc, hr, if_true, if_false]
      exact ⟨_, rfl, localUpdate_self hnd⟩
  · simp only [hc, if_false]
    exact ⟨_, rfl, localUpdate_self hnd⟩

theorem isFree_of_node {g : Grid} {x y : Int} {nd : Node} (h : g.node? x y = some nd) :
    isFree g x y = (!nd.is_start && !nd.is_end) := by
  unfold isFree
  rw [h]

/-- Pointwise rule for the second loop of `generateMaze`: on a square grid it succeeds, and
the cell `(a, b)` is updated with the draw of index `drawIndex g0 n a b`. -/
theorem mazeLoop_spec (rnd : Nat → ℚ) (n : Nat) (g0 : Grid) (hsq : g0.Square n) :
    ∃ g1 k, forCells n (generateMazeBody rnd) (g0, 0) = some (g1, k) ∧ g0.SameHeader g1 ∧
      g1.Square n ∧
      ∀ a b : Nat, a < n → b < n →
        g1.node? a b = (g0.node? a b).map (mazeNode rnd (drawIndex g0 n a b)) := by
  have hout := range_foldlM_inv
    (fun (s : Grid × Nat) (y : Nat) =>
      (List.range n).foldlM
        (fun (s : Grid × Nat) (x : Nat) => generateMazeBody rnd (x : Int) (y : Int) s) s)
    (fun y s => g0.SameHeader s.1 ∧ s.1.Square n ∧ s.2 = drawsBeforeRow g0 n y ∧
      ∀ a b : Nat, a < n → b < n →
        s.1.node? a b = (g0.node? a b).map
          (fun nd => if b < y then mazeNode rnd (drawIndex g0 n a b) nd else nd))
    n ?_ (g0, 0) ⟨⟨rfl, rfl, rfl, rfl⟩, hsq, rfl, ?_⟩
  · obtain ⟨s, hs, hh, hsq1, _, hn⟩ := hout
    refine ⟨s.1, s.2, hs, hh, hsq1, ?_⟩
    intro a b ha hb
    rw [hn a b ha hb]
    simp only [hb, if_true]
  · intro y s hy ⟨hh, hs, hk, hn⟩
    have hin := range_foldlM_inv
      (fun (s : Grid × Nat) (x : Nat) => generateMazeBody rnd (x : Int) (y : Int) s)
      (fun x s2 => g0.SameHeader s2.1 ∧ s2.1.Square n ∧
        s2.2 = drawsBeforeRow g0 n y + drawsInRow g0 y x ∧
        ∀ a b : Nat, a < n → b < n →
          s2.1.node? a b = (g0.node? a b).map
            (fun nd => if b < y ∨ (b = y ∧ a < x) then mazeNode rnd (drawIndex g0 n a b) nd
              else nd))
      n ?_ s ⟨hh, hs, ?_, ?_⟩
    · obtain ⟨s2, hs2, hh2, hsq2, hk2, hn2⟩ := hin
      refine ⟨s2, hs2, hh2, hsq2, ?_, ?_⟩
      · rw [hk2, drawsBeforeRow_succ]
      · intro a b ha hb
        rw [hn2 a b ha hb]
        have hiff : (b < y ∨ (b = y ∧ a < n)) ↔ b < y + 1 := by omega
        simp only [hiff]
    · intro x s2 hx ⟨hh2, hsq2, hk2, hn2⟩
      have hbnd : InBounds n (x : Int) (y : Int) := by unfold InBounds; omega
      obtain ⟨nd0, hnd0⟩ := Option.isSome_iff_exists.mp
        ((node?_isSome_of_square hsq x y).mpr hbnd)
      have hcur : s2.1.node? x y = some nd0 := by
        rw [hn2 x y hx hy, hnd0]
        have : ¬ (y < y ∨ (y = y ∧ x < x)) := by omega
        simp [this]
      obtain ⟨g3, hbody, hh3, hsq3, hn3⟩ :=
        generateMazeBody_spec rnd x y s2.1 s2.2 nd0 hcur
      refine ⟨_, hbody, sameHeader_trans hh2 hh3, hsq3 n hsq2, ?_, ?_⟩
      · show s2.2 + _ = _
        rw [hk2, drawsInRow_succ, isFree_of_node hnd0, Nat.add_assoc]
      · intro a b ha hb
        show g3.node? a b = _
        rw [hn3 a b]
        by_cases hab : a = x ∧ b = y
        · obtain ⟨rfl, rfl⟩ := hab
          have hk3 : s2.2 = drawIndex g0 n a b := hk2
          have : (b < b ∨ (b = b ∧ a < a + 1)) := by omega
          simp [hnd0, this, hk3]
        · have hab1 : ¬ ((a : Int) = (x : Int) ∧ (b : Int) = (y : Int)) := by omega
          rw [if_neg hab1, hn2 a b ha hb]
          have hiff : (b < y ∨ (b = y ∧ a < x)) ↔ (b < y ∨ (b = y ∧ a < x + 1)) := by omega
          simp only [hiff]
    · rw [hk]
      simp [drawsInRow]
    · intro a b ha hb
      rw [hn a b ha hb]
      have hiff : (b < y ∨ (b = y ∧ a < 0)) ↔ b < y := by omega
      simp only [hiff]
  · intro a b _ _
    cases g0.node? a b <;> simp

theorem generateMaze_spec (a : App) (rnd : Nat → ℚ) (hsq : a.grid.Square a.gridSize) :
    ∃ g1, generateMaze a rnd
        = some { a with grid := g1, message := some ("Random maze generated!", "info") } ∧
      a.grid.SameHeader g1 ∧
      ∀ x y : Nat, x < a.gridSize → y < a.gridSize →
        g1.node? x y = (a.grid.node? x y).map
          (fun nd => mazeNode rnd (drawIndex a.grid a.gridSize x y) (clearWall nd)) := by
  obtain ⟨g0, hg0, hh0, hs0, hn0⟩ := clearWalls_spec a hsq
  obtain ⟨g1, k, hloop, hh1, _, hn1⟩ := mazeLoop_spec rnd a.gridSize g0 hs0
  have hfree : isFree g0 = isFree a.grid := by
    funext u v
    unfold isFree
    rw [hn0 u v]
    cases a.grid.node? u v with
    | none => rfl
    | some nd =>
      show (!(clearWall nd).is_start && !(clearWall nd).is_end) = _
      rw [(clearWall_structural nd).1, (clearWall_structural nd).2.1]
  have hidx : ∀ x y, drawIndex g0 a.gridSize x y = drawIndex a.grid a.gridSize x y := by
    intro x y
    unfold drawIndex drawsBeforeRow drawsInRow
    rw [hfree]
  refine ⟨g1, ?_, sameHeader_trans hh0 hh1, ?_⟩
  · unfold generateMaze
    rw [hg0]
    simp only [hloop]
  · intro x y hx hy
    rw [hn1 x y hx hy, hn0, hidx]
    cases a.grid.node? x y <;> rfl

theorem mazeOf_of_spec {rnd : Nat → ℚ} {n : Nat} {g g1 : Grid} (hsq : g.Square n)
    (hh : g.SameHeader g1)
    (hn : ∀ x y : Nat, x < n → y < n →
      g1.node? x y = (g.node? x y).map
        (fun nd => mazeNode rnd (drawIndex g n x y) (clearWall nd))) :
    MazeOf rnd n g g1 := by
  refine ⟨hh.2.2.1, hh.2.2.2, ?_⟩
  intro x y nd hnd
  have hb : InBounds n (x : Int) (y : Int) :=
    (node?_isSome_of_square hsq x y).mp (by rw [hnd]; rfl)
  have hx : x < n := by have := hb.2.1; omega
  have hy : y < n := by have := hb.2.2.2; omega
  refine ⟨_, by rw [hn x y hx hy, hnd]; rfl, ?_, ?_, ?_⟩
  · intro hs he
    by_cases hr : rnd (drawIndex g n x y) < wallThreshold <;>
      simp [mazeNode, clearWall, hs, he, hr]
  · intro hm
    rcases hm with h | h <;> simp [mazeNode, clearWall, h]
  · cases nd with
    | mk p w st en pa v o =>
      cases st <;> cases en <;>
        by_cases hr : rnd (drawIndex g n x y) < wallThreshold <;> simp [mazeNode, clearWall, hr]

/-! ## Claim on the random maze -/

/-- C15, as stated, fails: `generateMaze` has no density parameter (it is bound as a click
handler and reads no argument), so `generateMaze(1.0)` is `generateMaze()`. With every draw
equal to `0.5`, below a density of `1.0` but not below the double `0.3`, the node at `(0, 0)`
of the initial grid, which is no marker, is left with `is_wall = false`. -/
theorem maze_density_fixed :
    ((1 : ℚ) / 2 < 1) ∧
    ∃ a1, generateMaze initial (fun _ => 1 / 2) = some a1 ∧
      ∃ m, a1.grid.node? 0 0 = some m ∧ m.is_start = false ∧ m.is_end = false ∧
        m.is_wall = false := by
  refine ⟨by norm_num, ?_⟩
  obtain ⟨g1, hg1, _, hn⟩ := generateMaze_spec initial (fun _ => 1 / 2) (square_newGrid 30)
  refine ⟨_, hg1, ?_⟩
  have h00 := hn 0 0 (by decide) (by decide)
  have hnode : initial.grid.node? ((0 : Nat) : Int) ((0 : Nat) : Int)
      = some (newNode ⟨1, 1⟩ ⟨28, 28⟩ 0 0) := node?_newGrid_int 30 0 0 (by decide)
  rw [hnode] at h00
  refine ⟨_, h00, ?_, ?_, ?_⟩ <;> norm_num [mazeNode, clearWall, newNode, wallThreshold]

/-- C15, amended: `generateMaze` takes no density, the threshold is the constant `0.3`, a
double whose value `wallThreshold` is `5404319552844595 / 2 ^ 54`. On a grid of `gridSize`
rows of `gridSize` cells and for every sequence of draws, `generateMaze` returns, and
afterwards a node without marker has `is_wall = true` exactly when its draw (the draws are
made in row-major order, one per node without marker) is below that double, compared as
doubles are, by value, whatever walls existed before; a marker node keeps its `is_wall`,
which is `false` on a grid satisfying the marker invariant; every other field, `grid.start`
and `grid.end` are as before. -/
theorem generateMaze_walls (a : App) (rnd : Nat → ℚ) (hsq : a.grid.Square a.gridSize) :
    ∃ a1, generateMaze a rnd = some a1 ∧ MazeOf rnd a.gridSize a.grid a1.grid ∧
      (a.grid.MarkerInvariant → ∀ (x y : Int) (m : Node), a1.grid.node? x y = some m →
        (m.is_start = true ∨ m.is_end = true) → m.is_wall = false) := by
  obtain ⟨g1, hg1, hh, hn⟩ := generateMaze_spec a rnd hsq
  refine ⟨_, hg1, mazeOf_of_spec hsq hh hn, ?_⟩
  intro hinv x y m hm hmark
  obtain ⟨a2, ha2, _, _, _, hinv2⟩ := generateMaze_inv a rnd hsq hinv
  rw [hg1] at ha2
  cases ha2
  cases hw : m.is_wall with
  | false => rfl
  | true =>
    obtain ⟨h1, h2⟩ := hinv2.2.2.2.2 x y m hm hw
    rcases hmark with h | h
    · rw [h1] at h
      cases h
    · rw [h2] at h
      cases h

theorem fireFrame_of_mem (a : App) (id : Nat) (h : id ∈ a.frames) :
    fireFrame a id = animate { a with frames := a.frames.filter (fun h => h != id) } := by
  unfold fireFrame
  simp [h]

/-! ## Claim on rebuilding the grid during a playback -/

/-- C14, failing runs. A playback of three non-final steps listing `(2, 2)` starts on the
initial grid; its tick 0 leaves a timeout pending.
First run: the timeout fires and requests frame 1; `onGridSizeChange` to size 20 rebuilds
the grid without cancelling anything (frame 1 is still pending); frame 1 then runs `animate`
and marks `(2, 2)` of the rebuilt grid as visited.
Second run: `resetGrid` is called while the timeout is pending; `clearPath` cancels no
timeout, so after the rebuild the timeout fires, requests frame 1, and that frame marks
`(2, 2)` of the rebuilt grid as visited. -/
theorem stale_tick_after_rebuild :
    ∃ s1 s2 s4 r1 r2 r3 : App,
      animatePathfinding markRun = some s1 ∧ s1.timeouts = [60] ∧
      fireTimeout s1 0 = some s2 ∧ s2.frames = [1] ∧
      (onGridSizeChange s2 20).frames = [1] ∧
      fireFrame (onGridSizeChange s2 20) 1 = some s4 ∧ s4.gridSize = 20 ∧
      (∃ m, s4.grid.node? 2 2 = some m ∧ m.visited = true) ∧
      resetGrid s1 = some r1 ∧ r1.timeouts = [60] ∧
      fireTimeout r1 0 = some r2 ∧ fireFrame r2 1 = some r3 ∧
      (∃ m, r3.grid.node? 2 2 = some m ∧ m.visited = true) := by
  have hm30 : StepInBounds 30 markStep := by decide
  have hm20 : StepInBounds 20 markStep := by decide
  obtain ⟨g1, _, hs1, _, han1⟩ := animate_spec markRun markStep (square_newGrid 30) rfl hm30
  have e1 : animatePathfinding markRun = some
      { markRun with grid := g1, currentStep := 1, timeouts := [60] } := han1
  obtain ⟨g4, _, _, hn4, han4⟩ := animate_spec
    { markRun with gridSize := 20, grid := newGrid 20, currentStep := 1, timeouts := [],
                   frames := [], animationId := some 1, nextHandle := 2 }
    markStep (square_newGrid 20) rfl hm20
  have e4 : fireFrame (onGridSizeChange
      { markRun with grid := g1, currentStep := 1, timeouts := [], frames := [1],
                     animationId := some 1, nextHandle := 2 } 20) 1 = some
      { markRun with gridSize := 20, grid := g4, currentStep := 2, timeouts := [60],
                     frames := [], animationId := some 1, nextHandle := 2 } := by
    rw [fireFrame_of_mem _ _ (by show 1 ∈ [1]; simp)]
    exact han4
  have hv4 : ∃ m, g4.node? 2 2 = some m ∧ m.visited = true := by
    have : (newGrid 20).node? 2 2 = some (newNode ⟨1, 1⟩ ⟨18, 18⟩ 2 2) :=
      node?_newGrid_int 20 2 2 (by decide)
    refine ⟨paintNode markStep 2 2 (newNode ⟨1, 1⟩ ⟨18, 18⟩ 2 2), ?_, rfl⟩
    rw [hn4 2 2]
    show Option.map (paintNode markStep 2 2) ((newGrid 20).node? 2 2) = _
    rw [this]
    rfl
  obtain ⟨g2, hg2, _, _, _⟩ := clearVisualization_spec
    { markRun with grid := g1, currentStep := 1, timeouts := [60] } hs1
  have e5 : resetGrid { markRun with grid := g1, currentStep := 1, timeouts := [60] } = some
      { markRun with grid := newGrid 30, currentStep := 1, timeouts := [60],
                     status := "Ready" } := by
    show (match clearPath { markRun with grid := g1, currentStep := 1, timeouts := [60] } with
      | none => none
      | some a1 => some { createGrid a1 with status := "Ready" }) = _
    have hcp : clearPath { markRun with grid := g1, currentStep := 1, timeouts := [60] } = some
        { markRun with grid := g2, currentStep := 1, timeouts := [60], status := "Ready" } := by
      show (match clearVisualization
          { markRun with grid := g1, currentStep := 1, timeouts := [60] } with
        | none => none
        | some a2 => some { a2 with status := "Ready" }) = _
      rw [hg2]
    rw [hcp]
    rfl
  obtain ⟨g6, _, _, hn6, han6⟩ := animate_spec
    { markRun with grid := newGrid 30, currentStep := 1, timeouts := [], status := "Ready",
                   frames := [], animationId := some 1, nextHandle := 2 }
    markStep (square_newGrid 30) rfl hm30
  have e6 : fireFrame
      { markRun with grid := newGrid 30, currentStep := 1, timeouts := [], status := "Ready",
                     frames := [1], animationId := some 1, nextHandle := 2 } 1 = some
      { markRun with grid := g6, currentStep := 2, timeouts := [60], status := "Ready",
                     frames := [], animationId := some 1, nextHandle := 2 } := by
    rw [fireFrame_of_mem _ _ (by simp)]
    exact han6
  have hv6 : ∃ m, g6.node? 2 2 = some m ∧ m.visited = true := by
    have : (newGrid 30).node? 2 2 = some (newNode ⟨1, 1⟩ ⟨28, 28⟩ 2 2) :=
      node?_newGrid_int 30 2 2 (by decide)
    refine ⟨paintNode markStep 2 2 (newNode ⟨1, 1⟩ ⟨28, 28⟩ 2 2), ?_, rfl⟩
    rw [hn6 2 2]
    show Option.map (paintNode markStep 2 2) ((newGrid 30).node? 2 2) = _
    rw [this]
    rfl
  exact ⟨_, _, _, _, _, _, e1, rfl, rfl, rfl, rfl, e4, rfl, hv4, e5, rfl, rfl, e6, hv6⟩

/-! ## The search request -/

theorem clearVisualization_fields {a c : App} (h : clearVisualization a = some c) :
    c = { a with grid := c.grid } := by
  unfold clearVisualization at h
  split at h
  · cases h
  · cases h
    rfl

theorem clearPath_fields {a c : App} (h : clearPath a = some c) :
    c.gridSize = a.gridSize ∧ c.animationSteps = a.animationSteps ∧
    c.currentStep = a.currentStep ∧ c.animationSpeed = a.animationSpeed ∧
    c.timeouts = a.timeouts ∧ c.frames = (cancelPending a).frames ∧
    c.status = "Ready" ∧ c.message = a.message := by
  unfold clearPath at h
  simp only [] at h
  split at h
  · cases h
  · rename_i a2 h2
    cases h
    have e := clearVisualization_fields h2
    rw [e]
    unfold cancelPending
    cases a.animationId with
    | none => exact ⟨rfl, rfl, rfl, rfl, rfl, rfl, rfl, rfl⟩
    | some id =>
      by_cases h0 : (id != 0) = true
      · simp [h0, cancelAnimationFrame]
      · simp [h0]

theorem rowExists_of_inBounds {n : Nat} {g : Grid} (hsq : g.Square n) {x y : Int}
    (hb : InBounds n x y) : rowExists g y = true := by
  obtain ⟨hlen, _⟩ := hsq
  obtain ⟨_, _, h3, h4⟩ := hb
  unfold rowExists
  have hlt : y.toNat < g.nodes.length := by omega
  simp [h3, List.getElem?_eq_getElem hlt]

theorem findPathBegin_spec (a : App) (heuristic : String) (animate : Bool)
    (hsq : a.grid.Square a.gridSize)
    (hs : InBounds a.gridSize a.grid.start.x a.grid.start.y)
    (he : InBounds a.gridSize a.grid.end_.x a.grid.end_.y) :
    ∃ c, clearPath a = some c ∧
      (a.grid.start = a.grid.end_ →
        findPathBegin a heuristic animate = some
          ({ c with status := "Finding path...",
                    message := some ("Please set different start and end points", "error"),
                    loading := false, findPathDisabled := false }, none)) ∧
      (a.grid.start ≠ a.grid.end_ →
        findPathBegin a heuristic animate = some
          ({ c with loading := true, findPathDisabled := true, status := "Finding path..." },
            some { grid := c.grid, heuristic := heuristic, animate := animate })) := by
  obtain ⟨c, hc, _, hh, hsqc, _⟩ := clearPath_spec a hsq
  have hst : c.grid.start = a.grid.start := hh.2.2.1
  have hen : c.grid.end_ = a.grid.end_ := hh.2.2.2
  have hr1 : rowExists c.grid c.grid.start.y = true := by
    rw [hst]; exact rowExists_of_inBounds hsqc hs
  have hr2 : rowExists c.grid c.grid.end_.y = true := by
    rw [hen]; exact rowExists_of_inBounds hsqc he
  refine ⟨c, hc, ?_, ?_⟩
  · intro heq
    have hsame : (c.grid.start.x == c.grid.end_.x && c.grid.start.y == c.grid.end_.y) = true := by
      rw [hst, hen, heq]; simp
    unfold findPathBegin
    rw [hc]
    simp only [hr1, hr2, hsame, Bool.and_self, Bool.not_true, Bool.false_eq_true, if_false,
      if_true]
  · intro hne
    have hdiff : (c.grid.start.x == c.grid.end_.x && c.grid.start.y == c.grid.end_.y) = false := by
      rw [hst, hen]
      cases hx : (a.grid.start.x == a.grid.end_.x && a.grid.start.y == a.grid.end_.y) with
      | false => rfl
      | true =>
        exfalso
        apply hne
        simp only [Bool.and_eq_true, beq_iff_eq] at hx
        exact (point_eq_iff a.grid.end_ a.grid.start.x a.grid.start.y).mpr hx
    unfold findPathBegin
    rw [hc]
    simp only [hr1, hr2, hdiff, Bool.and_self, Bool.not_true, Bool.false_eq_true, if_false]

theorem findPath_failure_spec (a : App) (heuristic : String) (animate : Bool)
    (o : FetchOutcome) (msg : String) (hsq : a.grid.Square a.gridSize)
    (hs : InBounds a.gridSize a.grid.start.x a.grid.start.y)
    (he : InBounds a.gridSize a.grid.end_.x a.grid.end_.y)
    (hne : a.grid.start ≠ a.grid.end_) (hmsg : failureMessage o = some msg) :
    ∃ c, clearPath a = some c ∧
      findPath a heuristic animate o = some
        ({ c with status := "Error occurred", message := some ("Error: " ++ msg, "error"),
                  loading := false, findPathDisabled := false },
          some { grid := c.grid, heuristic := heuristic, animate := animate }) := by
  obtain ⟨c, hc, _, hbegin⟩ := findPathBegin_spec a heuristic animate hsq hs he
  refine ⟨c, hc, ?_⟩
  unfold findPath
  rw [hbegin hne]
  cases o with
  | failed m =>
    cases hmsg
    rfl
  | notOk e =>
    cases hmsg
    rfl
  | ok r => cases hmsg

/-! ## Claims on the search request -/

/-- C11: on a grid of `gridSize` rows of `gridSize` cells whose markers lie on one cell of the
grid (`grid.start = grid.end`), `findPath` returns without sending a request, whatever the
solver would have answered; it shows the message `Please set different start and end points`
of severity `error`, leaves the loading indicator off and the find-path control enabled, and
starts no playback: steps, cursor and pending timeouts are as before, and no animation frame
is pending that was not pending before. -/
theorem findPath_same_cell (a : App) (heuristic : String) (animate : Bool) (o : FetchOutcome)
    (hsq : a.grid.Square a.gridSize) (heq : a.grid.start = a.grid.end_)
    (hs : InBounds a.gridSize a.grid.start.x a.grid.start.y) :
    ∃ a1, findPath a heuristic animate o = some (a1, none) ∧
      a1.message = some ("Please set different start and end points", "error") ∧
      a1.loading = false ∧ a1.findPathDisabled = false ∧
      a1.animationSteps = a.animationSteps ∧ a1.currentStep = a.currentStep ∧
      a1.timeouts = a.timeouts ∧ (∀ id ∈ a1.frames, id ∈ a.frames) := by
  have he : InBounds a.gridSize a.grid.end_.x a.grid.end_.y := by rw [← heq]; exact hs
  obtain ⟨c, hc, hbegin, _⟩ := findPathBegin_spec a heuristic animate hsq hs he
  obtain ⟨_, f2, f3, _, f5, f6, _, _⟩ := clearPath_fields hc
  refine ⟨{ c with status := "Finding path...",
                   message := some ("Please set different start and end points", "error"),
                   loading := false, findPathDisabled := false },
    ?_, rfl, rfl, rfl, f2, f3, f5, ?_⟩
  · unfold findPath
    rw [hbegin heq]
  · intro id hid
    have hid1 : id ∈ c.frames := hid
    rw [f6] at hid1
    unfold cancelPending at hid1
    cases hai : a.animationId with
    | none =>
      rw [hai] at hid1
      exact hid1
    | some k =>
      rw [hai] at hid1
      by_cases h0 : (k != 0) = true
      · simp only [h0, if_true, cancelAnimationFrame] at hid1
        exact (List.mem_filter.mp hid1).1
      · simp only [h0] at hid1
        exact hid1

/-- Witness for C11: the grid of size 3, on which `createGrid` puts both markers on `(1, 1)`. -/
theorem findPath_same_cell_witness :
    ∃ a1, findPath (onGridSizeChange initial 3) "manhattan" true
        (FetchOutcome.failed "Failed to fetch") = some (a1, none) ∧
      a1.message = some ("Please set different start and end points", "error") ∧
      a1.loading = false ∧ a1.findPathDisabled = false ∧
      a1.animationSteps = (onGridSizeChange initial 3).animationSteps ∧
      a1.currentStep = (onGridSizeChange initial 3).currentStep ∧
      a1.timeouts = (onGridSizeChange initial 3).timeouts ∧
      (∀ id ∈ a1.frames, id ∈ (onGridSizeChange initial 3).frames) :=
  findPath_same_cell (onGridSizeChange initial 3) "manhattan" true
    (FetchOutcome.failed "Failed to fetch") (square_newGrid 3) rfl (by decide)

theorem cleared_of_pointwise {g g1 : Grid} (hh : g.SameHeader g1)
    (hn : ∀ x y, g1.node? x y = (g.node? x y).map clearFlags) : g.Cleared g1 := by
  obtain ⟨h1, h2, h3, h4⟩ := hh
  refine ⟨h1, h2, h3, h4, ?_, ?_⟩
  · intro x y hnone
    rw [hn, hnone]; rfl
  · intro x y nd hnd
    exact ⟨clearFlags nd, by rw [hn, hnd]; rfl, rfl, rfl, rfl, rfl, rfl, rfl, rfl⟩

/-! ## Concrete states and the cancellation of a frame -/

theorem wallThreshold_lt : wallThreshold < 3 / 10 := by
  unfold wallThreshold
  norm_num

theorem midPlayback_spec :
    ∃ g1, midPlayback = { markRun with grid := g1, currentStep := 1, timeouts := [],
                                       frames := [1], animationId := some 1, nextHandle := 2 } ∧
      g1.Square 30 ∧ markRun.grid.SameHeader g1 ∧
      g1.node? 2 2 = some (paintNode markStep 2 2 (newNode ⟨1, 1⟩ ⟨28, 28⟩ 2 2)) := by
  obtain ⟨g1, hh1, hs1, hn1, han1⟩ :=
    animate_spec markRun markStep (square_newGrid 30) rfl (by decide)
  have e1 : animatePathfinding markRun = some
      { markRun with grid := g1, currentStep := 1, timeouts := [60] } := han1
  have hnode : (newGrid 30).node? 2 2 = some (newNode ⟨1, 1⟩ ⟨28, 28⟩ 2 2) :=
    node?_newGrid_int 30 2 2 (by decide)
  refine ⟨g1, ?_, hs1, hh1, ?_⟩
  · unfold midPlayback
    rw [e1]
    rfl
  · rw [hn1 2 2]
    show Option.map (paintNode markStep 2 2) ((newGrid 30).node? 2 2) = _
    rw [hnode]
    rfl

theorem mazed_spec :
    ∃ g1, mazed = { initial with grid := g1,
                                 message := some ("Random maze generated!", "info") } ∧
      g1.Square 30 ∧ g1.MarkerInvariant ∧
      ∃ m, g1.node? 0 0 = some m ∧ m.is_wall = true := by
  obtain ⟨g1, hg1, _, hn⟩ := generateMaze_spec initial (fun _ => 0) (square_newGrid 30)
  obtain ⟨a2, ha2, _, _, hsq2, hinv2⟩ := generateMaze_inv initial (fun _ => 0)
    (square_newGrid 30) (markerInv_newGrid 30 (by decide))
  rw [hg1] at ha2
  cases ha2
  refine ⟨g1, ?_, hsq2, hinv2, ?_⟩
  · unfold mazed
    rw [hg1]
    rfl
  · have h00 := hn 0 0 (by decide) (by decide)
    have hnode : initial.grid.node? ((0 : Nat) : Int) ((0 : Nat) : Int)
        = some (newNode ⟨1, 1⟩ ⟨28, 28⟩ 0 0) := node?_newGrid_int 30 0 0 (by decide)
    rw [hnode] at h00
    refine ⟨_, h00, ?_⟩
    norm_num [mazeNode, clearWall, newNode, wallThreshold]

theorem frameCancelled_self (a : App)
    (h : a.animationId = none ∨ a.animationId = some 0) : FrameCancelled a a := by
  refine ⟨?_, ?_, fun _ => rfl, rfl⟩
  · intro k
    constructor
    · intro hm
      refine ⟨hm, ?_⟩
      rintro ⟨hn, hc⟩
      rcases h with h | h
      · rw [h] at hc
        cases hc
      · rw [h] at hc
        exact hn (Option.some.inj hc).symm
    · intro hm
      exact hm.1
  · intro id hid hne
    rcases h with h | h
    · rw [h] at hid
      cases hid
    · rw [h] at hid
      exact absurd (Option.some.inj hid).symm hne

theorem frameCancelled_frame (a : App) (id : Nat) (hid : a.animationId = some id)
    (hne : id ≠ 0) :
    FrameCancelled a { cancelAnimationFrame a id with animationId := none } := by
  refine ⟨?_, fun _ _ _ => rfl, ?_, rfl⟩
  · intro k
    show k ∈ a.frames.filter (fun h => h != id) ↔ _
    rw [List.mem_filter, hid]
    constructor
    · rintro ⟨hm, hn⟩
      refine ⟨hm, ?_⟩
      rintro ⟨_, hc⟩
      have hkid : id = k := Option.some.inj hc
      rw [hkid] at hn
      simp at hn
    · rintro ⟨hm, hn⟩
      refine ⟨hm, ?_⟩
      have hkid : k ≠ id := by
        intro hc
        apply hn
        rw [hc]
        exact ⟨hne, rfl⟩
      simpa using hkid
  · intro hc
    rcases hc with hc | hc
    · rw [hid] at hc
      cases hc
    · rw [hid] at hc
      exact absurd (Option.some.inj hc) hne

theorem frameCancelled_cancel (a : App) :
    FrameCancelled a
      (match a.animationId with
      | none => a
      | some id =>
        if id != 0 then { cancelAnimationFrame a id with animationId := none } else a) := by
  cases hid : a.animationId with
  | none => exact frameCancelled_self a (Or.inl hid)
  | some id =>
    by_cases hne : id = 0
    · subst hne
      exact frameCancelled_self a (Or.inr hid)
    · have h0 : (id != 0) = true := by simpa using hne
      simp only [h0, if_true]
      exact frameCancelled_frame a id hid hne

theorem clearPath_cancelled {a c : App} (h : clearPath a = some c) : FrameCancelled a c := by
  unfold clearPath at h
  simp only [] at h
  split at h
  · cases h
  · rename_i a2 h2
    cases h
    have e := clearVisualization_fields h2
    have hf := congrArg App.frames e
    have hi := congrArg App.animationId e
    have ht := congrArg App.timeouts e
    obtain ⟨k1, k2, k3, k4⟩ := frameCancelled_cancel a
    refine ⟨?_, ?_, ?_, ?_⟩
    · intro h
      show h ∈ a2.frames ↔ _
      rw [hf]
      exact k1 h
    · intro id h1 h2
      show a2.animationId = none
      rw [hi]
      exact k2 id h1 h2
    · intro h1
      show a2.animationId = a.animationId
      rw [hi]
      exact k3 h1
    · show a2.timeouts = a.timeouts
      rw [ht]
      exact k4

/-! ## Clearing the transient flags and the pending frame -/

/-- C8: on a grid of `gridSize` rows of `gridSize` cells, `clearVisualization` and `clearPath`
return, and afterwards every node has `visited = in_open_set = is_path = false` while
`is_wall`, `is_start`, `is_end` and the point of every node, `grid.start`, `grid.end`, `width`
and `height` are as before, whatever the transient flags were. `clearVisualization` changes
nothing but the grid: the pending frames, the pending timeouts and `animationId` are as
before. `clearPath` cancels the frame named by a non-zero `animationId` and sets `animationId`
to `null` then, leaves every other pending frame and every pending timeout in place, and
sets the status to "Ready". -/
theorem clearVisualization_frame (a : App) (hsq : a.grid.Square a.gridSize) :
    (∃ a1, clearVisualization a = some a1 ∧ a.grid.Cleared a1.grid ∧
      a1.frames = a.frames ∧ a1.timeouts = a.timeouts ∧ a1.animationId = a.animationId) ∧
    (∃ a1, clearPath a = some a1 ∧ a.grid.Cleared a1.grid ∧ FrameCancelled a a1 ∧
      a1.status = "Ready") := by
  constructor
  · obtain ⟨g1, hg1, hh, _, hn⟩ := clearVisualization_spec a hsq
    exact ⟨_, hg1, cleared_of_pointwise hh hn, rfl, rfl, rfl⟩
  · obtain ⟨a1, ha1, _, hh, _, hn⟩ := clearPath_spec a hsq
    exact ⟨a1, ha1, cleared_of_pointwise hh hn, clearPath_cancelled ha1,
      (clearPath_fields ha1).2.2.2.2.2.2.1⟩

/-- Witness for C8: in the middle of a playback, after tick 0 painted the node at `(2, 2)`
visited and requested frame 1, `clearVisualization` clears the flag and leaves frame 1
pending, and `clearPath` clears the flag, cancels frame 1 and sets `animationId` to `null`. -/
theorem clearVisualization_frame_witness :
    (∃ m, midPlayback.grid.node? 2 2 = some m ∧ m.visited = true) ∧
    midPlayback.frames = [1] ∧ midPlayback.animationId = some 1 ∧
    (∃ a1, clearVisualization midPlayback = some a1 ∧ midPlayback.grid.Cleared a1.grid ∧
      (∃ m, a1.grid.node? 2 2 = some m ∧ m.visited = false) ∧
      a1.frames = [1] ∧ a1.animationId = some 1) ∧
    (∃ a1, clearPath midPlayback = some a1 ∧ midPlayback.grid.Cleared a1.grid ∧
      (∃ m, a1.grid.node? 2 2 = some m ∧ m.visited = false) ∧
      a1.frames = [] ∧ a1.animationId = none ∧ a1.timeouts = [] ∧ a1.status = "Ready") := by
  obtain ⟨g1, hmid, hs1, _, hnode⟩ := midPlayback_spec
  have hsq : midPlayback.grid.Square midPlayback.gridSize := by rw [hmid]; exact hs1
  have hm : midPlayback.grid.node? 2 2
      = some (paintNode markStep 2 2 (newNode ⟨1, 1⟩ ⟨28, 28⟩ 2 2)) := by
    rw [hmid]; exact hnode
  have hfr : midPlayback.frames = [1] := by rw [hmid]
  have hid : midPlayback.animationId = some 1 := by rw [hmid]
  have hto : midPlayback.timeouts = [] := by rw [hmid]
  obtain ⟨⟨a1, h1, hc1, hf1, _, hi1⟩, ⟨a2, h2, hc2, hfc, hst⟩⟩ :=
    clearVisualization_frame midPlayback hsq
  refine ⟨⟨_, hm, by decide⟩, hfr, hid, ⟨a1, h1, hc1, ?_, by rw [hf1, hfr], by rw [hi1, hid]⟩,
    ⟨a2, h2, hc2, ?_, ?_, ?_, ?_, hst⟩⟩
  · obtain ⟨m, hm1, hv, _⟩ := hc1.2.2.2.2.2 2 2 _ hm
    exact ⟨m, hm1, hv⟩
  · obtain ⟨m, hm1, hv, _⟩ := hc2.2.2.2.2.2 2 2 _ hm
    exact ⟨m, hm1, hv⟩
  · rw [List.eq_nil_iff_forall_not_mem]
    intro h hmem
    obtain ⟨hin, hnot⟩ := (hfc.1 h).1 hmem
    rw [hfr] at hin
    rw [hid] at hnot
    have e : h = 1 := by simpa using hin
    subst e
    exact hnot ⟨by decide, rfl⟩
  · exact hfc.2.1 1 hid (by decide)
  · rw [hfc.2.2.2, hto]

/-! ## Walls on a grid with walls -/

/-- Witness for C19: the initial grid after a maze in which every draw was 0, so that every
node without marker is a wall, the one at `(0, 0)` among them; the grid satisfies the marker
invariant, and after `clearWalls` no node is a wall. -/
theorem clearWalls_effect_witness :
    (∃ m, mazed.grid.node? 0 0 = some m ∧ m.is_wall = true) ∧
    mazed.grid.MarkerInvariant ∧
    ∃ a1, clearWalls mazed = some a1 ∧ mazed.grid.WallsCleared a1.grid ∧
      (∀ x y m, a1.grid.node? x y = some m → m.is_wall = false) ∧
      (∃ m, a1.grid.node? 0 0 = some m ∧ m.is_wall = false) := by
  obtain ⟨g1, hmz, hsq1, hinv1, m0, hm0, hw0⟩ := mazed_spec
  have hsq : mazed.grid.Square mazed.gridSize := by rw [hmz]; exact hsq1
  have hinv : mazed.grid.MarkerInvariant := by rw [hmz]; exact hinv1
  have hm : mazed.grid.node? 0 0 = some m0 := by rw [hmz]; exact hm0
  obtain ⟨a1, h1, hwc, hall⟩ := clearWalls_effect mazed hsq
  refine ⟨⟨m0, hm, hw0⟩, hinv, a1, h1, hwc, hall hinv, ?_⟩
  obtain ⟨m, hm1, _⟩ := hwc.2.2 0 0 m0 hm
  exact ⟨m, hm1, hall hinv 0 0 m hm1⟩

/-- Witness for the amended C15: the initial grid, which satisfies the marker invariant. With
every draw equal to `0.25` the node at `(0, 0)` becomes a wall and no marker node is one;
with every draw equal to the double `0.3` itself, which is below the rational 3/10 and not
below the threshold, the node at `(0, 0)` is no wall. -/
theorem generateMaze_walls_witness :
    initial.grid.MarkerInvariant ∧
    (∃ a1, generateMaze initial (fun _ => 1 / 4) = some a1 ∧
      MazeOf (fun _ => 1 / 4) initial.gridSize initial.grid a1.grid ∧
      (∀ (x y : Int) (m : Node), a1.grid.node? x y = some m →
        (m.is_start = true ∨ m.is_end = true) → m.is_wall = false) ∧
      (∃ m, a1.grid.node? 0 0 = some m ∧ m.is_wall = true)) ∧
    (wallThreshold < 3 / 10 ∧
      ∃ a1, generateMaze initial (fun _ => wallThreshold) = some a1 ∧
        MazeOf (fun _ => wallThreshold) initial.gridSize initial.grid a1.grid ∧
        (∃ m, a1.grid.node? 0 0 = some m ∧ m.is_wall = false)) := by
  have hinv : initial.grid.MarkerInvariant := markerInv_newGrid 30 (by decide)
  have hnode : initial.grid.node? ((0 : Nat) : Int) ((0 : Nat) : Int)
      = some (newNode ⟨1, 1⟩ ⟨28, 28⟩ 0 0) := node?_newGrid_int 30 0 0 (by decide)
  have hs : (newNode ⟨1, 1⟩ ⟨28, 28⟩ 0 0).is_start = false := by simp [newNode]
  have he : (newNode ⟨1, 1⟩ ⟨28, 28⟩ 0 0).is_end = false := by simp [newNode]
  refine ⟨hinv, ?_, wallThreshold_lt, ?_⟩
  · obtain ⟨a1, h1, hmz, hmk⟩ :=
      generateMaze_walls initial (fun _ => 1 / 4) (square_newGrid 30)
    obtain ⟨m, hm, hw, _⟩ := hmz.2.2 0 0 _ hnode
    refine ⟨a1, h1, hmz, hmk hinv, m, hm, (hw hs he).2 ?_⟩
    norm_num [wallThreshold]
  · obtain ⟨a1, h1, hmz, _⟩ :=
      generateMaze_walls initial (fun _ => wallThreshold) (square_newGrid 30)
    obtain ⟨m, hm, hw, _⟩ := hmz.2.2 0 0 _ hnode
    refine ⟨a1, h1, hmz, m, hm, ?_⟩
    cases hmw : m.is_wall with
    | false => rfl
    | true => exact absurd ((hw hs he).1 hmw) (lt_irrefl _)

/-! ## A failed request -/

theorem midPlayback_facts :
    midPlayback.grid.Square midPlayback.gridSize ∧
    InBounds midPlayback.gridSize midPlayback.grid.start.x midPlayback.grid.start.y ∧
    InBounds midPlayback.gridSize midPlayback.grid.end_.x midPlayback.grid.end_.y ∧
    midPlayback.grid.start ≠ midPlayback.grid.end_ ∧
    midPlayback.grid.node? 2 2
      = some (paintNode markStep 2 2 (newNode ⟨1, 1⟩ ⟨28, 28⟩ 2 2)) ∧
    midPlayback.frames = [1] ∧ midPlayback.animationId = some 1 ∧
    midPlayback.timeouts = [] ∧ midPlayback.currentStep = 1 ∧
    midPlayback.animationSteps = [markStep, markStep, markStep] := by
  obtain ⟨g1, hmid, hs1, hh, hnode⟩ := midPlayback_spec
  have hst : g1.start = ⟨1, 1⟩ := hh.2.2.1
  have hen : g1.end_ = ⟨28, 28⟩ := hh.2.2.2
  rw [hmid]
  refine ⟨hs1, ?_, ?_, ?_, hnode, rfl, rfl, rfl, rfl, rfl⟩
  · show InBounds 30 g1.start.x g1.start.y
    rw [hst]; decide
  · show InBounds 30 g1.end_.x g1.end_.y
    rw [hen]; decide
  · show g1.start ≠ g1.end_
    rw [hst, hen]; decide

theorem frameCancelled_single {a a1 : App} {id : Nat} (h : FrameCancelled a a1)
    (hf : a.frames = [id]) (hid : a.animationId = some id) (hne : id ≠ 0) :
    a1.frames = [] ∧ a1.animationId = none ∧ a1.timeouts = a.timeouts := by
  refine ⟨?_, h.2.1 id hid hne, h.2.2.2⟩
  rw [List.eq_nil_iff_forall_not_mem]
  intro k hmem
  obtain ⟨hin, hnot⟩ := (h.1 k).1 hmem
  rw [hf] at hin
  have e : k = id := by simpa using hin
  subst e
  exact hnot ⟨hne, hid⟩

theorem findPathResume_failure (s : App) (o : FetchOutcome) (msg : String)
    (hmsg : failureMessage o = some msg) :
    findPathResume s o = some (errorPath s msg) := by
  cases o with
  | failed m =>
    cases hmsg
    rfl
  | notOk e =>
    cases hmsg
    rfl
  | ok r => cases hmsg

/-- A run in which other code runs while the request of `findPath` is awaited. Tick 0 of a
playback on the initial grid marks `(2, 2)` as visited and leaves a timeout pending. `findPath`
then clears the flag before it sends the request, and the timeout is still pending. While the
request is awaited the timeout fires and requests frame 1, and that frame runs `animate`,
which marks `(2, 2)` as visited again and moves the cursor from 1 to 2. The request then
fails: the error path leaves the grid and the cursor as the tick left them. -/
theorem findPath_await_tick :
    ∃ (s1 b b1 b2 a1 : App) (rq : Request) (m0 m : Node),
      animatePathfinding markRun = some s1 ∧ s1.timeouts = [60] ∧ s1.currentStep = 1 ∧
      findPathBegin s1 "manhattan" true = some (b, some rq) ∧
      b.timeouts = [60] ∧ b.currentStep = 1 ∧
      b.grid.node? 2 2 = some m0 ∧ m0.visited = false ∧
      fireTimeout b 0 = some b1 ∧ fireFrame b1 1 = some b2 ∧
      findPathResume b2 (FetchOutcome.failed "Failed to fetch") = some a1 ∧
      a1.grid.node? 2 2 = some m ∧ m.visited = true ∧ a1.currentStep = 2 ∧
      a1.status = "Error occurred" := by
  obtain ⟨g1, hh1, hs1, hn1, han1⟩ :=
    animate_spec markRun markStep (square_newGrid 30) rfl (by decide)
  have e1 : animatePathfinding markRun = some
      { markRun with grid := g1, currentStep := 1, timeouts := [60] } := han1
  have hst : g1.start = ⟨1, 1⟩ := hh1.2.2.1
  have hen : g1.end_ = ⟨28, 28⟩ := hh1.2.2.2
  obtain ⟨g2, hg2, _, hs2, hn2⟩ := clearVisualization_spec
    { markRun with grid := g1, currentStep := 1, timeouts := [60] } hs1
  have e2 : clearPath { markRun with grid := g1, currentStep := 1, timeouts := [60] } = some
      { markRun with grid := g2, currentStep := 1, timeouts := [60], status := "Ready" } := by
    show (match clearVisualization
        { markRun with grid := g1, currentStep := 1, timeouts := [60] } with
      | none => none
      | some a2 => some { a2 with status := "Ready" }) = _
    rw [hg2]
  obtain ⟨c, hc, _, hbegin⟩ := findPathBegin_spec
    { markRun with grid := g1, currentStep := 1, timeouts := [60] } "manhattan" true hs1
    (by show InBounds 30 g1.start.x g1.start.y; rw [hst]; decide)
    (by show InBounds 30 g1.end_.x g1.end_.y; rw [hen]; decide)
  rw [e2] at hc
  cases hc
  have hb := hbegin (by show g1.start ≠ g1.end_; rw [hst, hen]; decide)
  have hmark : StepInBounds 30 markStep := by decide
  obtain ⟨g3, _, _, hn3, han3⟩ := animate_spec
    { markRun with grid := g2, currentStep := 1, timeouts := [], status := "Finding path...",
                   loading := true, findPathDisabled := true, frames := [],
                   animationId := some 1, nextHandle := 2 }
    markStep hs2 rfl hmark
  have e5 : fireFrame
      { markRun with grid := g2, currentStep := 1, timeouts := [], status := "Finding path...",
                     loading := true, findPathDisabled := true, frames := [1],
                     animationId := some 1, nextHandle := 2 } 1 = some
      { markRun with grid := g3, currentStep := 2, timeouts := [60],
                     status := "Finding path...", loading := true, findPathDisabled := true,
                     frames := [], animationId := some 1, nextHandle := 2 } := han3
  have hnode : (newGrid 30).node? 2 2 = some (newNode ⟨1, 1⟩ ⟨28, 28⟩ 2 2) :=
    node?_newGrid_int 30 2 2 (by decide)
  have hm1 : g1.node? 2 2 = some (paintNode markStep 2 2 (newNode ⟨1, 1⟩ ⟨28, 28⟩ 2 2)) := by
    rw [hn1 2 2]
    show Option.map (paintNode markStep 2 2) ((newGrid 30).node? 2 2) = _
    rw [hnode]
    rfl
  have hm2 : g2.node? 2 2
      = some (clearFlags (paintNode markStep 2 2 (newNode ⟨1, 1⟩ ⟨28, 28⟩ 2 2))) := by
    rw [hn2 2 2]
    show Option.map clearFlags (g1.node? 2 2) = _
    rw [hm1]
    rfl
  have hm3 : g3.node? 2 2 = some (paintNode markStep 2 2
      (clearFlags (paintNode markStep 2 2 (newNode ⟨1, 1⟩ ⟨28, 28⟩ 2 2)))) := by
    rw [hn3 2 2]
    show Option.map (paintNode markStep 2 2) (g2.node? 2 2) = _
    rw [hm2]
    rfl
  exact ⟨_, _, _, _, _, _, _, _, e1, rfl, rfl, hb, rfl, rfl, hm2, rfl, rfl, e5, rfl, hm3,
    by decide, rfl, rfl⟩

/-- C12, as stated, fails. In the middle of a playback on the initial grid the node at
`(2, 2)` has `visited = true` and frame 1, named by `animationId`, is pending. `findPath`
clears the flag and cancels the frame before it sends the request, after which neither a
timeout nor a frame is pending, so nothing of the playback can run while the request is
awaited. The request then fails, and in the state `findPath` returns the node at `(2, 2)`
has `visited = false`, no frame is pending and `animationId` is `null`: the error path
restores nothing. -/
theorem findPath_failure_clears_flags :
    ∃ (b a1 : App) (rq : Request) (m m1 : Node),
      midPlayback.grid.node? 2 2 = some m ∧ m.visited = true ∧
      midPlayback.frames = [1] ∧ midPlayback.animationId = some 1 ∧
      findPathBegin midPlayback "manhattan" true = some (b, some rq) ∧
      b.timeouts = [] ∧ b.frames = [] ∧
      findPathResume b (FetchOutcome.failed "Failed to fetch") = some a1 ∧
      findPath midPlayback "manhattan" true (FetchOutcome.failed "Failed to fetch")
        = some (a1, some rq) ∧
      a1.grid.node? 2 2 = some m1 ∧ m1.visited = false ∧
      a1.frames = [] ∧ a1.animationId = none := by
  obtain ⟨hsq, hs, he, hne, hm, hfr, hid, hto, _, _⟩ := midPlayback_facts
  obtain ⟨c, hc, _, hbegin⟩ := findPathBegin_spec midPlayback "manhattan" true hsq hs he
  have hb := hbegin hne
  obtain ⟨c1, hc1, _, _, _, hnc⟩ := clearPath_spec midPlayback hsq
  rw [hc] at hc1
  cases hc1
  obtain ⟨hf0, hi0, ht0⟩ := frameCancelled_single (clearPath_cancelled hc) hfr hid (by decide)
  have hfp : findPath midPlayback "manhattan" true (FetchOutcome.failed "Failed to fetch")
      = some (errorPath { c with loading := true, findPathDisabled := true,
                                 status := "Finding path..." } "Failed to fetch",
          some { grid := c.grid, heuristic := "manhattan", animate := true }) := by
    unfold findPath
    rw [hb]
    rfl
  have hm1 : c.grid.node? 2 2
      = some (clearFlags (paintNode markStep 2 2 (newNode ⟨1, 1⟩ ⟨28, 28⟩ 2 2))) := by
    rw [hnc 2 2, hm]
    rfl
  exact ⟨_, _, _, _, _, hm, by decide, hfr, hid, hb, ht0.trans hto, hf0, rfl, hfp, hm1, rfl,
    hf0, hi0⟩

/-- C12, amended: on a grid of `gridSize` rows of `gridSize` cells with both markers inside
the grid and on different cells, when the request of `findPath` fails (rejected, unreadable,
or not `ok`, with reason `msg`), three things hold. First, before the request is sent,
`findPath` has set every transient flag to false, leaving `is_wall`, `is_start`, `is_end`,
`grid.start`, `grid.end`, the steps and the cursor as they were (the effect of the `clearPath`
it begins with); it has cancelled the frame named by a non-zero `animationId` and set
`animationId` to `null` then, and left every other pending frame and every pending timeout
in place; the loading indicator is on, the find-path control disabled, and the request
carries that grid. Second, when the failure is handled, in whatever state `s` the code that
ran while the request was awaited left, `findPath` returns and changes nothing of the grid,
the steps, the cursor, the pending timeouts and frames and `animationId` of `s`; it sets the
status to `Error occurred`, shows the message `Error: ` followed by the reason with severity
`error`, turns the loading indicator off and enables the find-path control. Third, if
nothing else runs while the request is awaited, the state after `findPath` is therefore the
state before it with the transient flags cleared, the frame cancelled as in the first item,
and the status, message, loading indicator and control as in the second. -/
theorem findPath_failure_effect (a : App) (heuristic : String) (animate : Bool)
    (o : FetchOutcome) (msg : String) (hsq : a.grid.Square a.gridSize)
    (hs : InBounds a.gridSize a.grid.start.x a.grid.start.y)
    (he : InBounds a.gridSize a.grid.end_.x a.grid.end_.y)
    (hne : a.grid.start ≠ a.grid.end_) (hmsg : failureMessage o = some msg) :
    (∃ b rq, findPathBegin a heuristic animate = some (b, some rq) ∧
      rq = { grid := b.grid, heuristic := heuristic, animate := animate } ∧
      a.grid.Cleared b.grid ∧ b.animationSteps = a.animationSteps ∧
      b.currentStep = a.currentStep ∧ FrameCancelled a b ∧
      b.loading = true ∧ b.findPathDisabled = true ∧
      ∃ a1, findPath a heuristic animate o = some (a1, some rq) ∧
        a.grid.Cleared a1.grid ∧ a1.animationSteps = a.animationSteps ∧
        a1.currentStep = a.currentStep ∧ FrameCancelled a a1 ∧
        a1.status = "Error occurred" ∧ a1.message = some ("Error: " ++ msg, "error") ∧
        a1.loading = false ∧ a1.findPathDisabled = false) ∧
    (∀ s : App, ∃ s1, findPathResume s o = some s1 ∧
      s1.grid = s.grid ∧ s1.gridSize = s.gridSize ∧ s1.animationSteps = s.animationSteps ∧
      s1.currentStep = s.currentStep ∧ s1.timeouts = s.timeouts ∧ s1.frames = s.frames ∧
      s1.animationId = s.animationId ∧ s1.status = "Error occurred" ∧
      s1.message = some ("Error: " ++ msg, "error") ∧ s1.loading = false ∧
      s1.findPathDisabled = false) := by
  constructor
  · obtain ⟨c, hc, _, hbegin⟩ := findPathBegin_spec a heuristic animate hsq hs he
    have hb := hbegin hne
    obtain ⟨c1, hc1, _, hh, _, hn⟩ := clearPath_spec a hsq
    rw [hc] at hc1
    cases hc1
    obtain ⟨_, f2, f3, _⟩ := clearPath_fields hc
    have hcl : a.grid.Cleared c.grid := cleared_of_pointwise hh hn
    have hfc : FrameCancelled a c := clearPath_cancelled hc
    have hfp : findPath a heuristic animate o
        = some (errorPath { c with loading := true, findPathDisabled := true,
                                   status := "Finding path..." } msg,
            some { grid := c.grid, heuristic := heuristic, animate := animate }) := by
      unfold findPath
      rw [hb]
      show (match findPathResume _ o with
        | none => none
        | some a2 => some (a2, some _)) = _
      rw [findPathResume_failure _ o msg hmsg]
    exact ⟨_, _, hb, rfl, hcl, f2, f3, hfc, rfl, rfl, _, hfp, hcl, f2, f3, hfc, rfl, rfl, rfl,
      rfl⟩
  · intro s
    exact ⟨_, findPathResume_failure s o msg hmsg, rfl, rfl, rfl, rfl, rfl, rfl, rfl, rfl, rfl,
      rfl, rfl⟩

/-- Witness for the amended C12: a response that is not `ok` and carries no reason, in the
middle of a playback: the node at `(2, 2)` is visited and frame 1 is pending before, and
after `findPath` the flag is false, the frame is cancelled, the steps and the cursor are as
before and the error is shown. -/
theorem findPath_failure_effect_witness :
    (∃ m, midPlayback.grid.node? 2 2 = some m ∧ m.visited = true) ∧
    midPlayback.frames = [1] ∧ midPlayback.animationId = some 1 ∧
    ∃ b rq a1, findPathBegin midPlayback "manhattan" true = some (b, some rq) ∧
      findPath midPlayback "manhattan" true (FetchOutcome.notOk none) = some (a1, some rq) ∧
      midPlayback.grid.Cleared a1.grid ∧
      (∃ m, a1.grid.node? 2 2 = some m ∧ m.visited = false) ∧
      a1.animationSteps = [markStep, markStep, markStep] ∧ a1.currentStep = 1 ∧
      a1.frames = [] ∧ a1.animationId = none ∧ a1.timeouts = [] ∧
      a1.status = "Error occurred" ∧ a1.message = some ("Error: Unknown error", "error") ∧
      a1.loading = false ∧ a1.findPathDisabled = false := by
  obtain ⟨hsq, hs, he, hne, hm, hfr, hid, hto, hcur, hsteps⟩ := midPlayback_facts
  obtain ⟨⟨b, rq, hb, _, _, _, _, _, _, _, a1, hfp, hcl, h2, h3, hfc, h5, h6, h7, h8⟩, _⟩ :=
    findPath_failure_effect midPlayback "manhattan" true (FetchOutcome.notOk none)
      "Unknown error" hsq hs he hne rfl
  obtain ⟨hf0, hi0, ht0⟩ := frameCancelled_single hfc hfr hid (by decide)
  obtain ⟨m1, hm1, hv1, _⟩ := hcl.2.2.2.2.2 2 2 _ hm
  exact ⟨⟨_, hm, by decide⟩, hfr, hid, b, rq, a1, hb, hfp, hcl, ⟨m1, hm1, hv1⟩,
    h2.trans hsteps, h3.trans hcur, hf0, hi0, ht0.trans hto, h5, h6, h7, h8⟩

end Visualizer
